import Mathlib

/-!
# SMB2 client connection core: `conn.go`

A shallow embedding of the send path (`conn.sendWith`), the receive path
(`conn.runReciever`, `conn.recv`) and the state they share.

* Machine integers are natural numbers; the width is applied where the Go code
  does arithmetic (`% 2^64` for `sequenceWindow`, `% 2^16` for `CreditRequest`).
* A `*requestResponse` is an address into `conn.heap`; the outstanding table maps a
  MessageId to such an address, as the Go map holds pointers.
* A channel is the FIFO list of the values sent to it and not yet received.
* The collaborators that `conn.go` only calls (transport, credit account, packet
  codecs, session crypto) are parameters: records of functions.
-/

namespace Smb2

/-- A byte slice. -/
abbrev Bytes := List Nat

/-- The width of `uint64`. -/
def two64 : Nat := 18446744073709551616

/-- The width of `uint16`. -/
def two16 : Nat := 65536

/-- The error values `conn.go` constructs. -/
inductive Error where
  | TransportError (err : String)
  | InvalidResponseError (msg : String)
  | InternalError (msg : String)
  | ResponseError (code : Nat) (data : List Bytes)
  deriving DecidableEq, Repr

/-- Modelled from the spec: the constant `SMB2_FLAGS_SIGNED` of `internal/smb2`
(the spec's `Flags & SIGNED`); the value is the one of the SMB2 header layout. -/
def SMB2_FLAGS_SIGNED : Nat := 0x00000008

/-- Modelled from the spec: the constant `SMB2_SESSION_FLAG_ENCRYPT_DATA` of
`internal/smb2` (the spec's `session.flags & ENCRYPT_DATA`). -/
def SMB2_SESSION_FLAG_ENCRYPT_DATA : Nat := 0x0004

/-- Modelled from the spec: the constant `SMB2_SHAREFLAG_ENCRYPT_DATA` of
`internal/smb2` (the spec's `tree.shareFlags & ENCRYPT_DATA`). -/
def SMB2_SHAREFLAG_ENCRYPT_DATA : Nat := 0x8000

/-- Modelled from the spec: the transform-header flag `Encrypted` of `internal/smb2`
(the spec's `Flags (=1 for Encrypted)`). -/
def Encrypted : Nat := 0x0001

/-- The MessageId of an unsolicited notification, line 426. -/
def broadcastMessageId : Nat := 0xFFFFFFFFFFFFFFFF

/-! ## Go maps keyed by an integer -/

/-- The lookup `m[k]` with its `ok` flag. -/
def mapGet {V : Type} : List (Nat × V) → Nat → Option V
  | [], _ => none
  | (k', v) :: rest, k => if k' = k then some v else mapGet rest k

/-- The statement `delete(m, k)`. -/
def mapDelete {V : Type} (m : List (Nat × V)) (k : Nat) : List (Nat × V) :=
  m.filter (fun e => decide (e.1 ≠ k))

/-- The assignment `m[k] = v`. -/
def mapSet {V : Type} (m : List (Nat × V)) (k : Nat) (v : V) : List (Nat × V) :=
  (k, v) :: mapDelete m k

/-! ## Requests -/

/-- The dynamic type of a `Packet`, as far as `sendWith` tests it. -/
inductive PacketKind where
  | CancelRequest
  | SessionSetupRequest
  | OtherRequest
  deriving DecidableEq, Repr

/-- The fields of `PacketHeader` that `sendWith` reads or writes. -/
structure PacketHeader where
  CreditCharge : Nat
  CreditRequest : Nat
  MessageId : Nat
  SessionId : Nat
  TreeId : Nat
  deriving DecidableEq, Repr

/-- The `Packet` interface: `Header()`, `Size()` and `Encode(pkt)`. `Encode` can only
store bytes into the buffer it is given, so it is the byte stored at each index. -/
structure Packet where
  kind : PacketKind
  hdr : PacketHeader
  Size : Nat
  Encode : PacketHeader → Nat → Nat

/-- The buffer after `pkt := make([]byte, req.Size()); req.Encode(pkt)`, lines 286-288. -/
def Packet.encoded (req : Packet) : Bytes :=
  (List.range req.Size).map (req.Encode req.hdr)

/-- The fields and methods of `session` that `conn.go` uses. -/
structure session where
  sessionId : Nat
  sessionFlags : Nat
  sign : Bytes → Bytes
  verify : Bytes → Bool
  encrypt : Bytes → Except String Bytes
  decrypt : Bytes → Except String Bytes

/-- The fields of `treeConn` that `conn.go` uses. -/
structure treeConn where
  treeId : Nat
  shareFlags : Nat

/-! ## Connection state -/

/-- The struct `requestResponse`, lines 190-194. -/
structure requestResponse where
  creditRequest : Nat
  recv : List Bytes
  err : Option Error
  deriving DecidableEq, Repr

/-- The struct `conn`, lines 196-221, over an account state `A` and a transport
state `T`. `heap` and `fresh` hold the `requestResponse` values that the pointers of
`Requests` refer to. -/
structure conn (A T : Type) where
  t : T
  sessionTable : List (Nat × session)
  Requests : List (Nat × Nat)
  heap : Nat → requestResponse
  fresh : Nat
  sequenceWindow : Nat
  maxTransactSize : Nat
  maxReadSize : Nat
  maxWriteSize : Nat
  serverGuid : Bytes
  requireSigning : Bool
  dialect : Nat
  clientGuid : Bytes
  capabilities : Nat
  preauthIntegrityHashId : Nat
  preauthIntegrityHashValue : Bytes
  cipherId : Nat
  account : A

/-- The collaborators of `conn.go`: the transport interface, the credit account and
the packet codecs of `internal/smb2`. -/
structure Env (A T : Type) where
  Write : T → Bytes → Option String × T
  ReadSize : T → Except String Nat × T
  Read : T → Nat → Except String Bytes × T
  opening : A → Nat × A
  grant : A → Nat → Nat → A
  request : A → Nat → (Nat × Bool) × A
  IsInvalid : Bytes → Bool
  MessageId : Bytes → Nat
  Flags : Bytes → Nat
  SessionId : Bytes → Nat
  CreditResponse : Bytes → Nat
  NextCommand : Bytes → Nat
  TransformIsInvalid : Bytes → Bool
  TransformFlags : Bytes → Nat
  TransformSessionId : Bytes → Nat

/-- A store through a `*requestResponse`. -/
def heapSet (h : Nat → requestResponse) (p : Nat) (rr : requestResponse) :
    Nat → requestResponse :=
  fun q => if q = p then rr else h q

/-! ## `conn.sendWith` -/

/-- What a call of `sendWith` leaves behind: the returned pointer or error, the
request (its header is written through a pointer), the connection, and the buffer
handed to `conn.t.Write` when the call got that far. -/
structure SendResult (A T : Type) where
  rr : Except Error Nat
  req : Packet
  conn : conn A T
  wire : Option Bytes

/-- The values lines 262-275 of `sendWith` leave: the MessageId, the header and the
connection. -/
structure Allocation (A T : Type) where
  msgId : Nat
  hdr : PacketHeader
  conn : conn A T

/-- Lines 262-275 of `sendWith`: the MessageId, the header's CreditRequest, and the
connection after the sequence window and the account were updated. -/
def sendWith_allocate {A T : Type} (env : Env A T) (c : conn A T) (req : Packet) :
    Allocation A T :=
  let hdr := req.hdr
  if req.kind = PacketKind.CancelRequest then
    { msgId := 0, hdr := hdr, conn := c }
  else
    let msgId := c.sequenceWindow
    let creditCharge := hdr.CreditCharge
    let c1 := { c with sequenceWindow := (c.sequenceWindow + creditCharge) % two64 }
    let hdr1 := if hdr.CreditRequest = 0 then { hdr with CreditRequest := creditCharge } else hdr
    let o := env.opening c1.account
    { msgId := msgId
      hdr := { hdr1 with CreditRequest := (hdr1.CreditRequest + o.1) % two16 }
      conn := { c1 with account := o.2 } }

/-- Lines 277-284 of `sendWith`: stamping MessageId, SessionId and TreeId. -/
def sendWith_stamp (hdr : PacketHeader) (msgId : Nat) (s : Option session)
    (tc : Option treeConn) : PacketHeader :=
  let hdr := { hdr with MessageId := msgId }
  match s with
  | none => hdr
  | some s =>
    let hdr := { hdr with SessionId := s.sessionId }
    match tc with
    | none => hdr
    | some tc => { hdr with TreeId := tc.treeId }

/-- Lines 290-302 of `sendWith`: signing and encryption of the encoded packet. -/
def sendWith_protect (kind : PacketKind) (s : Option session) (tc : Option treeConn)
    (pkt : Bytes) : Except Error Bytes :=
  match s with
  | none => .ok pkt
  | some s =>
    if kind = PacketKind.SessionSetupRequest then
      .ok pkt
    else
      let pkt := s.sign pkt
      if (s.sessionFlags &&& SMB2_SESSION_FLAG_ENCRYPT_DATA != 0) ||
          (match tc with
           | none => false
           | some tc => tc.shareFlags &&& SMB2_SHAREFLAG_ENCRYPT_DATA != 0) then
        match s.encrypt pkt with
        | .error e => .error (Error.InternalError e)
        | .ok pkt => .ok pkt
      else
        .ok pkt

/-- The method `conn.sendWith`, lines 256-327. -/
def sendWith {A T : Type} (env : Env A T) (c : conn A T) (req : Packet)
    (s : Option session) (tc : Option treeConn) : SendResult A T :=
  let a := sendWith_allocate env c req
  let msgId := a.msgId
  let c1 := a.conn
  let req1 : Packet := { req with hdr := sendWith_stamp a.hdr msgId s tc }
  match sendWith_protect req1.kind s tc req1.encoded with
  | .error e => { rr := .error e, req := req1, conn := c1, wire := none }
  | .ok pkt =>
    let rr := c1.fresh
    let c2 := { c1 with
      heap := heapSet c1.heap rr
        { creditRequest := req1.hdr.CreditRequest, recv := [], err := none }
      fresh := c1.fresh + 1
      Requests := mapSet c1.Requests msgId rr }
    let w := env.Write c2.t pkt
    match w.1 with
    | some e =>
      { rr := .error (Error.TransportError e), req := req1,
        conn := { c2 with t := w.2, Requests := mapDelete c2.Requests msgId },
        wire := some pkt }
    | none => { rr := .ok rr, req := req1, conn := { c2 with t := w.2 }, wire := some pkt }

/-- The header of the request after a call of `sendWith` (lines 260-284). -/
def sendWith_header {A T : Type} (env : Env A T) (c : conn A T) (req : Packet)
    (s : Option session) (tc : Option treeConn) : PacketHeader :=
  sendWith_stamp (sendWith_allocate env c req).hdr (sendWith_allocate env c req).msgId s tc

/-! ## `conn.recv` and `conn.runReciever` -/

/-- The method `conn.recv`, lines 329-335: `none` while the channel is empty (the
caller blocks), otherwise the returned pair and the slot with the value taken. -/
def recv (rr : requestResponse) : Option (Except Error Bytes × requestResponse) :=
  match rr.recv with
  | [] => none
  | pkt :: rest =>
    let rr1 := { rr with recv := rest }
    match rr.err with
    | some e => some (.error e, rr1)
    | none => some (.ok pkt, rr1)

/-- The blocking send `rr.recv <- pkt`, lines 473 and 478. A send that has to wait
for the reader of a full channel is taken as done: the value joins the queue. The
channel has capacity 1 (line 306), so in the Go program the receiver stays in a send
for as long as nobody reads the slot; the values delivered and their order are the
ones given here, the waiting is not followed. -/
def chanSend {A T : Type} (c : conn A T) (rr : Nat) (pkt : Bytes) : conn A T :=
  { c with heap := heapSet c.heap rr { c.heap rr with recv := (c.heap rr).recv ++ [pkt] } }

/-- The outcome of one pass through the body of the receiver's outer loop: the loop
goes on, it breaks with the terminal error, or the goroutine dies on a slice
expression out of range. -/
inductive StepResult (A T : Type) where
  | next (c : conn A T)
  | exit (c : conn A T) (err : Error)
  | crash (c : conn A T)

/-- Lines 395-450 of `runReciever`: the packet to route (the frame itself, or the
decrypted payload of a transform frame) or the error the loop breaks with. -/
def runReciever_verify {A T : Type} (env : Env A T) (c : conn A T) (pkt : Bytes) :
    Except Error Bytes :=
  if env.IsInvalid pkt then
    if env.TransformIsInvalid pkt then
      .error (Error.InvalidResponseError "broken packet header format")
    else if env.TransformFlags pkt ≠ Encrypted then
      .error (Error.InvalidResponseError "encrypted flag is not on")
    else
      match mapGet c.sessionTable (env.TransformSessionId pkt) with
      | none => .error (Error.InvalidResponseError "unknown session id returned")
      | some s =>
        match s.decrypt pkt with
        | .error e => .error (Error.InvalidResponseError e)
        | .ok pkt => .ok pkt
  else if env.MessageId pkt ≠ broadcastMessageId then
    if env.Flags pkt &&& SMB2_FLAGS_SIGNED ≠ 0 then
      match mapGet c.sessionTable (env.SessionId pkt) with
      | none => .error (Error.InvalidResponseError "unknown session id returned")
      | some s =>
        if !s.verify pkt then
          .error (Error.InvalidResponseError "unverified packet returned")
        else
          .ok pkt
    else if c.requireSigning then
      match mapGet c.sessionTable (env.SessionId pkt) with
      | some _ => .error (Error.InvalidResponseError "signing required")
      | none => .ok pkt
    else
      .ok pkt
  else
    .ok pkt

/-- The inner loop of `runReciever`, lines 468-483, for the slot `rr`. A pass with
`next ≠ 0` shortens `pkt` by at least one byte, so `pkt.length + 1` passes are never
used up (`runReciever_deliver_fuel`, `runReciever_deliver_crash`). -/
def runReciever_deliver {A T : Type} (env : Env A T) :
    Nat → conn A T → Nat → Bytes → StepResult A T
  | 0, c, _, _ => .crash c
  | fuel + 1, c, rr, pkt =>
    let c1 := { c with
      account := env.grant c.account (env.CreditResponse pkt) (c.heap rr).creditRequest }
    let next := env.NextCommand pkt
    if next = 0 then
      .next (chanSend c1 rr pkt)
    else if pkt.length < next then
      .crash c1
    else
      runReciever_deliver env fuel (chanSend c1 rr (pkt.take next)) rr (pkt.drop next)

/-- Lines 452-483 of `runReciever`: the lookup in the outstanding table and the
delivery. -/
def runReciever_route {A T : Type} (env : Env A T) (c : conn A T) (pkt : Bytes) :
    StepResult A T :=
  let msgId := env.MessageId pkt
  match mapGet c.Requests msgId with
  | none => .exit c (Error.InvalidResponseError "unknown message id returned")
  | some rr =>
    runReciever_deliver env (pkt.length + 1)
      { c with Requests := mapDelete c.Requests msgId } rr pkt

/-- One pass through the body of the outer loop of `runReciever`, lines 379-483. -/
def runReciever_step {A T : Type} (env : Env A T) (c : conn A T) : StepResult A T :=
  let r := env.ReadSize c.t
  match r.1 with
  | .error e => .exit { c with t := r.2 } (Error.TransportError e)
  | .ok n =>
    let r := env.Read r.2 n
    match r.1 with
    | .error e => .exit { c with t := r.2 } (Error.TransportError e)
    | .ok pkt =>
      match runReciever_verify env c pkt with
      | .error e => .exit { c with t := r.2 } e
      | .ok pkt => runReciever_route env { c with t := r.2 } pkt

/-- The body of the final loop of `runReciever`, lines 487-492, for one entry: the
error is stored and `nil` is sent unless the channel (capacity 1) is full. -/
def runReciever_post (err : Error) (h : Nat → requestResponse) (rr : Nat) :
    Nat → requestResponse :=
  let r := { h rr with err := some err }
  heapSet h rr (if r.recv.length < 1 then { r with recv := r.recv ++ [[]] } else r)

/-- The final loop of `runReciever`, lines 486-493. -/
def runReciever_drain {A T : Type} (err : Error) (c : conn A T) : conn A T :=
  { c with heap := c.Requests.foldl (fun h e => runReciever_post err h e.2) c.heap }

/-- How a run of the receiver stands after a number of passes. -/
inductive RunResult (A T : Type) where
  | exited (c : conn A T) (err : Error)
  | crashed (c : conn A T)
  | running (c : conn A T)

/-- The method `conn.runReciever`, lines 375-494, followed for at most `fuel`
passes of its outer loop. -/
def runReciever {A T : Type} (env : Env A T) : Nat → conn A T → RunResult A T
  | 0, c => .running c
  | fuel + 1, c =>
    match runReciever_step env c with
    | .next c1 => runReciever env fuel c1
    | .exit c1 err => .exited (runReciever_drain err c1) err
    | .crash c1 => .crashed c1

/-- The connection a pass of the loop body leaves. -/
def StepResult.conn {A T : Type} : StepResult A T → conn A T
  | .next c => c
  | .exit c _ => c
  | .crash c => c

/-- The connection a run of the receiver leaves. -/
def RunResult.conn {A T : Type} : RunResult A T → conn A T
  | .exited c _ => c
  | .crashed c => c
  | .running c => c

/-- The terminal error of a run of the receiver that has exited. -/
def RunResult.err {A T : Type} : RunResult A T → Option Error
  | .exited _ e => some e
  | .crashed _ => none
  | .running _ => none

/-- The next pass of the receiver's outer loop reads a frame and accepts it (lines
379-450 break on nothing), leaving `pkt` to be routed. -/
def runReciever_accepts {A T : Type} (env : Env A T) (c : conn A T) (pkt : Bytes) : Prop :=
  ∃ n frame, (env.ReadSize c.t).1 = .ok n ∧ (env.Read (env.ReadSize c.t).2 n).1 = .ok frame ∧
    runReciever_verify env c frame = .ok pkt

/-! ## Consecutive sends -/

/-- Consecutive calls of `sendWith` on one connection: the MessageId each request
carries after its call, in send order, and the connection after the last call. -/
def sendAll {A T : Type} (env : Env A T) :
    conn A T → List (Packet × Option session × Option treeConn) → List Nat × conn A T
  | c, [] => ([], c)
  | c, x :: rest =>
    let r := sendWith env c x.1 x.2.1 x.2.2
    let rs := sendAll env r.conn rest
    (r.req.hdr.MessageId :: rs.1, rs.2)

/-! ## A concrete environment

The wire layout of the packet header and of the transform header, a transport that
replays a list of frames, and a credit account, for evaluating the functions above
on explicit inputs. -/

/-- The little-endian unsigned integer held in the `n` bytes of `p` from offset `off`. -/
def leUint (p : Bytes) (off : Nat) : Nat → Nat
  | 0 => 0
  | n + 1 => p.getD off 0 % 256 + 256 * leUint p (off + 1) n

/-- The `n` little-endian bytes of `v`. -/
def leBytes (v : Nat) : Nat → Bytes
  | 0 => []
  | n + 1 => v % 256 :: leBytes (v / 256) n

/-- Modelled from the spec: `PacketCodec.IsInvalid` of `internal/smb2` (the spec's
64-byte header starting `0xFE 'S' 'M' 'B'`, invalid when the buffer is too short or
StructureSize mismatches). -/
def PacketCodec.IsInvalid (p : Bytes) : Bool :=
  decide (p.length < 64) || p.take 4 != [0xFE, 0x53, 0x4D, 0x42] || leUint p 4 2 != 64

/-- Modelled from the spec: `PacketCodec.CreditResponse`, the 16-bit field at offset 14. -/
def PacketCodec.CreditResponse (p : Bytes) : Nat := leUint p 14 2

/-- Modelled from the spec: `PacketCodec.Flags`, the 32-bit field at offset 16. -/
def PacketCodec.Flags (p : Bytes) : Nat := leUint p 16 4

/-- Modelled from the spec: `PacketCodec.NextCommand`, the 32-bit field at offset 20. -/
def PacketCodec.NextCommand (p : Bytes) : Nat := leUint p 20 4

/-- Modelled from the spec: `PacketCodec.MessageId`, the 64-bit field at offset 24. -/
def PacketCodec.MessageId (p : Bytes) : Nat := leUint p 24 8

/-- Modelled from the spec: `PacketCodec.SessionId`, the 64-bit field at offset 40. -/
def PacketCodec.SessionId (p : Bytes) : Nat := leUint p 40 8

/-- Modelled from the spec: `TransformCodec.IsInvalid` of `internal/smb2` (the spec's
transform header starting `0xFD 'S' 'M' 'B'`, 52 bytes long). -/
def TransformCodec.IsInvalid (p : Bytes) : Bool :=
  decide (p.length < 52) || p.take 4 != [0xFD, 0x53, 0x4D, 0x42]

/-- Modelled from the spec: `TransformCodec.Flags`, the 16-bit field at offset 42. -/
def TransformCodec.Flags (p : Bytes) : Nat := leUint p 42 2

/-- Modelled from the spec: `TransformCodec.SessionId`, the 64-bit field at offset 44. -/
def TransformCodec.SessionId (p : Bytes) : Nat := leUint p 44 8

/-- A response on the wire: the 64-byte plain header with the given CreditResponse,
Flags, NextCommand, MessageId and SessionId, followed by `body`. -/
def wireResponse (credits flags next msgId sessionId : Nat) (body : Bytes) : Bytes :=
  [0xFE, 0x53, 0x4D, 0x42] ++ leBytes 64 2 ++ leBytes 0 2 ++ leBytes 0 4 ++ leBytes 0 2 ++
    leBytes credits 2 ++ leBytes flags 4 ++ leBytes next 4 ++ leBytes msgId 8 ++
    leBytes 0 8 ++ leBytes sessionId 8 ++ leBytes 0 16 ++ body

/-- A transport for evaluation: the frames still to be read, the buffers written so
far, and whether writes fail. Reading past the last frame fails with `EOF`. -/
structure Pipe where
  incoming : List Bytes
  outgoing : List Bytes
  closed : Bool
  deriving DecidableEq, Repr

/-- `Write` of the evaluation transport. -/
def Pipe.Write (t : Pipe) (pkt : Bytes) : Option String × Pipe :=
  if t.closed then (some "closed", t) else (none, { t with outgoing := t.outgoing ++ [pkt] })

/-- `ReadSize` of the evaluation transport. -/
def Pipe.ReadSize (t : Pipe) : Except String Nat × Pipe :=
  match t.incoming with
  | [] => (.error "EOF", t)
  | f :: _ => (.ok f.length, t)

/-- `Read` of the evaluation transport. -/
def Pipe.Read (t : Pipe) (_n : Nat) : Except String Bytes × Pipe :=
  match t.incoming with
  | [] => (.error "EOF", t)
  | f :: rest => (.ok f, { t with incoming := rest })

/-- The evaluation environment: the wire codecs, the replaying transport, and an
account whose state is the pending opening count (`opening` hands it out and
resets it, `grant` leaves it alone, `request` grants what is wanted). -/
def wireEnv : Env Nat Pipe where
  Write := Pipe.Write
  ReadSize := Pipe.ReadSize
  Read := Pipe.Read
  opening := fun a => (a, 0)
  grant := fun a _ _ => a
  request := fun a wanted => ((wanted, true), a)
  IsInvalid := PacketCodec.IsInvalid
  MessageId := PacketCodec.MessageId
  Flags := PacketCodec.Flags
  SessionId := PacketCodec.SessionId
  CreditResponse := PacketCodec.CreditResponse
  NextCommand := PacketCodec.NextCommand
  TransformIsInvalid := TransformCodec.IsInvalid
  TransformFlags := TransformCodec.Flags
  TransformSessionId := TransformCodec.SessionId

/-- The connection as `negotiate` creates it (lines 72-82), with sequence window `w`
and transport `t`. -/
def newConn (t : Pipe) (w : Nat) : conn Nat Pipe where
  t := t
  sessionTable := []
  Requests := []
  heap := fun _ => { creditRequest := 0, recv := [], err := none }
  fresh := 0
  sequenceWindow := w
  maxTransactSize := 0
  maxReadSize := 0
  maxWriteSize := 0
  serverGuid := []
  requireSigning := false
  dialect := 0
  clientGuid := []
  capabilities := 0
  preauthIntegrityHashId := 0
  preauthIntegrityHashValue := []
  cipherId := 0
  account := 0

/-- A request of the given kind with CreditCharge `charge`, CreditRequest `request`
and MessageId `msgId` in its header, encoded as `size` bytes: the MessageId's low
byte first, then the body byte `0xAA`. -/
def testRequest (kind : PacketKind) (charge request msgId size : Nat) : Packet where
  kind := kind
  hdr := { CreditCharge := charge, CreditRequest := request, MessageId := msgId,
           SessionId := 0, TreeId := 0 }
  Size := size
  Encode := fun h i => if i = 0 then h.MessageId % 256 else 0xAA

/-- A session for evaluation: `sign` puts `0x5A` in front, `encrypt` puts `0xFD` in
front, `decrypt` takes one byte off, `verify` accepts a buffer ending in `0x01`. -/
def testSession (sessionId sessionFlags : Nat) : session where
  sessionId := sessionId
  sessionFlags := sessionFlags
  sign := fun p => 0x5A :: p
  verify := fun p => p.getLast? == some 1
  encrypt := fun p => .ok (0xFD :: p)
  decrypt := fun p => .ok (p.drop 1)

/-- The first of two requests of the evaluation scenarios. -/
def requestA : Packet := testRequest PacketKind.OtherRequest 1 0 0 8

/-- The second of two requests of the evaluation scenarios. -/
def requestB : Packet := testRequest PacketKind.OtherRequest 1 0 0 8

/-- The connection of the evaluation scenarios: window 1, the frames `frames` waiting
on the transport, and `requestA` and `requestB` sent in this order without a session
(MessageIds 1 and 2, slots 0 and 1). -/
def twoOutstanding (frames : List Bytes) : conn Nat Pipe :=
  (sendAll wireEnv (newConn ⟨frames, [], false⟩ 1)
    [(requestA, none, none), (requestB, none, none)]).2

/-- A reply to MessageId 1, not chained, with body `[0x0A]`. -/
def replyA : Bytes := wireResponse 1 0 0 1 0 [0x0A]

/-- A reply to MessageId 2, not chained, with body `[0x0B]`. -/
def replyB : Bytes := wireResponse 1 0 0 2 0 [0x0B]

/-- One frame with two chained replies: the first, to MessageId 1, has NextCommand 64;
the second, to MessageId 2, ends the chain and has body `[0x0B]`. -/
def compoundReply : Bytes := wireResponse 1 0 64 1 0 [] ++ wireResponse 1 0 0 2 0 [0x0B]

/-- The connection of `twoOutstanding` with signing required and the session with
SessionId 3 established. -/
def signingConn (frames : List Bytes) : conn Nat Pipe :=
  { twoOutstanding frames with
    sessionTable := [(3, testSession 3 0)]
    requireSigning := true }

/-- A reply to MessageId 1 for session 3 with the SIGNED flag, which `testSession`
verifies (it ends in `0x01`). -/
def signedReply : Bytes := wireResponse 1 SMB2_FLAGS_SIGNED 0 1 3 [0x01]

/-- A reply to MessageId 1 for session 3 without the SIGNED flag. -/
def unsignedReply : Bytes := wireResponse 1 0 0 1 3 [0x01]

/-! ## Constants of `internal/smb2` and `feature.go` used by the negotiation -/

/-- Modelled from the spec: the dialect `UnknownSMB`, an unset `SpecifiedDialect`. -/
def UnknownSMB : Nat := 0x0000

/-- Modelled from the spec: the placeholder dialect `SMB2` ("SMB 2.???", `0x02FF`). -/
def SMB2 : Nat := 0x02FF

/-- Modelled from the spec: the dialect 2.0.2. -/
def SMB202 : Nat := 0x0202

/-- Modelled from the spec: the dialect 2.1.0. -/
def SMB210 : Nat := 0x0210

/-- Modelled from the spec: the dialect 3.0.0. -/
def SMB300 : Nat := 0x0300

/-- Modelled from the spec: the dialect 3.0.2. -/
def SMB302 : Nat := 0x0302

/-- Modelled from the spec: the dialect 3.1.1. -/
def SMB311 : Nat := 0x0311

/-- Modelled from the spec: the hash algorithm id `SHA512`. -/
def SHA512 : Nat := 0x0001

/-- Modelled from the spec: the cipher id `AES128CCM`. -/
def AES128CCM : Nat := 0x0001

/-- Modelled from the spec: the cipher id `AES128GCM`. -/
def AES128GCM : Nat := 0x0002

/-- Modelled from the spec: the security mode `SMB2_NEGOTIATE_SIGNING_ENABLED`. -/
def SMB2_NEGOTIATE_SIGNING_ENABLED : Nat := 0x0001

/-- Modelled from the spec: the security mode `SMB2_NEGOTIATE_SIGNING_REQUIRED`. -/
def SMB2_NEGOTIATE_SIGNING_REQUIRED : Nat := 0x0002

/-- Modelled from the spec: the capability `SMB2_GLOBAL_CAP_LARGE_MTU`. -/
def SMB2_GLOBAL_CAP_LARGE_MTU : Nat := 0x00000004

/-- Modelled from the spec: `clientCapabilities`, "a fixed mask including DFS, LEASING,
LARGE_MTU, ENCRYPTION". -/
def clientCapabilities : Nat := 0x00000001 ||| 0x00000002 ||| 0x00000004 ||| 0x00000040

/-- Modelled from the spec: `clientDialects`, "the full client list
`[2.0.2, 2.1.0, 3.0.0, 3.0.2, 3.1.1]`". -/
def clientDialects : List Nat := [SMB202, SMB210, SMB300, SMB302, SMB311]

/-- Modelled from the spec: `clientHashAlgorithms`, `[SHA-512]`. -/
def clientHashAlgorithms : List Nat := [SHA512]

/-- Modelled from the spec: `clientCiphers`, `[AES-128-GCM, AES-128-CCM]`. -/
def clientCiphers : List Nat := [AES128GCM, AES128CCM]

/-- Modelled from the spec: the negotiate context type
`SMB2_PREAUTH_INTEGRITY_CAPABILITIES`. -/
def SMB2_PREAUTH_INTEGRITY_CAPABILITIES : Nat := 0x0001

/-- Modelled from the spec: the negotiate context type `SMB2_ENCRYPTION_CAPABILITIES`. -/
def SMB2_ENCRYPTION_CAPABILITIES : Nat := 0x0002

/-- Modelled from the spec: the command code `SMB2_NEGOTIATE`. -/
def SMB2_NEGOTIATE : Nat := 0x0000

/-- Modelled from the spec: the status `STATUS_SUCCESS`. -/
def STATUS_SUCCESS : Nat := 0x00000000

/-- The zero value of `[16]byte`, the `zero` of line 30. -/
def zero : Bytes := List.replicate 16 0

/-! ## The negotiator and its request -/

/-- The struct `Negotiator`, lines 13-17. -/
structure Negotiator where
  RequireMessageSigning : Bool
  ClientGuid : Bytes
  SpecifiedDialect : Nat
  deriving DecidableEq, Repr

/-- The fields of `NegotiateRequest` that `conn.go` writes; `hdr` is the embedded
`PacketHeader`. -/
structure NegotiateRequest where
  hdr : PacketHeader
  SecurityMode : Nat
  Capabilities : Nat
  ClientGuid : Bytes
  Dialects : List Nat
  HashAlgorithms : List Nat
  HashSalt : Bytes
  Ciphers : List Nat
  deriving DecidableEq, Repr

/-- The value of `new(NegotiateRequest)`, line 20. -/
def NegotiateRequest.new : NegotiateRequest where
  hdr := { CreditCharge := 0, CreditRequest := 0, MessageId := 0, SessionId := 0, TreeId := 0 }
  SecurityMode := 0
  Capabilities := 0
  ClientGuid := zero
  Dialects := []
  HashAlgorithms := []
  HashSalt := []
  Ciphers := []

/-- The decoders of `internal/smb2` that `negotiate`, `accept` and `acceptError` call,
each a function of the byte slice it is applied to, and the encoding of a
`NegotiateRequest` (its `Size()` and the byte `Encode` stores at each index). -/
structure Decoders where
  Command : Bytes → Nat
  Status : Bytes → Nat
  Data : Bytes → Bytes
  NegotiateIsInvalid : Bytes → Bool
  DialectRevision : Bytes → Nat
  SecurityMode : Bytes → Nat
  Capabilities : Bytes → Nat
  MaxTransactSize : Bytes → Nat
  MaxReadSize : Bytes → Nat
  MaxWriteSize : Bytes → Nat
  ServerGuid : Bytes → Bytes
  NegotiateContextList : Bytes → Bytes
  NegotiateContextCount : Bytes → Nat
  ContextIsInvalid : Bytes → Bool
  ContextType : Bytes → Nat
  ContextData : Bytes → Bytes
  ContextNext : Bytes → Nat
  HashIsInvalid : Bytes → Bool
  HashAlgorithms : Bytes → List Nat
  Salt : Bytes → Bytes
  CipherIsInvalid : Bytes → Bool
  Ciphers : Bytes → List Nat
  ErrorIsInvalid : Bytes → Bool
  ErrorData : Bytes → Bytes
  ErrorContextCount : Bytes → Nat
  ErrorContextIsInvalid : Bytes → Bool
  ErrorContextData : Bytes → Bytes
  ErrorContextNext : Bytes → Bytes
  NegotiateSize : NegotiateRequest → Nat
  NegotiateEncode : NegotiateRequest → PacketHeader → Nat → Nat

/-- The buffer of `n` bytes after `rand.Read` stored `bytes` into it. -/
def fillBuffer (n : Nat) (bytes : Bytes) : Bytes :=
  (List.range n).map (fun i => bytes.getD i 0)

/-- Lines 48-53 and 60-65 of `makeRequest`: the hash algorithms, the 32-byte salt from
the random source and the ciphers. -/
def makeRequest_contexts {R : Type} (rand : R → Nat → Except String Bytes × R)
    (req : NegotiateRequest) (r : R) : Except Error NegotiateRequest × R :=
  let req := { req with HashAlgorithms := clientHashAlgorithms }
  let salt := rand r 32
  match salt.1 with
  | .error e => (.error (Error.InternalError e), salt.2)
  | .ok bytes =>
    (.ok { req with HashSalt := fillBuffer 32 bytes, Ciphers := clientCiphers }, salt.2)

/-- Lines 20-37 of `makeRequest`: the request with SecurityMode, Capabilities and
ClientGuid set. -/
def makeRequest_guid {R : Type} (rand : R → Nat → Except String Bytes × R) (n : Negotiator)
    (r : R) : Except Error NegotiateRequest × R :=
  let req := NegotiateRequest.new
  let req :=
    if n.RequireMessageSigning then
      { req with SecurityMode := SMB2_NEGOTIATE_SIGNING_REQUIRED }
    else
      { req with SecurityMode := SMB2_NEGOTIATE_SIGNING_ENABLED }
  let req := { req with Capabilities := clientCapabilities }
  if n.ClientGuid = zero then
    let g := rand r 16
    match g.1 with
    | .error e => (.error (Error.InternalError e), g.2)
    | .ok bytes => (.ok { req with ClientGuid := fillBuffer 16 bytes }, g.2)
  else
    (.ok { req with ClientGuid := n.ClientGuid }, r)

/-- Lines 39-68 of `makeRequest`: the dialects and, for 3.1.1, the contexts. -/
def makeRequest_dialects {R : Type} (rand : R → Nat → Except String Bytes × R)
    (n : Negotiator) (req : NegotiateRequest) (r : R) : Except Error NegotiateRequest × R :=
  if n.SpecifiedDialect ≠ UnknownSMB then
    let req := { req with Dialects := [n.SpecifiedDialect] }
    if n.SpecifiedDialect = SMB202 then (.ok req, r)
    else if n.SpecifiedDialect = SMB210 then (.ok req, r)
    else if n.SpecifiedDialect = SMB300 then (.ok req, r)
    else if n.SpecifiedDialect = SMB302 then (.ok req, r)
    else if n.SpecifiedDialect = SMB311 then makeRequest_contexts rand req r
    else (.error (Error.InternalError "unsupported dialect specified"), r)
  else
    makeRequest_contexts rand { req with Dialects := clientDialects } r

/-- The method `Negotiator.makeRequest`, lines 19-69, with the random source `rand` in
state `r`. -/
def makeRequest {R : Type} (rand : R → Nat → Except String Bytes × R) (n : Negotiator)
    (r : R) : Except Error NegotiateRequest × R :=
  let guid := makeRequest_guid rand n r
  match guid.1 with
  | .error e => (.error e, guid.2)
  | .ok req => makeRequest_dialects rand n req guid.2

/-- The dialects `makeRequest` accepts as SpecifiedDialect, lines 43-47. -/
def supportedDialect (d : Nat) : Prop :=
  d = SMB202 ∨ d = SMB210 ∨ d = SMB300 ∨ d = SMB302 ∨ d = SMB311

/-! ## `accept`, `acceptError` and `conn.requestCreditCharge` -/

/-- The loop of `acceptError`, lines 360-369, for the `count` entries still to fill:
the data of the contexts in wire order, or the error of the first invalid one. -/
def acceptError_contexts (dec : Decoders) : Nat → Bytes → Except Error (List Bytes)
  | 0, _ => .ok []
  | count + 1, eData =>
    if dec.ErrorContextIsInvalid eData then
      .error (Error.InvalidResponseError "broken error context response format")
    else
      match acceptError_contexts dec count (dec.ErrorContextNext eData) with
      | .error e => .error e
      | .ok data => .ok (dec.ErrorContextData eData :: data)

/-- The function `acceptError`, lines 350-373. -/
def acceptError (dec : Decoders) (p : Bytes) : Error :=
  let r := dec.Data p
  if dec.ErrorIsInvalid r then
    Error.InvalidResponseError "broken error response format"
  else
    let eData := dec.ErrorData r
    let count := dec.ErrorContextCount r
    if count ≠ 0 then
      match acceptError_contexts dec count eData with
      | .error e => e
      | .ok data => Error.ResponseError (dec.Status p) data
    else
      Error.ResponseError (dec.Status p) [eData]

/-- The function `accept`, lines 337-348. -/
def accept (dec : Decoders) (cmd : Nat) (pkt : Bytes) : Except Error Bytes :=
  let command := dec.Command pkt
  if cmd ≠ command then
    .error (Error.InvalidResponseError
      ("expected command: " ++ toString cmd ++ ", got " ++ toString command))
  else if dec.Status pkt ≠ STATUS_SUCCESS then
    .error (acceptError dec pkt)
  else
    .ok (dec.Data pkt)

/-- Lines 238-242 of `requestCreditCharge`: the credit charge asked of the account.
`payloadSize` is a Go `int`: the division truncates towards zero and the conversion
to `uint16` keeps the low 16 bits. -/
def requestCreditCharge_wanted (capabilities : Nat) (payloadSize : Int) : Nat :=
  if capabilities &&& SMB2_GLOBAL_CAP_LARGE_MTU = 0 then
    1
  else
    (((payloadSize - 1).tdiv (64 * 1024) + 1) % 65536).toNat

/-- The method `conn.requestCreditCharge`, lines 237-250: the granted credit charge,
the granted payload size and the connection with the account after the request. -/
def requestCreditCharge {A T : Type} (env : Env A T) (c : conn A T) (payloadSize : Int) :
    (Nat × Int) × conn A T :=
  let r := env.request c.account (requestCreditCharge_wanted c.capabilities payloadSize)
  let creditCharge := r.1.1
  let c1 := { c with account := r.2 }
  if r.1.2 then
    ((creditCharge, payloadSize), c1)
  else
    ((creditCharge, 64 * 1024 * (creditCharge : Int)), c1)

/-! ## The wire layouts of the negotiation and of error responses

Concrete decoders for evaluating `negotiate`, `accept` and `acceptError` on explicit
packets. -/

/-- A packet on the wire: the 64-byte plain header with the given Status, Command,
CreditResponse, Flags, NextCommand, MessageId and SessionId, followed by `body`. -/
def wirePacket (status command credits flags next msgId sessionId : Nat) (body : Bytes) :
    Bytes :=
  [0xFE, 0x53, 0x4D, 0x42] ++ leBytes 64 2 ++ leBytes 0 2 ++ leBytes status 4 ++
    leBytes command 2 ++ leBytes credits 2 ++ leBytes flags 4 ++ leBytes next 4 ++
    leBytes msgId 8 ++ leBytes 0 8 ++ leBytes sessionId 8 ++ leBytes 0 16 ++ body

/-- The least multiple of 8 that is at least `n`. -/
def roundUp8 (n : Nat) : Nat := (n + 7) / 8 * 8

/-- Modelled from the spec: `PacketCodec.Status`, the 32-bit field at offset 8. -/
def PacketCodec.Status (p : Bytes) : Nat := leUint p 8 4

/-- Modelled from the spec: `PacketCodec.Command`, the 16-bit field at offset 12. -/
def PacketCodec.Command (p : Bytes) : Nat := leUint p 12 2

/-- Modelled from the spec: `PacketCodec.Data`, what follows the 64-byte header. -/
def PacketCodec.Data (p : Bytes) : Bytes := p.drop 64

/-- Modelled from the spec: `NegotiateResponseDecoder.IsInvalid` (too short, or
StructureSize is not 65). -/
def NegotiateResponseDecoder.IsInvalid (r : Bytes) : Bool :=
  decide (r.length < 64) || leUint r 0 2 != 65

/-- Modelled from the spec: `NegotiateResponseDecoder.NegotiateContextList`, the bytes
from NegotiateContextOffset (offset 60, counted from the start of the header). -/
def NegotiateResponseDecoder.NegotiateContextList (r : Bytes) : Bytes :=
  r.drop (leUint r 60 4 - 64)

/-- Modelled from the spec: `NegotiateContextDecoder.IsInvalid` of the TLV "16-bit
type, 16-bit length, 8-byte pad-aligned value" (too short for its header or its data). -/
def NegotiateContextDecoder.IsInvalid (ctx : Bytes) : Bool :=
  decide (ctx.length < 8) || decide (ctx.length < 8 + leUint ctx 2 2)

/-- Modelled from the spec: `NegotiateContextDecoder.Data`. -/
def NegotiateContextDecoder.Data (ctx : Bytes) : Bytes := (ctx.drop 8).take (leUint ctx 2 2)

/-- Modelled from the spec: `NegotiateContextDecoder.Next`, the padded length. -/
def NegotiateContextDecoder.Next (ctx : Bytes) : Nat := roundUp8 (8 + leUint ctx 2 2)

/-- Modelled from the spec: `HashContextDataDecoder.IsInvalid` of the "list of 16-bit
hash IDs + salt". -/
def HashContextDataDecoder.IsInvalid (d : Bytes) : Bool :=
  decide (d.length < 4) || decide (d.length < 4 + 2 * leUint d 0 2 + leUint d 2 2)

/-- Modelled from the spec: `HashContextDataDecoder.HashAlgorithms`. -/
def HashContextDataDecoder.HashAlgorithms (d : Bytes) : List Nat :=
  (List.range (leUint d 0 2)).map (fun i => leUint d (4 + 2 * i) 2)

/-- Modelled from the spec: `HashContextDataDecoder.Salt`. -/
def HashContextDataDecoder.Salt (d : Bytes) : Bytes :=
  (d.drop (4 + 2 * leUint d 0 2)).take (leUint d 2 2)

/-- Modelled from the spec: `CipherContextDataDecoder.IsInvalid` of the "list of 16-bit
cipher IDs". -/
def CipherContextDataDecoder.IsInvalid (d : Bytes) : Bool :=
  decide (d.length < 2) || decide (d.length < 2 + 2 * leUint d 0 2)

/-- Modelled from the spec: `CipherContextDataDecoder.Ciphers`. -/
def CipherContextDataDecoder.Ciphers (d : Bytes) : List Nat :=
  (List.range (leUint d 0 2)).map (fun i => leUint d (2 + 2 * i) 2)

/-- Modelled from the spec: `ErrorResponseDecoder.IsInvalid` (too short, or
StructureSize is not 9). -/
def ErrorResponseDecoder.IsInvalid (r : Bytes) : Bool :=
  decide (r.length < 8) || leUint r 0 2 != 9

/-- Modelled from the spec: `ErrorContextResponseDecoder.IsInvalid` of the tuple
"(ErrorId, ErrorDataLength, ErrorContextData)". -/
def ErrorContextResponseDecoder.IsInvalid (ctx : Bytes) : Bool :=
  decide (ctx.length < 8) || decide (ctx.length < 8 + leUint ctx 4 4)

/-- Modelled from the spec: `ErrorContextResponseDecoder.ErrorContextData`. -/
def ErrorContextResponseDecoder.ErrorContextData (ctx : Bytes) : Bytes :=
  (ctx.drop 8).take (leUint ctx 4 4)

/-- Modelled from the spec: `ErrorContextResponseDecoder.Next`, the bytes after the
padded context. -/
def ErrorContextResponseDecoder.Next (ctx : Bytes) : Bytes :=
  ctx.drop (roundUp8 (8 + leUint ctx 4 4))

/-- Modelled from the spec: the encoding of a `NegotiateRequest`, the plain header
followed by StructureSize 36, DialectCount, SecurityMode, Capabilities, ClientGuid and
the dialects; the negotiate contexts are left out. -/
def wireNegotiateRequest (req : NegotiateRequest) (hdr : PacketHeader) : Bytes :=
  [0xFE, 0x53, 0x4D, 0x42] ++ leBytes 64 2 ++ leBytes hdr.CreditCharge 2 ++ leBytes 0 4 ++
    leBytes SMB2_NEGOTIATE 2 ++ leBytes hdr.CreditRequest 2 ++ leBytes 0 4 ++ leBytes 0 4 ++
    leBytes hdr.MessageId 8 ++ leBytes 0 4 ++ leBytes hdr.TreeId 4 ++
    leBytes hdr.SessionId 8 ++ leBytes 0 16 ++
    leBytes 36 2 ++ leBytes req.Dialects.length 2 ++ leBytes req.SecurityMode 2 ++
    leBytes 0 2 ++ leBytes req.Capabilities 4 ++ fillBuffer 16 req.ClientGuid ++
    leBytes 0 8 ++ (req.Dialects.map (fun d => leBytes d 2)).flatten

/-- The decoders of the wire layouts above. -/
def wireDecoders : Decoders where
  Command := PacketCodec.Command
  Status := PacketCodec.Status
  Data := PacketCodec.Data
  NegotiateIsInvalid := NegotiateResponseDecoder.IsInvalid
  DialectRevision := fun r => leUint r 4 2
  SecurityMode := fun r => leUint r 2 2
  Capabilities := fun r => leUint r 24 4
  MaxTransactSize := fun r => leUint r 28 4
  MaxReadSize := fun r => leUint r 32 4
  MaxWriteSize := fun r => leUint r 36 4
  ServerGuid := fun r => (r.drop 8).take 16
  NegotiateContextList := NegotiateResponseDecoder.NegotiateContextList
  NegotiateContextCount := fun r => leUint r 6 2
  ContextIsInvalid := NegotiateContextDecoder.IsInvalid
  ContextType := fun ctx => leUint ctx 0 2
  ContextData := NegotiateContextDecoder.Data
  ContextNext := NegotiateContextDecoder.Next
  HashIsInvalid := HashContextDataDecoder.IsInvalid
  HashAlgorithms := HashContextDataDecoder.HashAlgorithms
  Salt := HashContextDataDecoder.Salt
  CipherIsInvalid := CipherContextDataDecoder.IsInvalid
  Ciphers := CipherContextDataDecoder.Ciphers
  ErrorIsInvalid := ErrorResponseDecoder.IsInvalid
  ErrorData := fun r => r.drop 8
  ErrorContextCount := fun r => leUint r 2 1
  ErrorContextIsInvalid := ErrorContextResponseDecoder.IsInvalid
  ErrorContextData := ErrorContextResponseDecoder.ErrorContextData
  ErrorContextNext := ErrorContextResponseDecoder.Next
  NegotiateSize := fun req => 64 + 36 + 2 * req.Dialects.length
  NegotiateEncode := fun req hdr i => (wireNegotiateRequest req hdr).getD i 0

/-- A negotiate context on the wire: type, data length, reserved, the data, and the
padding to a multiple of 8 bytes. -/
def wireContext (type : Nat) (data : Bytes) : Bytes :=
  leBytes type 2 ++ leBytes data.length 2 ++ leBytes 0 4 ++ data ++
    List.replicate (roundUp8 data.length - data.length) 0

/-- The data of a hash context on the wire. -/
def wireHashData (algs : List Nat) (salt : Bytes) : Bytes :=
  leBytes algs.length 2 ++ leBytes salt.length 2 ++ (algs.map (fun a => leBytes a 2)).flatten ++
    salt

/-- The data of a cipher context on the wire. -/
def wireCipherData (ciphers : List Nat) : Bytes :=
  leBytes ciphers.length 2 ++ (ciphers.map (fun a => leBytes a 2)).flatten

/-- The body of a NEGOTIATE response on the wire: SecurityMode, DialectRevision,
NegotiateContextCount and Capabilities as given, ServerGuid `0x11 ...`, the three
maximal sizes 65536, and the contexts at offset 128 from the header. -/
def wireNegotiateResponse (securityMode dialect count capabilities : Nat) (contexts : Bytes) :
    Bytes :=
  leBytes 65 2 ++ leBytes securityMode 2 ++ leBytes dialect 2 ++ leBytes count 2 ++
    List.replicate 16 0x11 ++ leBytes capabilities 4 ++ leBytes 65536 4 ++ leBytes 65536 4 ++
    leBytes 65536 4 ++ leBytes 0 8 ++ leBytes 0 8 ++ leBytes 128 2 ++ leBytes 0 2 ++
    leBytes 128 4 ++ contexts

/-- An error response body on the wire: StructureSize 9, ErrorContextCount, ByteCount
and the error data. -/
def wireErrorResponse (count : Nat) (data : Bytes) : Bytes :=
  leBytes 9 2 ++ leBytes count 1 ++ leBytes 0 1 ++ leBytes data.length 4 ++ data

/-- An error context on the wire: ErrorId, ErrorDataLength, the data, and the padding
to a multiple of 8 bytes. -/
def wireErrorContext (errorId : Nat) (data : Bytes) : Bytes :=
  leBytes errorId 4 ++ leBytes data.length 4 ++ data ++
    List.replicate (roundUp8 data.length - data.length) 0

/-- A random source for evaluation: the state counts the calls, and call `k` for `n`
bytes gives `k + 1, k + 2, ...`. -/
def countingRand (k : Nat) (n : Nat) : Except String Bytes × Nat :=
  (.ok ((List.range n).map (fun i => k + 1 + i)), k + 1)

/-! ## `conn.sendRecv` and `Negotiator.negotiate`

`negotiate` starts the receiver goroutine and then waits in `recv` for each reply. The
receiver is followed while the caller waits: a wait runs passes of `runReciever` until
the caller's channel holds a value. -/

/-- How a wait in `recv` ends: `recv` returns (with the connection and whether the
receiver is still in its loop), the caller waits for ever on an empty channel that no
receiver serves, or the receiver goroutine died. -/
inductive Received (A T : Type) where
  | returned (c : conn A T) (receiving : Bool) (res : Except Error Bytes)
  | blocked (c : conn A T)
  | crashed (c : conn A T)

/-- The call `conn.recv(rr)` of line 229 with the receiver goroutine beside it, for at
most `fuel` looks at the channel. -/
def recvWait {A T : Type} (env : Env A T) : Nat → conn A T → Bool → Nat → Received A T
  | 0, c, _, _ => .blocked c
  | fuel + 1, c, receiving, rr =>
    match recv (c.heap rr) with
    | some (res, rr1) => .returned { c with heap := heapSet c.heap rr rr1 } receiving res
    | none =>
      if receiving then
        match runReciever_step env c with
        | .next c1 => recvWait env fuel c1 true rr
        | .exit c1 err => recvWait env fuel (runReciever_drain err c1) false rr
        | .crash c1 => .crashed c1
      else
        .blocked c

/-- The method `conn.sendRecv`, lines 223-235. Every pass of the receiver that goes on
takes an entry out of the outstanding table, so `Requests.length + 2` looks at the
channel are never used up (`recvWait_fuel`). -/
def sendRecv {A T : Type} (env : Env A T) (dec : Decoders) (c : conn A T) (receiving : Bool)
    (cmd : Nat) (req : Packet) : Received A T :=
  let s := sendWith env c req none none
  match s.rr with
  | .error e => .returned s.conn receiving (.error e)
  | .ok rr =>
    match recvWait env (s.conn.Requests.length + 2) s.conn receiving rr with
    | .returned c1 receiving1 (.error e) => .returned c1 receiving1 (.error e)
    | .returned c1 receiving1 (.ok pkt) => .returned c1 receiving1 (accept dec cmd pkt)
    | .blocked c1 => .blocked c1
    | .crashed c1 => .crashed c1

/-- The response `sendRecv` returned, when it returned one without error. -/
def Received.reply {A T : Type} : Received A T → Option Bytes
  | .returned _ _ (.ok res) => some res
  | .returned _ _ (.error _) => none
  | .blocked _ => none
  | .crashed _ => none

/-- The connection a wait in `recv` leaves. -/
def Received.conn {A T : Type} : Received A T → conn A T
  | .returned c _ _ => c
  | .blocked c => c
  | .crashed c => c

/-- Whether the receiver is still in its loop after a wait in `recv` that returned. -/
def Received.receiving {A T : Type} : Received A T → Bool
  | .returned _ receiving _ => receiving
  | .blocked _ => false
  | .crashed _ => false

/-- The connection of lines 72-82: the transport, empty tables, the account, and the
zero value in every other field. -/
def conn.init {A T : Type} (t : T) (a : A) : conn A T where
  t := t
  sessionTable := []
  Requests := []
  heap := fun _ => { creditRequest := 0, recv := [], err := none }
  fresh := 0
  sequenceWindow := 0
  maxTransactSize := 0
  maxReadSize := 0
  maxWriteSize := 0
  serverGuid := zero
  requireSigning := false
  dialect := 0
  clientGuid := zero
  capabilities := 0
  preauthIntegrityHashId := 0
  preauthIntegrityHashValue := []
  cipherId := 0
  account := a

/-- A `NegotiateRequest` as the `Packet` that `sendRecv` is given. -/
def NegotiateRequest.toPacket (dec : Decoders) (req : NegotiateRequest) : Packet where
  kind := PacketKind.OtherRequest
  hdr := req.hdr
  Size := dec.NegotiateSize req
  Encode := dec.NegotiateEncode req

/-- Lines 114-123 of `negotiate`: the values recorded from the response `res`. -/
def negotiate_record {A T : Type} (dec : Decoders) (n : Negotiator) (c : conn A T)
    (res : Bytes) : conn A T :=
  { c with
    requireSigning := n.RequireMessageSigning ||
      (dec.SecurityMode res &&& SMB2_NEGOTIATE_SIGNING_REQUIRED != 0)
    capabilities := clientCapabilities &&& dec.Capabilities res
    dialect := dec.DialectRevision res
    maxTransactSize := dec.MaxTransactSize res
    maxReadSize := dec.MaxReadSize res
    maxWriteSize := dec.MaxWriteSize res
    clientGuid := n.ClientGuid
    serverGuid := (List.range 16).map (fun i =>
      if i < (dec.ServerGuid res).length then (dec.ServerGuid res).getD i 0
      else c.serverGuid.getD i 0)
    sequenceWindow := 1 }

/-- Lines 178-184 of `negotiate`: the rest of the context list after the context at
its head. -/
def negotiate_advance (dec : Decoders) (list : Bytes) : Bytes :=
  let off := dec.ContextNext list
  if list.length < off then [] else list.drop off

/-- Lines 132-176 of `negotiate`: the `switch` on the type of the context `ctx`. The
connection is returned also with an error: the fields are stored before they are
checked. -/
def negotiate_context {A T : Type} (dec : Decoders) (c : conn A T) (ctx : Bytes) :
    Option Error × conn A T :=
  if dec.ContextType ctx = SMB2_PREAUTH_INTEGRITY_CAPABILITIES then
    let d := dec.ContextData ctx
    if dec.HashIsInvalid d then
      (some (Error.InvalidResponseError "broken hash context data format"), c)
    else
      let algs := dec.HashAlgorithms d
      let salt := dec.Salt d
      if algs.length ≠ 1 then
        (some (Error.InvalidResponseError "multiple hash algorithms"), c)
      else
        let c1 := { c with
          preauthIntegrityHashId := algs.getD 0 0
          preauthIntegrityHashValue := salt }
        if c1.preauthIntegrityHashId = SHA512 then (none, c1)
        else (some (Error.InvalidResponseError "unknown hash algorithm"), c1)
  else if dec.ContextType ctx = SMB2_ENCRYPTION_CAPABILITIES then
    let d := dec.ContextData ctx
    if dec.CipherIsInvalid d then
      (some (Error.InvalidResponseError "broken cipher context data format"), c)
    else
      let ciphs := dec.Ciphers d
      if ciphs.length ≠ 1 then
        (some (Error.InvalidResponseError "multiple cipher algorithms"), c)
      else
        let c1 := { c with cipherId := ciphs.getD 0 0 }
        if c1.cipherId = AES128CCM then (none, c1)
        else if c1.cipherId = AES128GCM then (none, c1)
        else (some (Error.InvalidResponseError "unknown cipher algorithm"), c1)
  else
    (none, c)

/-- The loop of lines 125-185 of `negotiate`, for the `count` contexts still to walk. -/
def negotiate_contexts {A T : Type} (dec : Decoders) :
    Nat → conn A T → Bytes → Option Error × conn A T
  | 0, c, _ => (none, c)
  | count + 1, c, list =>
    if dec.ContextIsInvalid list then
      (some (Error.InvalidResponseError "broken negotiate context format"), c)
    else
      let r := negotiate_context dec c list
      match r.1 with
      | some e => (some e, r.2)
      | none => negotiate_contexts dec count r.2 (negotiate_advance dec list)

/-- Lines 110-187 of `negotiate`: the dialect check, the recording and the contexts,
for a valid response `res` whose dialect is not the placeholder. -/
def negotiate_finish {A T : Type} (dec : Decoders) (n : Negotiator) (c : conn A T)
    (res : Bytes) : Option Error × conn A T :=
  if n.SpecifiedDialect ≠ UnknownSMB ∧ n.SpecifiedDialect ≠ dec.DialectRevision res then
    (some (Error.InvalidResponseError "unexpected dialect returned"), c)
  else
    negotiate_contexts dec (dec.NegotiateContextCount res) (negotiate_record dec n c res)
      (dec.NegotiateContextList res)

/-- What `negotiate` works on: the negotiator (line 105 writes to it), the random
source, the connection, whether its receiver is still in its loop, and the requests
handed to `sendRecv` so far, each with the header `sendWith` gives it. -/
structure NegotiateState (A T R : Type) where
  n : Negotiator
  rand : R
  conn : conn A T
  receiving : Bool
  sent : List NegotiateRequest

/-- How a call of `negotiate` ends: it returns the connection, it returns an error, it
waits for ever in `recv`, the receiver goroutine died, or (when the passes through
`retry:` that are followed are used up) it is about to send again. -/
inductive NegotiateStatus where
  | ok
  | error (e : Error)
  | blocked
  | crashed
  | retrying
  deriving DecidableEq, Repr

/-- The end of a call of `negotiate` and the state it leaves. -/
structure NegotiateResult (A T R : Type) where
  status : NegotiateStatus
  state : NegotiateState A T R

/-- Lines 86-187 of `negotiate`, from the label `retry:`, for at most `fuel` passes
through the label. -/
def negotiate_retry {A T R : Type} (env : Env A T) (dec : Decoders)
    (rand : R → Nat → Except String Bytes × R) :
    Nat → NegotiateState A T R → NegotiateResult A T R
  | 0, st => { status := .retrying, state := st }
  | fuel + 1, st =>
    let m := makeRequest rand st.n st.rand
    match m.1 with
    | .error e => { status := .error e, state := { st with rand := m.2 } }
    | .ok req =>
      let req := { req with hdr := { req.hdr with CreditCharge := 1 } }
      let pkt := req.toPacket dec
      let st1 := { st with
        rand := m.2
        sent := st.sent ++ [{ req with hdr := sendWith_header env st.conn pkt none none }] }
      match sendRecv env dec st.conn st.receiving SMB2_NEGOTIATE pkt with
      | .blocked c => { status := .blocked, state := { st1 with conn := c } }
      | .crashed c => { status := .crashed, state := { st1 with conn := c } }
      | .returned c receiving (.error e) =>
        { status := .error e, state := { st1 with conn := c, receiving := receiving } }
      | .returned c receiving (.ok res) =>
        let st2 := { st1 with conn := c, receiving := receiving }
        if dec.NegotiateIsInvalid res then
          { status := .error (Error.InvalidResponseError "broken negotiate response format"),
            state := st2 }
        else if dec.DialectRevision res = SMB2 then
          negotiate_retry env dec rand fuel
            { st2 with n := { st2.n with SpecifiedDialect := SMB210 } }
        else
          let f := negotiate_finish dec st2.n c res
          match f.1 with
          | some e => { status := .error e, state := { st2 with conn := f.2 } }
          | none => { status := .ok, state := { st2 with conn := f.2 } }

/-- The method `Negotiator.negotiate`, lines 71-188, for at most `fuel` passes through
`retry:`. -/
def negotiate {A T R : Type} (env : Env A T) (dec : Decoders)
    (rand : R → Nat → Except String Bytes × R) (fuel : Nat) (n : Negotiator) (r : R)
    (t : T) (a : A) : NegotiateResult A T R :=
  negotiate_retry env dec rand fuel
    { n := n, rand := r, conn := conn.init t a, receiving := true, sent := [] }

/-- A context the loop of `negotiate` walks past: it decodes as valid; if it is a
PREAUTH_INTEGRITY_CAPABILITIES context its data is valid and lists exactly SHA-512; if
it is an ENCRYPTION_CAPABILITIES context its data is valid and lists exactly one
cipher, AES-128-CCM or AES-128-GCM. -/
def contextAccepted (dec : Decoders) (ctx : Bytes) : Prop :=
  dec.ContextIsInvalid ctx = false ∧
  (dec.ContextType ctx = SMB2_PREAUTH_INTEGRITY_CAPABILITIES →
    dec.HashIsInvalid (dec.ContextData ctx) = false ∧
    dec.HashAlgorithms (dec.ContextData ctx) = [SHA512]) ∧
  (dec.ContextType ctx = SMB2_ENCRYPTION_CAPABILITIES →
    dec.CipherIsInvalid (dec.ContextData ctx) = false ∧
    (dec.Ciphers (dec.ContextData ctx) = [AES128CCM] ∨
      dec.Ciphers (dec.ContextData ctx) = [AES128GCM]))

/-! ## Negotiation scenarios for evaluation -/

/-- The frame of a successful NEGOTIATE response to MessageId `msgId` with the given
DialectRevision, context count and contexts (SecurityMode SIGNING_ENABLED, all client
capabilities). -/
def negotiateReply (msgId dialect count : Nat) (contexts : Bytes) : Bytes :=
  wirePacket STATUS_SUCCESS SMB2_NEGOTIATE 1 0 0 msgId 0
    (wireNegotiateResponse SMB2_NEGOTIATE_SIGNING_ENABLED dialect count clientCapabilities contexts)

/-- The two contexts of a 3.1.1 response: SHA-512 with a 4-byte salt, and AES-128-GCM. -/
def contexts311 : Bytes :=
  wireContext SMB2_PREAUTH_INTEGRITY_CAPABILITIES (wireHashData [SHA512] [9, 9, 9, 9]) ++
    wireContext SMB2_ENCRYPTION_CAPABILITIES (wireCipherData [AES128GCM])

/-- A run of `negotiate` in the evaluation environment against a server whose frames
are `frames`, with the counting random source. -/
def negotiateWith (n : Negotiator) (frames : List Bytes) : NegotiateResult Nat Pipe Nat :=
  negotiate wireEnv wireDecoders countingRand 8 n 0 ⟨frames, [], false⟩ 0

/-- The state in which `negotiateWith` reaches the label `retry:` for the first time. -/
def negotiateStart (n : Negotiator) (frames : List Bytes) : NegotiateState Nat Pipe Nat where
  n := n
  rand := 0
  conn := conn.init ⟨frames, [], false⟩ 0
  receiving := true
  sent := []

/-- The request `makeRequest` builds for a negotiator without configured ClientGuid and
dialect from the counting random source in its first state. -/
def firstRequest : NegotiateRequest where
  hdr := ⟨0, 0, 0, 0, 0⟩
  SecurityMode := SMB2_NEGOTIATE_SIGNING_ENABLED
  Capabilities := clientCapabilities
  ClientGuid := (List.range 16).map (fun i => i + 1)
  Dialects := clientDialects
  HashAlgorithms := clientHashAlgorithms
  HashSalt := (List.range 32).map (fun i => i + 2)
  Ciphers := clientCiphers

/-- The contexts of a 3.1.1 response whose hash context lists two algorithms. -/
def contextsTwoHashes : Bytes :=
  wireContext SMB2_PREAUTH_INTEGRITY_CAPABILITIES (wireHashData [SHA512, 2] [9, 9, 9, 9]) ++
    wireContext SMB2_ENCRYPTION_CAPABILITIES (wireCipherData [AES128GCM])

/-- The frames of a server that answers the first NEGOTIATE request with the
placeholder dialect 0x02FF and the second with 2.1.0. -/
def retryFrames : List Bytes := [negotiateReply 0 SMB2 0 [], negotiateReply 1 SMB210 0 []]

/-- The request `makeRequest` builds after the retry, for SpecifiedDialect 2.1.0, from
the counting random source in its third state. -/
def secondRequest : NegotiateRequest where
  hdr := ⟨0, 0, 0, 0, 0⟩
  SecurityMode := SMB2_NEGOTIATE_SIGNING_ENABLED
  Capabilities := clientCapabilities
  ClientGuid := (List.range 16).map (fun i => i + 3)
  Dialects := [SMB210]
  HashAlgorithms := []
  HashSalt := []
  Ciphers := []

/-- The `sendRecv` of line 94 in the first pass of `negotiateWith` against
`retryFrames`. -/
def retryFirst : Received Nat Pipe :=
  sendRecv wireEnv wireDecoders (negotiateStart ⟨false, zero, 0⟩ retryFrames).conn true
    SMB2_NEGOTIATE
    (NegotiateRequest.toPacket wireDecoders
      { firstRequest with hdr := { firstRequest.hdr with CreditCharge := 1 } })

/-- The `sendRecv` of line 94 in the second pass of `negotiateWith` against
`retryFrames`, on the connection the first pass left. -/
def retrySecond : Received Nat Pipe :=
  sendRecv wireEnv wireDecoders retryFirst.conn retryFirst.receiving SMB2_NEGOTIATE
    (NegotiateRequest.toPacket wireDecoders
      { secondRequest with hdr := { secondRequest.hdr with CreditCharge := 1 } })

/-- An unsolicited notification on the wire: a plain header with MessageId
`0xFFFFFFFFFFFFFFFF`, not signed, with body `[0x0C]`. -/
def notification : Bytes := wireResponse 0 0 0 broadcastMessageId 0 [0x0C]

set_option maxRecDepth 100000

/-! ## Lemmas on maps -/

theorem mapGet_mapDelete_self {V : Type} (m : List (Nat × V)) (k : Nat) :
    mapGet (mapDelete m k) k = none := by
  induction m with
  | nil => rfl
  | cons e m ih =>
    obtain ⟨k', v⟩ := e
    by_cases h : k' = k
    · simpa [mapDelete, h] using ih
    · simpa [mapDelete, mapGet, h] using ih

theorem mapGet_mapDelete_ne {V : Type} (m : List (Nat × V)) {k j : Nat} (h : j ≠ k) :
    mapGet (mapDelete m k) j = mapGet m j := by
  induction m with
  | nil => rfl
  | cons e m ih =>
    obtain ⟨k', v⟩ := e
    by_cases h1 : k' = k
    · have h2 : k' ≠ j := fun h3 => h (h3.symm.trans h1)
      simpa [mapDelete, mapGet, h1, h2, h.symm] using ih
    · by_cases h2 : k' = j
      · subst h2
        simp [mapDelete, mapGet, h]
      · simpa [mapDelete, mapGet, h1, h2] using ih

theorem mapGet_mapSet_self {V : Type} (m : List (Nat × V)) (k : Nat) (v : V) :
    mapGet (mapSet m k v) k = some v := by
  simp [mapSet, mapGet]

theorem mapGet_mapSet_ne {V : Type} (m : List (Nat × V)) {k j : Nat} (v : V) (h : j ≠ k) :
    mapGet (mapSet m k v) j = mapGet m j := by
  simp [mapSet, mapGet, h.symm, mapGet_mapDelete_ne m h]

/-! ## Lemmas on `sendWith` -/

theorem sendWith_stamp_MessageId (hdr : PacketHeader) (m : Nat) (s : Option session)
    (tc : Option treeConn) : (sendWith_stamp hdr m s tc).MessageId = m := by
  unfold sendWith_stamp
  cases s with
  | none => rfl
  | some s => cases tc <;> rfl

theorem sendWith_stamp_CreditRequest (hdr : PacketHeader) (m : Nat) (s : Option session)
    (tc : Option treeConn) : (sendWith_stamp hdr m s tc).CreditRequest = hdr.CreditRequest := by
  unfold sendWith_stamp
  cases s with
  | none => rfl
  | some s => cases tc <;> rfl

/-- The request after the call: only its header changed. -/
theorem sendWith_req {A T : Type} (env : Env A T) (c : conn A T) (req : Packet)
    (s : Option session) (tc : Option treeConn) :
    (sendWith env c req s tc).req = { req with hdr := sendWith_header env c req s tc } := by
  unfold sendWith sendWith_header
  dsimp only
  split
  · rfl
  · split <;> rfl

/-- The buffer handed to the transport is the protected encoding, when there is one. -/
theorem sendWith_wire {A T : Type} (env : Env A T) (c : conn A T) (req : Packet)
    (s : Option session) (tc : Option treeConn) :
    (sendWith env c req s tc).wire =
      (sendWith_protect req.kind s tc (sendWith env c req s tc).req.encoded).toOption := by
  rw [sendWith_req]
  unfold sendWith sendWith_header
  dsimp only
  split
  · next e h => rw [h]; rfl
  · next pkt h =>
    rw [h]
    split <;> rfl

/-- The sequence window after the call is that of lines 262-275. -/
theorem sendWith_conn_sequenceWindow {A T : Type} (env : Env A T) (c : conn A T)
    (req : Packet) (s : Option session) (tc : Option treeConn) :
    (sendWith env c req s tc).conn.sequenceWindow =
      (sendWith_allocate env c req).conn.sequenceWindow := by
  unfold sendWith
  dsimp only
  split
  · rfl
  · split <;> rfl

/-- A returned slot is the fresh one, registered under the allocated MessageId and
holding the header's final CreditRequest. -/
theorem sendWith_ok {A T : Type} (env : Env A T) (c : conn A T) (req : Packet)
    (s : Option session) (tc : Option treeConn) (rr : Nat)
    (h : (sendWith env c req s tc).rr = .ok rr) :
    mapGet (sendWith env c req s tc).conn.Requests (sendWith_allocate env c req).msgId
      = some rr ∧
    (sendWith env c req s tc).conn.heap rr =
      { creditRequest := (sendWith env c req s tc).req.hdr.CreditRequest,
        recv := [], err := none } := by
  rw [sendWith_req]
  revert h
  unfold sendWith sendWith_header
  dsimp only
  split
  · intro h; cases h
  · split
    · intro h; cases h
    · intro h
      injection h with h
      subst h
      exact ⟨mapGet_mapSet_self _ _ _, by simp [heapSet]⟩

/-- A failed call adds nothing to the outstanding table. -/
theorem sendWith_error {A T : Type} (env : Env A T) (c : conn A T) (req : Packet)
    (s : Option session) (tc : Option treeConn) (e : Error)
    (h : (sendWith env c req s tc).rr = .error e) (k p : Nat)
    (hk : mapGet (sendWith env c req s tc).conn.Requests k = some p) :
    mapGet c.Requests k = some p := by
  have hreq : (sendWith_allocate env c req).conn.Requests = c.Requests := by
    unfold sendWith_allocate
    dsimp only
    split <;> rfl
  revert h hk
  unfold sendWith
  dsimp only
  split
  · intro _ hk
    rw [← hreq]; exact hk
  · split
    · intro _ hk
      dsimp only at hk
      by_cases hkm : k = (sendWith_allocate env c req).msgId
      · subst hkm
        rw [mapGet_mapDelete_self] at hk
        cases hk
      · rw [mapGet_mapDelete_ne _ hkm, mapGet_mapSet_ne _ _ hkm] at hk
        rw [← hreq]; exact hk
    · intro h; cases h

theorem sendWith_allocate_other {A T : Type} (env : Env A T) (c : conn A T) (req : Packet)
    (h : req.kind ≠ PacketKind.CancelRequest) :
    (sendWith_allocate env c req).msgId = c.sequenceWindow ∧
    (sendWith_allocate env c req).conn.sequenceWindow =
      (c.sequenceWindow + req.hdr.CreditCharge) % two64 ∧
    (sendWith_allocate env c req).hdr.CreditRequest =
      ((if req.hdr.CreditRequest = 0 then req.hdr.CreditCharge else req.hdr.CreditRequest) +
        (env.opening c.account).1) % two16 := by
  unfold sendWith_allocate
  simp only [h, if_false]
  refine ⟨trivial, trivial, ?_⟩
  split <;> rfl

theorem sendWith_allocate_cancel {A T : Type} (env : Env A T) (c : conn A T) (req : Packet)
    (h : req.kind = PacketKind.CancelRequest) :
    sendWith_allocate env c req = { msgId := 0, hdr := req.hdr, conn := c } := by
  unfold sendWith_allocate
  simp only [h, if_true]

theorem sendWith_sequenceWindow_lt {A T : Type} (env : Env A T) (c : conn A T) (req : Packet)
    (s : Option session) (tc : Option treeConn) (h : req.kind ≠ PacketKind.CancelRequest) :
    (sendWith env c req s tc).conn.sequenceWindow < two64 := by
  rw [sendWith_conn_sequenceWindow, (sendWith_allocate_other env c req h).2.1]
  exact Nat.mod_lt _ (by decide)

/-- The MessageIds of consecutive non-CANCEL sends of CreditCharge 1. -/
theorem sendAll_messageIds {A T : Type} (env : Env A T)
    (reqs : List (Packet × Option session × Option treeConn)) :
    ∀ c : conn A T,
      (∀ x ∈ reqs, x.1.kind ≠ PacketKind.CancelRequest ∧ x.1.hdr.CreditCharge = 1) →
      c.sequenceWindow < two64 →
      (sendAll env c reqs).1 =
        (List.range reqs.length).map (fun i => (c.sequenceWindow + i) % two64) := by
  induction reqs with
  | nil => intro c _ _; rfl
  | cons x rest ih =>
    intro c hall hw
    have hx := hall x (List.mem_cons_self _ _)
    have hrest : ∀ y ∈ rest, y.1.kind ≠ PacketKind.CancelRequest ∧ y.1.hdr.CreditCharge = 1 :=
      fun y hy => hall y (List.mem_cons_of_mem _ hy)
    have hid : (sendWith env c x.1 x.2.1 x.2.2).req.hdr.MessageId = c.sequenceWindow := by
      rw [sendWith_req]
      exact (sendWith_stamp_MessageId _ _ _ _).trans (sendWith_allocate_other env c x.1 hx.1).1
    have hwin : (sendWith env c x.1 x.2.1 x.2.2).conn.sequenceWindow =
        (c.sequenceWindow + 1) % two64 := by
      rw [sendWith_conn_sequenceWindow, (sendWith_allocate_other env c x.1 hx.1).2.1, hx.2]
    have hlt := sendWith_sequenceWindow_lt env c x.1 x.2.1 x.2.2 hx.1
    have := ih (sendWith env c x.1 x.2.1 x.2.2).conn hrest hlt
    simp only [sendAll, List.length_cons, List.range_succ_eq_map, List.map_cons, List.map_map]
    rw [this, hid, hwin]
    refine congrArg₂ _ ?_ ?_
    · simp [Nat.mod_eq_of_lt hw]
    · apply List.map_congr_left
      intro i _
      simp only [Function.comp, Nat.succ_eq_add_one]
      rw [Nat.mod_add_mod]
      congr 1
      omega

/-- C1: a non-CANCEL request sent on a connection whose sequenceWindow is `w`, with
header CreditCharge `c`, leaves `sendWith` with header MessageId `w`; the slot
`sendWith` returns is registered in the outstanding table under key `w`; and
sequenceWindow becomes `(w + c) mod 2^64`. Consequently N consecutive non-CANCEL
sends of CreditCharge 1 carry the MessageIds `w, w+1, ..., w+N-1` (mod 2^64) in send
order, which are exactly `w + i` as long as the window does not wrap. -/
theorem sendWith_assigns_sequenceWindow {A T : Type} (env : Env A T) (c : conn A T)
    (req : Packet) (s : Option session) (tc : Option treeConn)
    (h : req.kind ≠ PacketKind.CancelRequest) :
    (sendWith env c req s tc).req.hdr.MessageId = c.sequenceWindow ∧
    (sendWith env c req s tc).conn.sequenceWindow =
      (c.sequenceWindow + req.hdr.CreditCharge) % two64 ∧
    (∀ rr, (sendWith env c req s tc).rr = .ok rr →
      mapGet (sendWith env c req s tc).conn.Requests c.sequenceWindow = some rr) ∧
    (∀ reqs : List (Packet × Option session × Option treeConn),
      (∀ x ∈ reqs, x.1.kind ≠ PacketKind.CancelRequest ∧ x.1.hdr.CreditCharge = 1) →
      c.sequenceWindow < two64 →
      (sendAll env c reqs).1 =
        (List.range reqs.length).map (fun i => (c.sequenceWindow + i) % two64) ∧
      (c.sequenceWindow + reqs.length ≤ two64 →
        (sendAll env c reqs).1 =
          (List.range reqs.length).map (fun i => c.sequenceWindow + i))) := by
  have ha := sendWith_allocate_other env c req h
  refine ⟨?_, ?_, ?_, ?_⟩
  · rw [sendWith_req]
    exact (sendWith_stamp_MessageId _ _ _ _).trans ha.1
  · rw [sendWith_conn_sequenceWindow, ha.2.1]
  · intro rr hrr
    have := (sendWith_ok env c req s tc rr hrr).1
    rwa [ha.1] at this
  · intro reqs hall hw
    have hids := sendAll_messageIds env reqs c hall hw
    refine ⟨hids, fun hle => ?_⟩
    rw [hids]
    apply List.map_congr_left
    intro i hi
    have := List.mem_range.mp hi
    exact Nat.mod_eq_of_lt (by omega)

/-- C1 at a concrete input: three sends on a fresh connection with window 5. -/
theorem sendWith_assigns_sequenceWindow_witness :
    (sendWith wireEnv (newConn ⟨[], [], false⟩ 5)
      (testRequest PacketKind.OtherRequest 3 0 0 8) none none).req.hdr.MessageId = 5 ∧
    (sendWith wireEnv (newConn ⟨[], [], false⟩ 5)
      (testRequest PacketKind.OtherRequest 3 0 0 8) none none).conn.sequenceWindow = 8 ∧
    mapGet (sendWith wireEnv (newConn ⟨[], [], false⟩ 5)
      (testRequest PacketKind.OtherRequest 3 0 0 8) none none).conn.Requests 5 = some 0 ∧
    (sendAll wireEnv (newConn ⟨[], [], false⟩ 5)
      [(testRequest PacketKind.OtherRequest 1 0 0 8, none, none),
       (testRequest PacketKind.SessionSetupRequest 1 0 0 8, none, none),
       (testRequest PacketKind.OtherRequest 1 4 0 8, none, none)]).1 = [5, 6, 7] := by
  have h := sendWith_assigns_sequenceWindow wireEnv (newConn ⟨[], [], false⟩ 5)
    (testRequest PacketKind.OtherRequest 3 0 0 8) none none (by decide)
  refine ⟨h.1, h.2.1, h.2.2.1 0 rfl, ?_⟩
  exact (h.2.2.2 _ (by decide) (by decide)).2 (by decide)

/-- C7: for a non-CANCEL request with header CreditCharge `c` and CreditRequest `r`,
the header CreditRequest after `sendWith` is `((if r = 0 then c else r) +
account.opening()) mod 2^16`, and the slot that `sendWith` registers and returns
stores that value as its creditRequest. -/
theorem sendWith_creditRequest {A T : Type} (env : Env A T) (c : conn A T)
    (req : Packet) (s : Option session) (tc : Option treeConn)
    (h : req.kind ≠ PacketKind.CancelRequest) :
    (sendWith env c req s tc).req.hdr.CreditRequest =
      ((if req.hdr.CreditRequest = 0 then req.hdr.CreditCharge else req.hdr.CreditRequest) +
        (env.opening c.account).1) % two16 ∧
    (∀ rr, (sendWith env c req s tc).rr = .ok rr →
      mapGet (sendWith env c req s tc).conn.Requests
        (sendWith env c req s tc).req.hdr.MessageId = some rr ∧
      ((sendWith env c req s tc).conn.heap rr).creditRequest =
        ((if req.hdr.CreditRequest = 0 then req.hdr.CreditCharge else req.hdr.CreditRequest) +
          (env.opening c.account).1) % two16) := by
  have ha := sendWith_allocate_other env c req h
  have hcr : (sendWith env c req s tc).req.hdr.CreditRequest =
      ((if req.hdr.CreditRequest = 0 then req.hdr.CreditCharge else req.hdr.CreditRequest) +
        (env.opening c.account).1) % two16 := by
    rw [sendWith_req]
    exact (sendWith_stamp_CreditRequest _ _ _ _).trans ha.2.2
  have hid : (sendWith env c req s tc).req.hdr.MessageId = (sendWith_allocate env c req).msgId := by
    rw [sendWith_req]
    exact sendWith_stamp_MessageId _ _ _ _
  refine ⟨hcr, fun rr hrr => ?_⟩
  have hok := sendWith_ok env c req s tc rr hrr
  refine ⟨by rw [hid]; exact hok.1, ?_⟩
  rw [hok.2, hcr]

/-- C7 at concrete inputs: CreditRequest 0 with charge 3 and opening 2 gives 5. -/
theorem sendWith_creditRequest_witness :
    (sendWith wireEnv { newConn ⟨[], [], false⟩ 5 with account := 2 }
      (testRequest PacketKind.OtherRequest 3 0 0 8) none none).req.hdr.CreditRequest = 5 ∧
    ((sendWith wireEnv { newConn ⟨[], [], false⟩ 5 with account := 2 }
      (testRequest PacketKind.OtherRequest 3 0 0 8) none none).conn.heap 0).creditRequest = 5 := by
  have h := sendWith_creditRequest wireEnv { newConn ⟨[], [], false⟩ 5 with account := 2 }
    (testRequest PacketKind.OtherRequest 3 0 0 8) none none (by decide)
  exact ⟨h.1, (h.2 0 rfl).2⟩

theorem sendWith_allocate_t {A T : Type} (env : Env A T) (c : conn A T) (req : Packet) :
    (sendWith_allocate env c req).conn.t = c.t := by
  unfold sendWith_allocate
  dsimp only
  split <;> rfl

/-- The call when signing and encryption give a buffer: the buffer goes to the
transport, and the result follows the outcome of the write. -/
theorem sendWith_of_protect_ok {A T : Type} (env : Env A T) (c : conn A T) (req : Packet)
    (s : Option session) (tc : Option treeConn) (pkt : Bytes)
    (h : sendWith_protect req.kind s tc (sendWith env c req s tc).req.encoded = .ok pkt) :
    (sendWith env c req s tc).wire = some pkt ∧
    ((env.Write c.t pkt).1 = none →
      (sendWith env c req s tc).rr = .ok (sendWith_allocate env c req).conn.fresh) ∧
    (∀ e, (env.Write c.t pkt).1 = some e →
      (sendWith env c req s tc).rr = .error (Error.TransportError e)) := by
  refine ⟨by rw [sendWith_wire, h]; rfl, ?_⟩
  rw [sendWith_req] at h
  rw [← sendWith_allocate_t env c req]
  unfold sendWith_header at h
  unfold sendWith
  dsimp only
  rw [h]
  dsimp only
  split
  · next e he =>
    refine ⟨fun h0 => ?_, fun e' he' => ?_⟩
    · rw [h0] at he
      cases he
    · rw [he'] at he
      cases he
      rfl
  · next he =>
    refine ⟨fun _ => rfl, fun e' he' => ?_⟩
    rw [he'] at he
    cases he

/-- The call when encryption fails: nothing reaches the transport. -/
theorem sendWith_of_protect_error {A T : Type} (env : Env A T) (c : conn A T) (req : Packet)
    (s : Option session) (tc : Option treeConn) (e : Error)
    (h : sendWith_protect req.kind s tc (sendWith env c req s tc).req.encoded = .error e) :
    (sendWith env c req s tc).wire = none ∧ (sendWith env c req s tc).rr = .error e := by
  refine ⟨by rw [sendWith_wire, h]; rfl, ?_⟩
  rw [sendWith_req] at h
  unfold sendWith_header at h
  unfold sendWith
  dsimp only
  rw [h]

/-- Lines 290-302 for a session and a request that is not SESSION_SETUP. -/
theorem sendWith_protect_session (kind : PacketKind) (sess : session) (tc : Option treeConn)
    (pkt : Bytes) (hk : kind ≠ PacketKind.SessionSetupRequest) :
    ((sess.sessionFlags &&& SMB2_SESSION_FLAG_ENCRYPT_DATA ≠ 0 ∨
        ∃ t, tc = some t ∧ t.shareFlags &&& SMB2_SHAREFLAG_ENCRYPT_DATA ≠ 0) →
      sendWith_protect kind (some sess) tc pkt =
        match sess.encrypt (sess.sign pkt) with
        | .error e => .error (Error.InternalError e)
        | .ok p => .ok p) ∧
    (¬ (sess.sessionFlags &&& SMB2_SESSION_FLAG_ENCRYPT_DATA ≠ 0 ∨
        ∃ t, tc = some t ∧ t.shareFlags &&& SMB2_SHAREFLAG_ENCRYPT_DATA ≠ 0) →
      sendWith_protect kind (some sess) tc pkt = .ok (sess.sign pkt)) := by
  unfold sendWith_protect
  simp only [hk, if_false]
  constructor
  · intro h
    rw [if_pos]
    rcases h with h | ⟨t, rfl, ht⟩
    · simp [h]
    · simp [ht]
  · intro h
    rw [if_neg]
    push_neg at h
    cases tc with
    | none => simpa using h.1
    | some t => simpa using ⟨h.1, h.2 t rfl⟩

/-- Lines 290-302 without a session, or for a SESSION_SETUP request. -/
theorem sendWith_protect_plain (kind : PacketKind) (s : Option session) (tc : Option treeConn)
    (pkt : Bytes) (h : s = none ∨ kind = PacketKind.SessionSetupRequest) :
    sendWith_protect kind s tc pkt = .ok pkt := by
  unfold sendWith_protect
  cases s with
  | none => rfl
  | some sess =>
    rcases h with h | h
    · cases h
    · simp [h]

/-- The transport after the call when signing and encryption give a buffer: it is the
transport `conn.t.Write` leaves when given that buffer (line 313). -/
theorem sendWith_transport_ok {A T : Type} (env : Env A T) (c : conn A T) (req : Packet)
    (s : Option session) (tc : Option treeConn) (pkt : Bytes)
    (h : sendWith_protect req.kind s tc (sendWith env c req s tc).req.encoded = .ok pkt) :
    (sendWith env c req s tc).conn.t = (env.Write c.t pkt).2 := by
  rw [sendWith_req] at h
  rw [← sendWith_allocate_t env c req]
  unfold sendWith_header at h
  unfold sendWith
  dsimp only
  rw [h]
  dsimp only
  split <;> rfl

/-- The transport after the call when encryption fails: `conn.t.Write` was not called,
the transport is as before. -/
theorem sendWith_transport_error {A T : Type} (env : Env A T) (c : conn A T) (req : Packet)
    (s : Option session) (tc : Option treeConn) (e : Error)
    (h : sendWith_protect req.kind s tc (sendWith env c req s tc).req.encoded = .error e) :
    (sendWith env c req s tc).conn.t = c.t := by
  rw [sendWith_req] at h
  rw [← sendWith_allocate_t env c req]
  unfold sendWith_header at h
  unfold sendWith
  dsimp only
  rw [h]

/-- What the call does with a buffer that signing and encryption give: the buffer is
the argument of `conn.t.Write`, whose transport the connection keeps; a successful
write returns the slot registered under the request's MessageId, a failed one a
TransportError. -/
theorem sendWith_written {A T : Type} (env : Env A T) (c : conn A T) (req : Packet)
    (s : Option session) (tc : Option treeConn) (pkt : Bytes)
    (h : sendWith_protect req.kind s tc (sendWith env c req s tc).req.encoded = .ok pkt) :
    (sendWith env c req s tc).wire = some pkt ∧
    (sendWith env c req s tc).conn.t = (env.Write c.t pkt).2 ∧
    ((env.Write c.t pkt).1 = none →
      ∃ rr, (sendWith env c req s tc).rr = .ok rr ∧
        mapGet (sendWith env c req s tc).conn.Requests
          (sendWith env c req s tc).req.hdr.MessageId = some rr) ∧
    (∀ e, (env.Write c.t pkt).1 = some e →
      (sendWith env c req s tc).rr = .error (Error.TransportError e)) := by
  have hok := sendWith_of_protect_ok env c req s tc pkt h
  have hid : (sendWith env c req s tc).req.hdr.MessageId =
      (sendWith_allocate env c req).msgId := by
    rw [sendWith_req]
    exact sendWith_stamp_MessageId _ _ _ _
  refine ⟨hok.1, sendWith_transport_ok env c req s tc pkt h, fun hw => ?_, hok.2.2⟩
  have hrr := hok.2.1 hw
  exact ⟨_, hrr, by rw [hid]; exact (sendWith_ok env c req s tc _ hrr).1⟩

/-- C5 (as amended): for every request other than SESSION_SETUP sent with a session,
when the session's sessionFlags include ENCRYPT_DATA or a tree connection is given
whose shareFlags include ENCRYPT_DATA, the buffer given to `conn.t.Write` is the
output of the session's `encrypt` on the signed packet, and when `encrypt` fails
`Write` is not called (the transport is as before) and the call returns an
InternalError; when neither flag is set the signed packet is what `Write` is given; a
SESSION_SETUP request is given to `Write` as its plain encoding whatever the flags. In
each case the connection keeps the transport that `Write` leaves, and the call returns
a registered slot or a TransportError as `Write` succeeds or fails. -/
theorem sendWith_encrypts_signed_packet {A T : Type} (env : Env A T) (c : conn A T)
    (req : Packet) (sess : session) (tc : Option treeConn) :
    (req.kind ≠ PacketKind.SessionSetupRequest →
      ((sess.sessionFlags &&& SMB2_SESSION_FLAG_ENCRYPT_DATA ≠ 0 ∨
          ∃ t, tc = some t ∧ t.shareFlags &&& SMB2_SHAREFLAG_ENCRYPT_DATA ≠ 0) →
        (∀ x, sess.encrypt (sess.sign (sendWith env c req (some sess) tc).req.encoded) = .ok x →
          (sendWith env c req (some sess) tc).wire = some x ∧
          (sendWith env c req (some sess) tc).conn.t = (env.Write c.t x).2 ∧
          ((env.Write c.t x).1 = none →
            ∃ rr, (sendWith env c req (some sess) tc).rr = .ok rr ∧
              mapGet (sendWith env c req (some sess) tc).conn.Requests
                (sendWith env c req (some sess) tc).req.hdr.MessageId = some rr) ∧
          (∀ e, (env.Write c.t x).1 = some e →
            (sendWith env c req (some sess) tc).rr = .error (Error.TransportError e))) ∧
        (∀ e, sess.encrypt (sess.sign (sendWith env c req (some sess) tc).req.encoded)
            = .error e →
          (sendWith env c req (some sess) tc).wire = none ∧
          (sendWith env c req (some sess) tc).conn.t = c.t ∧
          (sendWith env c req (some sess) tc).rr = .error (Error.InternalError e))) ∧
      (¬ (sess.sessionFlags &&& SMB2_SESSION_FLAG_ENCRYPT_DATA ≠ 0 ∨
          ∃ t, tc = some t ∧ t.shareFlags &&& SMB2_SHAREFLAG_ENCRYPT_DATA ≠ 0) →
        (sendWith env c req (some sess) tc).wire =
          some (sess.sign (sendWith env c req (some sess) tc).req.encoded) ∧
        (sendWith env c req (some sess) tc).conn.t =
          (env.Write c.t (sess.sign (sendWith env c req (some sess) tc).req.encoded)).2 ∧
        ((env.Write c.t (sess.sign (sendWith env c req (some sess) tc).req.encoded)).1 = none →
          ∃ rr, (sendWith env c req (some sess) tc).rr = .ok rr ∧
            mapGet (sendWith env c req (some sess) tc).conn.Requests
              (sendWith env c req (some sess) tc).req.hdr.MessageId = some rr) ∧
        (∀ e, (env.Write c.t (sess.sign (sendWith env c req (some sess) tc).req.encoded)).1
            = some e →
          (sendWith env c req (some sess) tc).rr = .error (Error.TransportError e)))) ∧
    (req.kind = PacketKind.SessionSetupRequest →
      (sendWith env c req (some sess) tc).wire =
        some (sendWith env c req (some sess) tc).req.encoded ∧
      (sendWith env c req (some sess) tc).conn.t =
        (env.Write c.t (sendWith env c req (some sess) tc).req.encoded).2 ∧
      ((env.Write c.t (sendWith env c req (some sess) tc).req.encoded).1 = none →
        ∃ rr, (sendWith env c req (some sess) tc).rr = .ok rr ∧
          mapGet (sendWith env c req (some sess) tc).conn.Requests
            (sendWith env c req (some sess) tc).req.hdr.MessageId = some rr) ∧
      (∀ e, (env.Write c.t (sendWith env c req (some sess) tc).req.encoded).1 = some e →
        (sendWith env c req (some sess) tc).rr = .error (Error.TransportError e))) := by
  refine ⟨fun hk => ?_, fun hk => ?_⟩
  · have hp := sendWith_protect_session req.kind sess tc
      (sendWith env c req (some sess) tc).req.encoded hk
    refine ⟨fun hf => ⟨fun x hx => ?_, fun e he => ?_⟩, fun hf => ?_⟩
    · have := hp.1 hf
      rw [hx] at this
      exact sendWith_written env c req (some sess) tc x this
    · have := hp.1 hf
      rw [he] at this
      exact ⟨(sendWith_of_protect_error env c req (some sess) tc _ this).1,
        sendWith_transport_error env c req (some sess) tc _ this,
        (sendWith_of_protect_error env c req (some sess) tc _ this).2⟩
    · exact sendWith_written env c req (some sess) tc _ (hp.2 hf)
  · exact sendWith_written env c req (some sess) tc _
      (sendWith_protect_plain _ _ _ _ (Or.inr hk))

/-- C5 at concrete inputs: with a session with ENCRYPT_DATA, a request that is not
SESSION_SETUP is written to the transport encrypted over signed, and a SESSION_SETUP
request is written as its plain encoding. -/
theorem sendWith_encrypts_signed_packet_witness :
    (sendWith wireEnv (newConn ⟨[], [], false⟩ 1) (testRequest PacketKind.OtherRequest 1 0 0 4)
      (some (testSession 3 4)) none).conn.t.outgoing = [[0xFD, 0x5A, 1, 0xAA, 0xAA, 0xAA]] ∧
    (sendWith wireEnv (newConn ⟨[], [], false⟩ 1)
      (testRequest PacketKind.SessionSetupRequest 1 0 0 4)
      (some (testSession 3 4)) none).conn.t.outgoing = [[1, 0xAA, 0xAA, 0xAA]] := by
  have h1 := ((sendWith_encrypts_signed_packet wireEnv (newConn ⟨[], [], false⟩ 1)
    (testRequest PacketKind.OtherRequest 1 0 0 4) (testSession 3 4) none).1 (by decide)).1
    (Or.inl (by decide)) |>.1 [0xFD, 0x5A, 1, 0xAA, 0xAA, 0xAA] rfl
  have h2 := (sendWith_encrypts_signed_packet wireEnv (newConn ⟨[], [], false⟩ 1)
    (testRequest PacketKind.SessionSetupRequest 1 0 0 4) (testSession 3 4) none).2 rfl
  refine ⟨?_, ?_⟩
  · rw [h1.2.1]; rfl
  · rw [h2.2.1]; decide

/-- C5 fails as stated: a SESSION_SETUP request sent with a session whose sessionFlags
include ENCRYPT_DATA reaches the transport as its plain encoding, not as the output of
`encrypt` on the signed packet. -/
theorem sendWith_sessionSetup_not_encrypted :
    (testSession 3 4).sessionFlags &&& SMB2_SESSION_FLAG_ENCRYPT_DATA ≠ 0 ∧
    (sendWith wireEnv (newConn ⟨[], [], false⟩ 1)
      (testRequest PacketKind.SessionSetupRequest 1 0 0 4)
      (some (testSession 3 4)) none).req.encoded = [1, 0xAA, 0xAA, 0xAA] ∧
    (testSession 3 4).encrypt ((testSession 3 4).sign [1, 0xAA, 0xAA, 0xAA]) =
      .ok [0xFD, 0x5A, 1, 0xAA, 0xAA, 0xAA] ∧
    (sendWith wireEnv (newConn ⟨[], [], false⟩ 1)
      (testRequest PacketKind.SessionSetupRequest 1 0 0 4)
      (some (testSession 3 4)) none).wire = some [1, 0xAA, 0xAA, 0xAA] ∧
    (sendWith wireEnv (newConn ⟨[], [], false⟩ 1)
      (testRequest PacketKind.SessionSetupRequest 1 0 0 4)
      (some (testSession 3 4)) none).conn.t.outgoing = [[1, 0xAA, 0xAA, 0xAA]] := by
  refine ⟨by decide, by decide, rfl, by decide, by decide⟩

/-- C6: when a session is supplied and the request is not SESSION_SETUP, the buffer
`sendWith` gives to `conn.t.Write` is the session's `sign` of the encoded packet
(neither ENCRYPT_DATA flag set) or the session's `encrypt` of that signed packet (a
flag set; `Write` is not called when `encrypt` fails); when no session is supplied, or
the request is SESSION_SETUP, it is exactly the request's own encoding, of length
`req.Size()`, with `sign` not applied. In each case the connection keeps the transport
that `Write` leaves, and whenever a buffer is given to `Write` the call returns a
registered slot or a TransportError as `Write` succeeds or fails. -/
theorem sendWith_signs_unless_sessionSetup {A T : Type} (env : Env A T) (c : conn A T)
    (req : Packet) (s : Option session) (tc : Option treeConn) :
    (∀ sess, s = some sess → req.kind ≠ PacketKind.SessionSetupRequest →
      (¬ (sess.sessionFlags &&& SMB2_SESSION_FLAG_ENCRYPT_DATA ≠ 0 ∨
          ∃ t, tc = some t ∧ t.shareFlags &&& SMB2_SHAREFLAG_ENCRYPT_DATA ≠ 0) →
        (sendWith env c req s tc).wire =
          some (sess.sign (sendWith env c req s tc).req.encoded) ∧
        (sendWith env c req s tc).conn.t =
          (env.Write c.t (sess.sign (sendWith env c req s tc).req.encoded)).2) ∧
      ((sess.sessionFlags &&& SMB2_SESSION_FLAG_ENCRYPT_DATA ≠ 0 ∨
          ∃ t, tc = some t ∧ t.shareFlags &&& SMB2_SHAREFLAG_ENCRYPT_DATA ≠ 0) →
        (∀ x, sess.encrypt (sess.sign (sendWith env c req s tc).req.encoded) = .ok x →
          (sendWith env c req s tc).wire = some x ∧
          (sendWith env c req s tc).conn.t = (env.Write c.t x).2) ∧
        (∀ e, sess.encrypt (sess.sign (sendWith env c req s tc).req.encoded) = .error e →
          (sendWith env c req s tc).wire = none ∧
          (sendWith env c req s tc).conn.t = c.t))) ∧
    ((s = none ∨ req.kind = PacketKind.SessionSetupRequest) →
      (sendWith env c req s tc).wire = some (sendWith env c req s tc).req.encoded ∧
      (sendWith env c req s tc).conn.t =
        (env.Write c.t (sendWith env c req s tc).req.encoded).2 ∧
      (sendWith env c req s tc).req.encoded.length = req.Size) ∧
    (∀ pkt, (sendWith env c req s tc).wire = some pkt →
      (sendWith env c req s tc).conn.t = (env.Write c.t pkt).2 ∧
      ((env.Write c.t pkt).1 = none →
        ∃ rr, (sendWith env c req s tc).rr = .ok rr ∧
          mapGet (sendWith env c req s tc).conn.Requests
            (sendWith env c req s tc).req.hdr.MessageId = some rr) ∧
      (∀ e, (env.Write c.t pkt).1 = some e →
        (sendWith env c req s tc).rr = .error (Error.TransportError e))) := by
  refine ⟨?_, ?_, ?_⟩
  · intro sess hs hk
    subst hs
    have hp := sendWith_protect_session req.kind sess tc
      (sendWith env c req (some sess) tc).req.encoded hk
    refine ⟨fun hf => ?_, fun hf => ⟨fun x hx => ?_, fun e he => ?_⟩⟩
    · have hw := sendWith_written env c req (some sess) tc _ (hp.2 hf)
      exact ⟨hw.1, hw.2.1⟩
    · have := hp.1 hf
      rw [hx] at this
      have hw := sendWith_written env c req (some sess) tc x this
      exact ⟨hw.1, hw.2.1⟩
    · have := hp.1 hf
      rw [he] at this
      exact ⟨(sendWith_of_protect_error env c req (some sess) tc _ this).1,
        sendWith_transport_error env c req (some sess) tc _ this⟩
  · intro h
    have hw := sendWith_written env c req s tc _ (sendWith_protect_plain _ _ _ _ h)
    refine ⟨hw.1, hw.2.1, ?_⟩
    rw [sendWith_req]
    simp [Packet.encoded]
  · intro pkt hwire
    cases hp : sendWith_protect req.kind s tc (sendWith env c req s tc).req.encoded with
    | error e =>
      rw [(sendWith_of_protect_error env c req s tc e hp).1] at hwire
      cases hwire
    | ok p =>
      have hw := sendWith_written env c req s tc p hp
      rw [hw.1] at hwire
      cases hwire
      exact hw.2

/-- C6 at concrete inputs: the same request sent without a session, as SESSION_SETUP
with a session, and as another request with a session; the buffers the transport
holds afterwards. -/
theorem sendWith_signs_unless_sessionSetup_witness :
    (sendWith wireEnv (newConn ⟨[], [], false⟩ 1) (testRequest PacketKind.OtherRequest 1 0 0 4)
      none none).conn.t.outgoing = [[1, 0xAA, 0xAA, 0xAA]] ∧
    (sendWith wireEnv (newConn ⟨[], [], false⟩ 1)
      (testRequest PacketKind.SessionSetupRequest 1 0 0 4)
      (some (testSession 3 0)) none).conn.t.outgoing = [[1, 0xAA, 0xAA, 0xAA]] ∧
    (sendWith wireEnv (newConn ⟨[], [], false⟩ 1) (testRequest PacketKind.OtherRequest 1 0 0 4)
      (some (testSession 3 0)) none).conn.t.outgoing = [[0x5A, 1, 0xAA, 0xAA, 0xAA]] := by
  have h1 := (sendWith_signs_unless_sessionSetup wireEnv (newConn ⟨[], [], false⟩ 1)
    (testRequest PacketKind.OtherRequest 1 0 0 4) none none).2.1 (Or.inl rfl)
  have h2 := (sendWith_signs_unless_sessionSetup wireEnv (newConn ⟨[], [], false⟩ 1)
    (testRequest PacketKind.SessionSetupRequest 1 0 0 4) (some (testSession 3 0)) none).2.1
    (Or.inr rfl)
  have h3 := ((sendWith_signs_unless_sessionSetup wireEnv (newConn ⟨[], [], false⟩ 1)
    (testRequest PacketKind.OtherRequest 1 0 0 4) (some (testSession 3 0)) none).1
    (testSession 3 0) rfl (by decide)).1 (by decide)
  refine ⟨?_, ?_, ?_⟩
  · rw [h1.2.1]; decide
  · rw [h2.2.1]; decide
  · rw [h3.2]; decide

/-- The only error of lines 290-302 is the InternalError for a failed `encrypt` of the
signed packet. -/
theorem sendWith_protect_error (kind : PacketKind) (s : Option session) (tc : Option treeConn)
    (pkt : Bytes) (e : Error) (h : sendWith_protect kind s tc pkt = .error e) :
    ∃ sess msg, s = some sess ∧ sess.encrypt (sess.sign pkt) = .error msg ∧
      e = Error.InternalError msg := by
  unfold sendWith_protect at h
  cases s with
  | none => cases h
  | some sess =>
    dsimp only at h
    by_cases hk : kind = PacketKind.SessionSetupRequest
    · rw [if_pos hk] at h
      cases h
    · rw [if_neg hk] at h
      split at h
      · cases he : sess.encrypt (sess.sign pkt) with
        | error m =>
          rw [he] at h
          cases h
          exact ⟨sess, m, rfl, he, rfl⟩
        | ok p =>
          rw [he] at h
          cases h
      · cases h

theorem sendWith_conn_account {A T : Type} (env : Env A T) (c : conn A T)
    (req : Packet) (s : Option session) (tc : Option treeConn) :
    (sendWith env c req s tc).conn.account = (sendWith_allocate env c req).conn.account := by
  unfold sendWith
  dsimp only
  split
  · rfl
  · split <;> rfl

/-- C8 (as amended): for every CANCEL request passed to `sendWith`, the header
MessageId after the call is 0 whatever the header carried before, the slot
`sendWith` returns is registered under key 0, and sequenceWindow, the header's
CreditRequest and the credit account are unchanged (no MessageId is allocated and no
credits are reserved). -/
theorem sendWith_cancel_keeps_window {A T : Type} (env : Env A T) (c : conn A T)
    (req : Packet) (s : Option session) (tc : Option treeConn)
    (h : req.kind = PacketKind.CancelRequest) :
    (sendWith env c req s tc).req.hdr.MessageId = 0 ∧
    (∀ rr, (sendWith env c req s tc).rr = .ok rr →
      mapGet (sendWith env c req s tc).conn.Requests 0 = some rr) ∧
    (sendWith env c req s tc).conn.sequenceWindow = c.sequenceWindow ∧
    (sendWith env c req s tc).req.hdr.CreditRequest = req.hdr.CreditRequest ∧
    (sendWith env c req s tc).conn.account = c.account := by
  have ha := sendWith_allocate_cancel env c req h
  refine ⟨?_, ?_, ?_, ?_, ?_⟩
  · rw [sendWith_req]
    exact (sendWith_stamp_MessageId _ _ _ _).trans (by rw [ha])
  · intro rr hrr
    have := (sendWith_ok env c req s tc rr hrr).1
    rwa [ha] at this
  · rw [sendWith_conn_sequenceWindow, ha]
  · rw [sendWith_req]
    exact (sendWith_stamp_CreditRequest _ _ _ _).trans (by rw [ha])
  · rw [sendWith_conn_account, ha]

/-- C8 at a concrete input: a CANCEL on a connection with window 8. -/
theorem sendWith_cancel_keeps_window_witness :
    (sendWith wireEnv (newConn ⟨[], [], false⟩ 8)
      (testRequest PacketKind.CancelRequest 0 0 7 8) none none).req.hdr.MessageId = 0 ∧
    (sendWith wireEnv (newConn ⟨[], [], false⟩ 8)
      (testRequest PacketKind.CancelRequest 0 0 7 8) none none).conn.sequenceWindow = 8 := by
  have h := sendWith_cancel_keeps_window wireEnv (newConn ⟨[], [], false⟩ 8)
    (testRequest PacketKind.CancelRequest 0 0 7 8) none none rfl
  exact ⟨h.1, h.2.2.1⟩

/-- C8 fails as stated: after a request was sent with MessageId 7, a CANCEL whose
header carries MessageId 7 leaves `sendWith` with MessageId 0 in its header and its
slot registered under key 0; the entry under 7 is still the first request's slot. -/
theorem sendWith_cancel_overwrites_messageId :
    (sendWith wireEnv (newConn ⟨[], [], false⟩ 7)
      (testRequest PacketKind.OtherRequest 1 0 0 8) none none).req.hdr.MessageId = 7 ∧
    (testRequest PacketKind.CancelRequest 0 0 7 8).hdr.MessageId = 7 ∧
    (sendWith wireEnv
      (sendWith wireEnv (newConn ⟨[], [], false⟩ 7)
        (testRequest PacketKind.OtherRequest 1 0 0 8) none none).conn
      (testRequest PacketKind.CancelRequest 0 0 7 8) none none).req.hdr.MessageId = 0 ∧
    (sendWith wireEnv
      (sendWith wireEnv (newConn ⟨[], [], false⟩ 7)
        (testRequest PacketKind.OtherRequest 1 0 0 8) none none).conn
      (testRequest PacketKind.CancelRequest 0 0 7 8) none none).rr = .ok 1 ∧
    mapGet (sendWith wireEnv
      (sendWith wireEnv (newConn ⟨[], [], false⟩ 7)
        (testRequest PacketKind.OtherRequest 1 0 0 8) none none).conn
      (testRequest PacketKind.CancelRequest 0 0 7 8) none none).conn.Requests 0 = some 1 ∧
    mapGet (sendWith wireEnv
      (sendWith wireEnv (newConn ⟨[], [], false⟩ 7)
        (testRequest PacketKind.OtherRequest 1 0 0 8) none none).conn
      (testRequest PacketKind.CancelRequest 0 0 7 8) none none).conn.Requests 7 = some 0 := by
  refine ⟨by decide, by decide, by decide, rfl, by decide, by decide⟩

/-- C10 (as amended): once the receiver loop has terminated, a `sendWith` on that
connection fails exactly as on any other: a failing transport `Write` gives a
TransportError, nothing reaches the transport only when the session's `encrypt`
fails, which gives an InternalError, and a failed call leaves no new entry in the
outstanding table; but when the buffer reaches a transport whose `Write` succeeds,
the call returns a slot and leaves it registered under the request's MessageId. -/
theorem sendWith_after_receiver_exit {A T : Type} (env : Env A T) (fuel : Nat)
    (c c1 : conn A T) (err : Error) (req : Packet) (s : Option session) (tc : Option treeConn)
    (_hexit : runReciever env fuel c = .exited c1 err) :
    (∀ e, (sendWith env c1 req s tc).rr = .error e →
      ∀ k p, mapGet (sendWith env c1 req s tc).conn.Requests k = some p →
        mapGet c1.Requests k = some p) ∧
    (∀ pkt e, (sendWith env c1 req s tc).wire = some pkt → (env.Write c1.t pkt).1 = some e →
      (sendWith env c1 req s tc).rr = .error (Error.TransportError e)) ∧
    ((sendWith env c1 req s tc).wire = none →
      ∃ sess msg, s = some sess ∧
        sess.encrypt (sess.sign (sendWith env c1 req s tc).req.encoded) = .error msg ∧
        (sendWith env c1 req s tc).rr = .error (Error.InternalError msg)) ∧
    (∀ pkt, (sendWith env c1 req s tc).wire = some pkt → (env.Write c1.t pkt).1 = none →
      ∃ rr, (sendWith env c1 req s tc).rr = .ok rr ∧
        mapGet (sendWith env c1 req s tc).conn.Requests
          (sendWith env c1 req s tc).req.hdr.MessageId = some rr) := by
  have hwire := sendWith_wire env c1 req s tc
  have hid : (sendWith env c1 req s tc).req.hdr.MessageId =
      (sendWith_allocate env c1 req).msgId := by
    rw [sendWith_req]
    exact sendWith_stamp_MessageId _ _ _ _
  refine ⟨fun e he k p hk => sendWith_error env c1 req s tc e he k p hk, ?_, ?_, ?_⟩
  · intro pkt e hw hwr
    cases hp : sendWith_protect req.kind s tc (sendWith env c1 req s tc).req.encoded with
    | error e1 => rw [hp] at hwire; rw [hwire] at hw; cases hw
    | ok p =>
      rw [hp] at hwire
      rw [hwire] at hw
      cases hw
      exact (sendWith_of_protect_ok env c1 req s tc _ hp).2.2 e hwr
  · intro hw
    cases hp : sendWith_protect req.kind s tc (sendWith env c1 req s tc).req.encoded with
    | error e1 =>
      obtain ⟨sess, msg, hs, henc, he⟩ := sendWith_protect_error _ _ _ _ _ hp
      subst he
      exact ⟨sess, msg, hs, henc, (sendWith_of_protect_error env c1 req s tc _ hp).2⟩
    | ok p => rw [hp] at hwire; rw [hwire] at hw; cases hw
  · intro pkt hw hwr
    cases hp : sendWith_protect req.kind s tc (sendWith env c1 req s tc).req.encoded with
    | error e1 => rw [hp] at hwire; rw [hwire] at hw; cases hw
    | ok p =>
      rw [hp] at hwire
      rw [hwire] at hw
      cases hw
      have hrr := (sendWith_of_protect_ok env c1 req s tc _ hp).2.1 hwr
      exact ⟨_, hrr, by rw [hid]; exact (sendWith_ok env c1 req s tc _ hrr).1⟩

/-- C10 at a concrete input: the receiver exits on EOF of a transport whose writes
fail; the next send returns a TransportError and adds no entry. -/
theorem sendWith_after_receiver_exit_witness :
    runReciever wireEnv 1 (newConn ⟨[], [], true⟩ 1) =
      .exited (runReciever_drain (Error.TransportError "EOF") (newConn ⟨[], [], true⟩ 1))
        (Error.TransportError "EOF") ∧
    (sendWith wireEnv (runReciever_drain (Error.TransportError "EOF") (newConn ⟨[], [], true⟩ 1))
      (testRequest PacketKind.OtherRequest 1 0 0 8) none none).rr =
        .error (Error.TransportError "closed") ∧
    mapGet (sendWith wireEnv
      (runReciever_drain (Error.TransportError "EOF") (newConn ⟨[], [], true⟩ 1))
      (testRequest PacketKind.OtherRequest 1 0 0 8) none none).conn.Requests 1 = none := by
  have h := sendWith_after_receiver_exit wireEnv 1 (newConn ⟨[], [], true⟩ 1)
    (runReciever_drain (Error.TransportError "EOF") (newConn ⟨[], [], true⟩ 1))
    (Error.TransportError "EOF") (testRequest PacketKind.OtherRequest 1 0 0 8) none none rfl
  exact ⟨rfl, h.2.1 _ "closed" rfl rfl, by decide⟩

/-- C10 fails as stated: the receiver terminates on a frame with an unknown MessageId
(9, while only 1 is outstanding); the transport is still writable, and the next
`sendWith` returns a slot and registers it under the new MessageId 2. -/
theorem sendWith_succeeds_after_receiver_exit :
    (runReciever wireEnv 1
      (sendWith wireEnv (newConn ⟨[wireResponse 1 0 0 9 0 []], [], false⟩ 1)
        (testRequest PacketKind.OtherRequest 1 0 0 8) none none).conn).err =
      some (Error.InvalidResponseError "unknown message id returned") ∧
    mapGet (runReciever wireEnv 1
      (sendWith wireEnv (newConn ⟨[wireResponse 1 0 0 9 0 []], [], false⟩ 1)
        (testRequest PacketKind.OtherRequest 1 0 0 8) none none).conn).conn.Requests 2 = none ∧
    (sendWith wireEnv
      (runReciever wireEnv 1
        (sendWith wireEnv (newConn ⟨[wireResponse 1 0 0 9 0 []], [], false⟩ 1)
          (testRequest PacketKind.OtherRequest 1 0 0 8) none none).conn).conn
      (testRequest PacketKind.OtherRequest 1 0 0 8) none none).rr = .ok 1 ∧
    mapGet (sendWith wireEnv
      (runReciever wireEnv 1
        (sendWith wireEnv (newConn ⟨[wireResponse 1 0 0 9 0 []], [], false⟩ 1)
          (testRequest PacketKind.OtherRequest 1 0 0 8) none none).conn).conn
      (testRequest PacketKind.OtherRequest 1 0 0 8) none none).conn.Requests 2 = some 1 := by
  refine ⟨by decide, by decide, rfl, by decide⟩

/-! ## Lemmas on the receiver -/

theorem heapSet_same (h : Nat → requestResponse) (p : Nat) (a : requestResponse) :
    heapSet h p a p = a := by
  simp [heapSet]

theorem heapSet_other (h : Nat → requestResponse) (p : Nat) (a : requestResponse) {q : Nat}
    (hq : q ≠ p) : heapSet h p a q = h q := by
  simp [heapSet, hq]

theorem heapSet_heapSet (h : Nat → requestResponse) (p : Nat) (a b : requestResponse) :
    heapSet (heapSet h p a) p b = heapSet h p b := by
  funext q
  by_cases hq : q = p <;> simp [heapSet, hq]

/-- The fuel of the inner loop is never used up: any two amounts above the length of
the packet give the same result. -/
theorem runReciever_deliver_fuel {A T : Type} (env : Env A T) :
    ∀ (f1 f2 : Nat) (c : conn A T) (rr : Nat) (pkt : Bytes),
      pkt.length < f1 → pkt.length < f2 →
      runReciever_deliver env f1 c rr pkt = runReciever_deliver env f2 c rr pkt := by
  intro f1
  induction f1 with
  | zero => intro f2 c rr pkt h1; omega
  | succ f1 ih =>
    intro f2 c rr pkt h1 h2
    cases f2 with
    | zero => omega
    | succ f2 =>
      unfold runReciever_deliver
      dsimp only
      by_cases hn : env.NextCommand pkt = 0
      · simp only [hn, if_true]
      · simp only [hn, if_false]
        by_cases hl : pkt.length < env.NextCommand pkt
        · simp only [hl, if_true]
        · simp only [hl, if_false]
          apply ih
          · rw [List.length_drop]; omega
          · rw [List.length_drop]; omega

/-- With that fuel the inner loop ends in `crash` only through the slice expression
`pkt[:next]` of line 478: some remainder of the packet has a NextCommand beyond its
length. -/
theorem runReciever_deliver_crash {A T : Type} (env : Env A T) :
    ∀ (fuel : Nat) (c c1 : conn A T) (rr : Nat) (pkt : Bytes),
      pkt.length < fuel → runReciever_deliver env fuel c rr pkt = .crash c1 →
      ∃ k, env.NextCommand (pkt.drop k) ≠ 0 ∧
        (pkt.drop k).length < env.NextCommand (pkt.drop k) := by
  intro fuel
  induction fuel with
  | zero => intro c c1 rr pkt h; omega
  | succ fuel ih =>
    intro c c1 rr pkt hlen h
    unfold runReciever_deliver at h
    dsimp only at h
    by_cases hn : env.NextCommand pkt = 0
    · simp only [hn, if_true] at h
      cases h
    · simp only [hn, if_false] at h
      by_cases hl : pkt.length < env.NextCommand pkt
      · exact ⟨0, by simpa using hn, by simpa using hl⟩
      · simp only [hl, if_false] at h
        obtain ⟨k, hk1, hk2⟩ := ih _ c1 rr (pkt.drop (env.NextCommand pkt))
          (by rw [List.length_drop]; omega) h
        rw [List.drop_drop] at hk1 hk2
        exact ⟨_, hk1, hk2⟩

/-- What the inner loop does to the connection: it appends chunks of the packet to
the channel of the one slot it was given, and touches neither another slot nor the
outstanding table nor the transport. -/
theorem runReciever_deliver_spec {A T : Type} (env : Env A T) :
    ∀ (fuel : Nat) (c : conn A T) (rr : Nat) (pkt : Bytes),
      ∃ chunks : List Bytes,
        (runReciever_deliver env fuel c rr pkt).conn.heap =
          heapSet c.heap rr { c.heap rr with recv := (c.heap rr).recv ++ chunks } ∧
        (runReciever_deliver env fuel c rr pkt).conn.Requests = c.Requests ∧
        (runReciever_deliver env fuel c rr pkt).conn.t = c.t ∧
        chunks.flatten <+: pkt ∧
        (∀ c1 e, runReciever_deliver env fuel c rr pkt ≠ .exit c1 e) ∧
        (env.NextCommand pkt = 0 → 0 < fuel →
          chunks = [pkt] ∧ ∃ c1, runReciever_deliver env fuel c rr pkt = .next c1) := by
  intro fuel
  induction fuel with
  | zero =>
    intro c rr pkt
    refine ⟨[], ?_, rfl, rfl, List.nil_prefix, ?_, ?_⟩
    · funext q
      by_cases hq : q = rr
      · subst hq; simp [runReciever_deliver, StepResult.conn, heapSet]
      · simp [runReciever_deliver, StepResult.conn, heapSet, hq]
    · intro c1 e h
      simp [runReciever_deliver] at h
    · intro _ h; omega
  | succ fuel ih =>
    intro c rr pkt
    unfold runReciever_deliver
    dsimp only
    by_cases hn : env.NextCommand pkt = 0
    · simp only [hn, if_true]
      refine ⟨[pkt], ?_, rfl, rfl, ?_, ?_, ?_⟩
      · simp [StepResult.conn, chanSend]
      · simp
      · intro c1 e h; cases h
      · intro _ _; exact ⟨rfl, _, rfl⟩
    · simp only [hn, if_false]
      by_cases hl : pkt.length < env.NextCommand pkt
      · simp only [hl, if_true]
        refine ⟨[], ?_, rfl, rfl, List.nil_prefix, ?_, ?_⟩
        · funext q
          by_cases hq : q = rr
          · subst hq; simp [StepResult.conn, heapSet]
          · simp [StepResult.conn, heapSet, hq]
        · intro c1 e h; cases h
        · intro h; exact h.elim
      · simp only [hl, if_false]
        obtain ⟨chunks, hheap, hreq, ht, hpre, hne, _⟩ :=
          ih (chanSend { c with
              account := env.grant c.account (env.CreditResponse pkt) (c.heap rr).creditRequest }
            rr (pkt.take (env.NextCommand pkt))) rr (pkt.drop (env.NextCommand pkt))
        refine ⟨pkt.take (env.NextCommand pkt) :: chunks, ?_, ?_, ?_, ?_, hne, ?_⟩
        · rw [hheap]
          simp [chanSend, heapSet_heapSet, heapSet_same]
        · rw [hreq]; rfl
        · rw [ht]; rfl
        · rw [List.flatten_cons]
          obtain ⟨r, hr⟩ := hpre
          refine ⟨r, ?_⟩
          rw [List.append_assoc, hr, List.take_append_drop]
        · intro h; exact h.elim

/-- An accepted frame is routed on the connection with the transport advanced. -/
theorem runReciever_step_of_accepts {A T : Type} (env : Env A T) (c : conn A T) (pkt : Bytes)
    (h : runReciever_accepts env c pkt) :
    ∃ t1, runReciever_step env c = runReciever_route env { c with t := t1 } pkt := by
  obtain ⟨n, frame, hsize, hread, hverify⟩ := h
  refine ⟨(env.Read (env.ReadSize c.t).2 n).2, ?_⟩
  unfold runReciever_step
  simp only [hsize, hread, hverify]

/-- Routing a packet whose MessageId has a slot registered. -/
theorem runReciever_route_some {A T : Type} (env : Env A T) (c : conn A T) (pkt : Bytes)
    (rr : Nat) (h : mapGet c.Requests (env.MessageId pkt) = some rr) :
    ∃ chunks : List Bytes,
      (runReciever_route env c pkt).conn.heap =
        heapSet c.heap rr { c.heap rr with recv := (c.heap rr).recv ++ chunks } ∧
      (runReciever_route env c pkt).conn.Requests = mapDelete c.Requests (env.MessageId pkt) ∧
      chunks.flatten <+: pkt ∧
      (∀ c1 e, runReciever_route env c pkt ≠ .exit c1 e) ∧
      (env.NextCommand pkt = 0 →
        chunks = [pkt] ∧ ∃ c1, runReciever_route env c pkt = .next c1) := by
  unfold runReciever_route
  simp only [h]
  obtain ⟨chunks, hheap, hreq, _, hpre, hne, hzero⟩ :=
    runReciever_deliver_spec env (pkt.length + 1)
      { c with Requests := mapDelete c.Requests (env.MessageId pkt) } rr pkt
  exact ⟨chunks, hheap, hreq, hpre, hne, fun hn => hzero hn (Nat.succ_pos _)⟩

/-- Routing a packet whose MessageId has no slot registered. -/
theorem runReciever_route_none {A T : Type} (env : Env A T) (c : conn A T) (pkt : Bytes)
    (h : mapGet c.Requests (env.MessageId pkt) = none) :
    runReciever_route env c pkt =
      .exit c (Error.InvalidResponseError "unknown message id returned") := by
  unfold runReciever_route
  simp only [h]

/-- One pass of the receiver on an accepted frame whose MessageId has a slot. -/
theorem runReciever_step_some {A T : Type} (env : Env A T) (c : conn A T) (pkt : Bytes)
    (h : runReciever_accepts env c pkt) (rr : Nat)
    (hrr : mapGet c.Requests (env.MessageId pkt) = some rr) :
    (∃ chunks : List Bytes,
      ((runReciever_step env c).conn.heap rr).recv = (c.heap rr).recv ++ chunks ∧
      chunks.flatten <+: pkt ∧ (env.NextCommand pkt = 0 → chunks = [pkt])) ∧
    (∀ q, q ≠ rr → (runReciever_step env c).conn.heap q = c.heap q) ∧
    mapGet (runReciever_step env c).conn.Requests (env.MessageId pkt) = none ∧
    (∀ k, k ≠ env.MessageId pkt →
      mapGet (runReciever_step env c).conn.Requests k = mapGet c.Requests k) ∧
    (∀ c1 e, runReciever_step env c ≠ .exit c1 e) ∧
    (env.NextCommand pkt = 0 → ∃ c1, runReciever_step env c = .next c1) := by
  obtain ⟨t1, hstep⟩ := runReciever_step_of_accepts env c pkt h
  obtain ⟨chunks, hheap, hreq, hpre, hne, hzero⟩ :=
    runReciever_route_some env { c with t := t1 } pkt rr hrr
  rw [hstep]
  refine ⟨⟨chunks, ?_, hpre, fun hn => (hzero hn).1⟩, ?_, ?_, ?_, hne, fun hn => (hzero hn).2⟩
  · rw [hheap, heapSet_same]
  · intro q hq
    rw [hheap, heapSet_other _ _ _ hq]
  · rw [hreq]
    exact mapGet_mapDelete_self _ _
  · intro k hk
    rw [hreq]
    exact mapGet_mapDelete_ne _ hk

/-- Routing a frame of two chained replies: both parts go to the slot registered under
the first header's MessageId; the table is not consulted for the second header. -/
theorem runReciever_route_chained {A T : Type} (env : Env A T) (c : conn A T) (pkt : Bytes)
    (rr : Nat) (hrr : mapGet c.Requests (env.MessageId pkt) = some rr)
    (hn : env.NextCommand pkt ≠ 0) (hle : env.NextCommand pkt ≤ pkt.length)
    (hlast : env.NextCommand (pkt.drop (env.NextCommand pkt)) = 0) :
    ((runReciever_route env c pkt).conn.heap rr).recv =
      (c.heap rr).recv ++
        [pkt.take (env.NextCommand pkt), pkt.drop (env.NextCommand pkt)] ∧
    (∀ q, q ≠ rr → (runReciever_route env c pkt).conn.heap q = c.heap q) ∧
    (∀ k, k ≠ env.MessageId pkt →
      mapGet (runReciever_route env c pkt).conn.Requests k = mapGet c.Requests k) := by
  have hpos : 0 < env.NextCommand pkt := Nat.pos_of_ne_zero hn
  have hfuel : ∀ (c1 : conn A T),
      runReciever_deliver env pkt.length c1 rr (pkt.drop (env.NextCommand pkt)) =
        runReciever_deliver env ((pkt.drop (env.NextCommand pkt)).length + 1) c1 rr
          (pkt.drop (env.NextCommand pkt)) := by
    intro c1
    apply runReciever_deliver_fuel
    · rw [List.length_drop]; omega
    · omega
  unfold runReciever_route
  simp only [hrr]
  unfold runReciever_deliver
  simp only [hn, if_false, Nat.not_lt.mpr hle]
  rw [hfuel]
  unfold runReciever_deliver
  simp only [hlast, if_true, StepResult.conn]
  refine ⟨?_, ?_, ?_⟩
  · simp [chanSend, heapSet]
  · intro q hq
    simp [chanSend, heapSet, hq]
  · intro k hk
    simp only [chanSend]
    exact mapGet_mapDelete_ne _ hk

/-- C2: for a frame the receiver loop accepts, with MessageId `m` in its (first)
header: if a slot is registered under `m`, everything the pass delivers goes to the
channel of that slot (chunks of the frame, the whole frame when NextCommand is 0),
no other slot changes, the entry for `m` leaves the table and every other entry
stays; if no slot is registered under `m`, nothing is delivered and the loop breaks
with the InvalidResponseError "unknown message id returned". So when two requests
are answered in reverse order, each slot receives the reply carrying its own
MessageId. -/
theorem runReciever_routes_by_messageId {A T : Type} (env : Env A T) (c : conn A T)
    (pkt : Bytes) (h : runReciever_accepts env c pkt) :
    (∀ rr, mapGet c.Requests (env.MessageId pkt) = some rr →
      (∃ chunks : List Bytes,
        ((runReciever_step env c).conn.heap rr).recv = (c.heap rr).recv ++ chunks ∧
        chunks.flatten <+: pkt ∧ (env.NextCommand pkt = 0 → chunks = [pkt])) ∧
      (∀ q, q ≠ rr → (runReciever_step env c).conn.heap q = c.heap q) ∧
      mapGet (runReciever_step env c).conn.Requests (env.MessageId pkt) = none ∧
      (∀ k, k ≠ env.MessageId pkt →
        mapGet (runReciever_step env c).conn.Requests k = mapGet c.Requests k) ∧
      (∀ c1 e, runReciever_step env c ≠ .exit c1 e)) ∧
    (mapGet c.Requests (env.MessageId pkt) = none →
      ∃ c1, runReciever_step env c =
          .exit c1 (Error.InvalidResponseError "unknown message id returned") ∧
        c1.heap = c.heap ∧ c1.Requests = c.Requests) ∧
    (∀ (pktA : Bytes) (rrA rrB : Nat),
      mapGet c.Requests (env.MessageId pktA) = some rrA →
      mapGet c.Requests (env.MessageId pkt) = some rrB →
      env.MessageId pktA ≠ env.MessageId pkt → rrA ≠ rrB →
      env.NextCommand pkt = 0 → env.NextCommand pktA = 0 →
      runReciever_accepts env (runReciever_step env c).conn pktA →
      ∃ c1 c2, runReciever_step env c = .next c1 ∧ runReciever_step env c1 = .next c2 ∧
        (c2.heap rrB).recv = (c.heap rrB).recv ++ [pkt] ∧
        (c2.heap rrA).recv = (c.heap rrA).recv ++ [pktA]) := by
  refine ⟨fun rr hrr => ?_, fun hnone => ?_, ?_⟩
  · obtain ⟨h1, h2, h3, h4, h5, _⟩ := runReciever_step_some env c pkt h rr hrr
    exact ⟨h1, h2, h3, h4, h5⟩
  · obtain ⟨t1, hstep⟩ := runReciever_step_of_accepts env c pkt h
    rw [hstep]
    exact ⟨_, runReciever_route_none env { c with t := t1 } pkt hnone, rfl, rfl⟩
  · intro pktA rrA rrB hA hB hne hrr hn hnA hacc
    obtain ⟨⟨chunks, hrecv, _, hch⟩, hother, _, hkeep, _, hnext⟩ :=
      runReciever_step_some env c pkt h rrB hB
    obtain ⟨c1, hc1⟩ := hnext hn
    rw [hc1] at hrecv hother hkeep hacc
    simp only [StepResult.conn] at hrecv hother hkeep hacc
    have hA1 : mapGet c1.Requests (env.MessageId pktA) = some rrA := by
      rw [hkeep _ hne]; exact hA
    obtain ⟨⟨chunksA, hrecvA, _, hchA⟩, hotherA, _, _, _, hnextA⟩ :=
      runReciever_step_some env c1 pktA hacc rrA hA1
    obtain ⟨c2, hc2⟩ := hnextA hnA
    rw [hc2] at hrecvA hotherA
    simp only [StepResult.conn] at hrecvA hotherA
    refine ⟨c1, c2, hc1, hc2, ?_, ?_⟩
    · rw [hotherA rrB (Ne.symm hrr), hrecv, hch hn]
    · rw [hrecvA, hchA hnA, hother rrA hrr]

/-- C2 at a concrete input: requests with MessageIds 1 and 2 are outstanding and the
server answers 2 first, then 1. -/
theorem runReciever_routes_by_messageId_witness :
    ∃ c1 c2, runReciever_step wireEnv (twoOutstanding [replyB, replyA]) = .next c1 ∧
      runReciever_step wireEnv c1 = .next c2 ∧
      (c2.heap 1).recv = ((twoOutstanding [replyB, replyA]).heap 1).recv ++ [replyB] ∧
      (c2.heap 0).recv = ((twoOutstanding [replyB, replyA]).heap 0).recv ++ [replyA] :=
  (runReciever_routes_by_messageId wireEnv (twoOutstanding [replyB, replyA]) replyB
    ⟨replyB.length, replyB, rfl, rfl, rfl⟩).2.2 replyA 0 1 (by decide) (by decide)
    (by decide) (by decide) (by decide) (by decide) ⟨replyA.length, replyA, rfl, rfl, rfl⟩

/-- C3 fails on the code: with MessageIds 1 and 2 outstanding (slots 0 and 1), a frame
holding a reply to 1 chained to a reply to 2 is split in two, and both parts go to
slot 0; slot 1 receives nothing and its entry stays in the outstanding table. -/
theorem runReciever_compound_goes_to_first_slot :
    mapGet (twoOutstanding [compoundReply]).Requests 1 = some 0 ∧
    mapGet (twoOutstanding [compoundReply]).Requests 2 = some 1 ∧
    PacketCodec.MessageId (compoundReply.take 64) = 1 ∧
    PacketCodec.NextCommand (compoundReply.take 64) = 64 ∧
    PacketCodec.MessageId (compoundReply.drop 64) = 2 ∧
    PacketCodec.NextCommand (compoundReply.drop 64) = 0 ∧
    ((runReciever_step wireEnv (twoOutstanding [compoundReply])).conn.heap 0).recv =
      [compoundReply.take 64, compoundReply.drop 64] ∧
    ((runReciever_step wireEnv (twoOutstanding [compoundReply])).conn.heap 1).recv = [] ∧
    mapGet (runReciever_step wireEnv (twoOutstanding [compoundReply])).conn.Requests 1 = none ∧
    mapGet (runReciever_step wireEnv (twoOutstanding [compoundReply])).conn.Requests 2 =
      some 1 := by
  refine ⟨by decide, by decide, by decide, by decide, by decide, by decide, by decide,
    by decide, by decide, by decide⟩

/-- Lines 425-450 for a header-valid frame that is not a notification. -/
theorem runReciever_verify_plain {A T : Type} (env : Env A T) (c : conn A T) (pkt : Bytes)
    (hvalid : env.IsInvalid pkt = false) (hid : env.MessageId pkt ≠ broadcastMessageId) :
    runReciever_verify env c pkt =
      if env.Flags pkt &&& SMB2_FLAGS_SIGNED ≠ 0 then
        match mapGet c.sessionTable (env.SessionId pkt) with
        | none => .error (Error.InvalidResponseError "unknown session id returned")
        | some s =>
          if !s.verify pkt then
            .error (Error.InvalidResponseError "unverified packet returned")
          else
            .ok pkt
      else if c.requireSigning then
        match mapGet c.sessionTable (env.SessionId pkt) with
        | some _ => .error (Error.InvalidResponseError "signing required")
        | none => .ok pkt
      else
        .ok pkt := by
  unfold runReciever_verify
  rw [if_neg (by rw [hvalid]; decide), if_pos hid]

/-- C4: for a plain, header-valid frame whose MessageId is not 0xFFFFFFFFFFFFFFFF, the
receiver goes on to route the frame exactly when (a) the SIGNED flag is set, the
SessionId is in the session table and that session's `verify` accepts the frame, or
(b) the SIGNED flag is clear and it is not the case that requireSigning holds with
the SessionId in the session table; otherwise the loop breaks with an
InvalidResponseError, and neither a slot nor the outstanding table has changed. -/
theorem runReciever_signing_gate {A T : Type} (env : Env A T) (c : conn A T) (n : Nat)
    (pkt : Bytes) (hsize : (env.ReadSize c.t).1 = .ok n)
    (hread : (env.Read (env.ReadSize c.t).2 n).1 = .ok pkt)
    (hvalid : env.IsInvalid pkt = false) (hid : env.MessageId pkt ≠ broadcastMessageId) :
    (((env.Flags pkt &&& SMB2_FLAGS_SIGNED ≠ 0 ∧
          ∃ s, mapGet c.sessionTable (env.SessionId pkt) = some s ∧ s.verify pkt = true) ∨
        (env.Flags pkt &&& SMB2_FLAGS_SIGNED = 0 ∧
          ¬ (c.requireSigning = true ∧
            ∃ s, mapGet c.sessionTable (env.SessionId pkt) = some s))) →
      runReciever_verify env c pkt = .ok pkt ∧
      runReciever_step env c =
        runReciever_route env { c with t := (env.Read (env.ReadSize c.t).2 n).2 } pkt) ∧
    (¬ ((env.Flags pkt &&& SMB2_FLAGS_SIGNED ≠ 0 ∧
          ∃ s, mapGet c.sessionTable (env.SessionId pkt) = some s ∧ s.verify pkt = true) ∨
        (env.Flags pkt &&& SMB2_FLAGS_SIGNED = 0 ∧
          ¬ (c.requireSigning = true ∧
            ∃ s, mapGet c.sessionTable (env.SessionId pkt) = some s))) →
      ∃ msg, runReciever_verify env c pkt = .error (Error.InvalidResponseError msg) ∧
        ∃ c1, runReciever_step env c = .exit c1 (Error.InvalidResponseError msg) ∧
          c1.heap = c.heap ∧ c1.Requests = c.Requests) := by
  have hv := runReciever_verify_plain env c pkt hvalid hid
  have hstep_ok : runReciever_verify env c pkt = .ok pkt →
      runReciever_step env c =
        runReciever_route env { c with t := (env.Read (env.ReadSize c.t).2 n).2 } pkt := by
    intro h
    unfold runReciever_step
    simp only [hsize, hread, h]
  have hstep_err : ∀ e, runReciever_verify env c pkt = .error e →
      ∃ c1, runReciever_step env c = .exit c1 e ∧ c1.heap = c.heap ∧
        c1.Requests = c.Requests := by
    intro e h
    refine ⟨{ c with t := (env.Read (env.ReadSize c.t).2 n).2 }, ?_, rfl, rfl⟩
    unfold runReciever_step
    simp only [hsize, hread, h]
  by_cases hsigned : env.Flags pkt &&& SMB2_FLAGS_SIGNED ≠ 0
  · rw [if_pos hsigned] at hv
    cases hs : mapGet c.sessionTable (env.SessionId pkt) with
    | none =>
      rw [hs] at hv
      refine ⟨fun h => ?_, fun _ => ⟨_, hv, hstep_err _ hv⟩⟩
      rcases h with ⟨_, s, h, _⟩ | ⟨h, _⟩
      · cases h
      · exact absurd h hsigned
    | some s =>
      rw [hs] at hv
      cases hver : s.verify pkt with
      | false =>
        simp only [hver, Bool.not_false, if_true] at hv
        refine ⟨fun h => ?_, fun _ => ⟨_, hv, hstep_err _ hv⟩⟩
        rcases h with ⟨_, s1, h, h1⟩ | ⟨h, _⟩
        · cases h
          rw [hver] at h1
          cases h1
        · exact absurd h hsigned
      | true =>
        simp only [hver, Bool.not_true] at hv
        have hv1 : runReciever_verify env c pkt = .ok pkt := hv
        refine ⟨fun _ => ⟨hv1, hstep_ok hv1⟩, fun h => ?_⟩
        exact absurd (Or.inl ⟨hsigned, s, rfl, hver⟩) h
  · rw [if_neg hsigned] at hv
    have hclear : env.Flags pkt &&& SMB2_FLAGS_SIGNED = 0 := not_not.mp hsigned
    by_cases hreq : c.requireSigning = true
    · rw [if_pos hreq] at hv
      cases hs : mapGet c.sessionTable (env.SessionId pkt) with
      | none =>
        rw [hs] at hv
        have hv1 : runReciever_verify env c pkt = .ok pkt := hv
        refine ⟨fun _ => ⟨hv1, hstep_ok hv1⟩, fun h => ?_⟩
        exact absurd (Or.inr ⟨hclear, fun h1 => by obtain ⟨_, s, h2⟩ := h1; cases h2⟩) h
      | some s =>
        rw [hs] at hv
        refine ⟨fun h => ?_, fun _ => ⟨_, hv, hstep_err _ hv⟩⟩
        rcases h with ⟨h, _⟩ | ⟨_, h⟩
        · exact absurd h hsigned
        · exact absurd ⟨hreq, s, rfl⟩ h
    · rw [if_neg hreq] at hv
      refine ⟨fun _ => ⟨hv, hstep_ok hv⟩, fun h => ?_⟩
      exact absurd (Or.inr ⟨hclear, fun h1 => hreq h1.1⟩) h

/-- C4 at concrete inputs: with signing required and session 3 established, a signed
and verified reply is routed, an unsigned reply for session 3 ends the loop. -/
theorem runReciever_signing_gate_witness :
    (runReciever_verify wireEnv (signingConn [signedReply]) signedReply = .ok signedReply ∧
      runReciever_step wireEnv (signingConn [signedReply]) =
        runReciever_route wireEnv
          { signingConn [signedReply] with
            t := (wireEnv.Read (wireEnv.ReadSize (signingConn [signedReply]).t).2
              signedReply.length).2 }
          signedReply) ∧
    ∃ msg, runReciever_verify wireEnv (signingConn [unsignedReply]) unsignedReply =
        .error (Error.InvalidResponseError msg) ∧
      ∃ c1, runReciever_step wireEnv (signingConn [unsignedReply]) =
          .exit c1 (Error.InvalidResponseError msg) ∧
        c1.heap = (signingConn [unsignedReply]).heap ∧
        c1.Requests = (signingConn [unsignedReply]).Requests :=
  ⟨(runReciever_signing_gate wireEnv (signingConn [signedReply]) signedReply.length signedReply
      rfl rfl (by decide) (by decide)).1
      (Or.inl ⟨by decide, testSession 3 0, rfl, by decide⟩),
    (runReciever_signing_gate wireEnv (signingConn [unsignedReply]) unsignedReply.length
      unsignedReply rfl rfl (by decide) (by decide)).2
      (fun h => h.elim (fun ha => ha.1 (by decide)) (fun hb => hb.2 ⟨rfl, testSession 3 0, rfl⟩))⟩

/-- The final loop stores the error in the slot it visits and leaves its channel
non-empty; a slot that was so before stays so. -/
theorem runReciever_post_spec (err : Error) (h : Nat → requestResponse) (p q : Nat)
    (hq : q = p ∨ ((h q).err = some err ∧ (h q).recv ≠ [])) :
    (runReciever_post err h p q).err = some err ∧ (runReciever_post err h p q).recv ≠ [] := by
  unfold runReciever_post
  by_cases hqp : q = p
  · subst hqp
    rw [heapSet_same]
    dsimp only
    split
    · exact ⟨rfl, by simp⟩
    · next hl =>
      refine ⟨rfl, ?_⟩
      intro hnil
      apply hl
      dsimp only at hnil
      rw [hnil]
      decide
  · rw [heapSet_other _ _ _ hqp]
    rcases hq with hq | hq
    · exact absurd hq hqp
    · exact hq

theorem runReciever_drain_fold (err : Error) :
    ∀ (l : List (Nat × Nat)) (h : Nat → requestResponse) (q : Nat),
      (((h q).err = some err ∧ (h q).recv ≠ []) ∨ ∃ x ∈ l, x.2 = q) →
      ((l.foldl (fun h e => runReciever_post err h e.2) h q).err = some err ∧
        (l.foldl (fun h e => runReciever_post err h e.2) h q).recv ≠ []) := by
  intro l
  induction l with
  | nil =>
    intro h q hq
    rcases hq with hq | ⟨x, hx, _⟩
    · exact hq
    · cases hx
  | cons x l ih =>
    intro h q hq
    rw [List.foldl_cons]
    apply ih
    rcases hq with hq | ⟨y, hy, hyq⟩
    · exact Or.inl (runReciever_post_spec err h x.2 q (Or.inr hq))
    · rcases List.mem_cons.mp hy with hyx | hyl
      · subst hyx
        exact Or.inl (runReciever_post_spec err h y.2 q (Or.inl hyq.symm))
      · exact Or.inr ⟨y, hyl, hyq⟩

/-- After the final loop every entry of the outstanding table has the error stored, a
value on its channel, and a `recv` that returns the error. -/
theorem runReciever_drain_spec {A T : Type} (err : Error) (c : conn A T) :
    (runReciever_drain err c).Requests = c.Requests ∧
    ∀ x ∈ c.Requests,
      ((runReciever_drain err c).heap x.2).err = some err ∧
      ((runReciever_drain err c).heap x.2).recv ≠ [] ∧
      ∃ rr1, recv ((runReciever_drain err c).heap x.2) = some (.error err, rr1) := by
  refine ⟨rfl, fun x hx => ?_⟩
  have h := runReciever_drain_fold err c.Requests c.heap x.2 (Or.inr ⟨x, hx, rfl⟩)
  refine ⟨h.1, h.2, ?_⟩
  have h1 : ((runReciever_drain err c).heap x.2).err = some err := h.1
  have h2 : ((runReciever_drain err c).heap x.2).recv ≠ [] := h.2
  unfold recv
  cases hr : ((runReciever_drain err c).heap x.2).recv with
  | nil => exact absurd hr h2
  | cons pkt rest =>
    simp only [h1]
    exact ⟨_, rfl⟩

/-- A run that has exited ended with the final loop. -/
theorem runReciever_exited {A T : Type} (env : Env A T) :
    ∀ (fuel : Nat) (c c1 : conn A T) (err : Error),
      runReciever env fuel c = .exited c1 err → ∃ c0, c1 = runReciever_drain err c0 := by
  intro fuel
  induction fuel with
  | zero => intro c c1 err h; cases h
  | succ fuel ih =>
    intro c c1 err h
    unfold runReciever at h
    split at h
    · exact ih _ _ _ h
    · injection h with h1 h2
      subst h2
      exact ⟨_, h1.symm⟩
    · cases h

/-- C9: whenever the receiver loop exits it does so with a terminal error `e`, and
every entry then in the outstanding table has `e` in its err field and a value on its
channel, so `recv` on that slot returns `e`. In particular, when the transport's
ReadSize or Read fails, the loop exits on that pass with the TransportError and each
of the outstanding requests resolves with it. -/
theorem runReciever_exit_resolves_outstanding {A T : Type} (env : Env A T) (c : conn A T) :
    (∀ (fuel : Nat) (c1 : conn A T) (e : Error), runReciever env fuel c = .exited c1 e →
      ∀ x ∈ c1.Requests,
        (c1.heap x.2).err = some e ∧ (c1.heap x.2).recv ≠ [] ∧
        ∃ rr1, recv (c1.heap x.2) = some (.error e, rr1)) ∧
    (∀ msg, ((env.ReadSize c.t).1 = .error msg ∨
        ∃ n, (env.ReadSize c.t).1 = .ok n ∧ (env.Read (env.ReadSize c.t).2 n).1 = .error msg) →
      ∀ fuel, ∃ c1, runReciever env (fuel + 1) c = .exited c1 (Error.TransportError msg) ∧
        c1.Requests = c.Requests ∧
        ∀ x ∈ c.Requests, (c1.heap x.2).err = some (Error.TransportError msg) ∧
          ∃ rr1, recv (c1.heap x.2) = some (.error (Error.TransportError msg), rr1)) := by
  constructor
  · intro fuel c1 e h x hx
    obtain ⟨c0, rfl⟩ := runReciever_exited env fuel c c1 e h
    exact (runReciever_drain_spec e c0).2 x hx
  · intro msg hfail fuel
    have hstep : ∃ t1, runReciever_step env c =
        .exit { c with t := t1 } (Error.TransportError msg) := by
      rcases hfail with h | ⟨n, h1, h2⟩
      · refine ⟨(env.ReadSize c.t).2, ?_⟩
        unfold runReciever_step
        simp only [h]
      · refine ⟨(env.Read (env.ReadSize c.t).2 n).2, ?_⟩
        unfold runReciever_step
        simp only [h1, h2]
    obtain ⟨t1, hstep⟩ := hstep
    refine ⟨runReciever_drain (Error.TransportError msg) { c with t := t1 }, ?_, rfl, ?_⟩
    · unfold runReciever
      rw [hstep]
    · intro x hx
      have := (runReciever_drain_spec (Error.TransportError msg) { c with t := t1 }).2 x hx
      exact ⟨this.1, this.2.2⟩

/-- C9 at a concrete input: two requests outstanding, the transport at EOF. -/
theorem runReciever_exit_resolves_outstanding_witness :
    (twoOutstanding []).Requests = [(2, 1), (1, 0)] ∧
    ∃ c1, runReciever wireEnv 1 (twoOutstanding []) = .exited c1 (Error.TransportError "EOF") ∧
      c1.Requests = (twoOutstanding []).Requests ∧
      ∀ x ∈ (twoOutstanding []).Requests, (c1.heap x.2).err = some (Error.TransportError "EOF") ∧
        ∃ rr1, recv (c1.heap x.2) = some (.error (Error.TransportError "EOF"), rr1) :=
  ⟨by decide,
    (runReciever_exit_resolves_outstanding wireEnv (twoOutstanding [])).2 "EOF" (Or.inl rfl) 0⟩

/-! ## The wait in `recv` -/

theorem mapDelete_length_le {V : Type} (m : List (Nat × V)) (k : Nat) :
    (mapDelete m k).length ≤ m.length := by
  unfold mapDelete
  exact List.length_filter_le _ _

theorem mapDelete_length_lt {V : Type} (m : List (Nat × V)) (k : Nat) (v : V)
    (h : mapGet m k = some v) : (mapDelete m k).length < m.length := by
  induction m with
  | nil => cases h
  | cons e m ih =>
    obtain ⟨k1, v1⟩ := e
    by_cases hk : k1 = k
    · have := mapDelete_length_le m k
      simp only [mapDelete, hk, List.filter_cons, ne_eq, not_true_eq_false, decide_False,
        Bool.false_eq_true, if_false, List.length_cons] at this ⊢
      omega
    · have h1 : mapGet m k = some v := by simpa [mapGet, hk] using h
      have := ih h1
      simp only [mapDelete, List.filter_cons, ne_eq, hk, not_false_eq_true, decide_True,
        if_true, List.length_cons] at this ⊢
      omega

/-- A pass of the receiver that goes on has taken an entry out of the outstanding
table. -/
theorem runReciever_step_next_length {A T : Type} (env : Env A T) (c c1 : conn A T)
    (h : runReciever_step env c = .next c1) : c1.Requests.length < c.Requests.length := by
  unfold runReciever_step at h
  dsimp only at h
  split at h
  · cases h
  · split at h
    · cases h
    · split at h
      · cases h
      · next pkt _ =>
        unfold runReciever_route at h
        dsimp only at h
        split at h
        · cases h
        · next rr hrr =>
          obtain ⟨_, _, hreq, _⟩ := runReciever_deliver_spec env (pkt.length + 1)
            { c with t := (env.Read (env.ReadSize c.t).2 _).2,
                     Requests := mapDelete c.Requests (env.MessageId pkt) } rr pkt
          rw [h] at hreq
          simp only [StepResult.conn] at hreq
          rw [hreq]
          exact mapDelete_length_lt _ _ _ hrr

/-- The looks at the channel that `sendRecv` allows are never used up: any two amounts
above the number of outstanding entries plus one give the same result. -/
theorem recvWait_fuel {A T : Type} (env : Env A T) :
    ∀ (f1 f2 : Nat) (c : conn A T) (receiving : Bool) (rr : Nat),
      (if receiving then c.Requests.length + 1 else 0) < f1 →
      (if receiving then c.Requests.length + 1 else 0) < f2 →
      recvWait env f1 c receiving rr = recvWait env f2 c receiving rr := by
  intro f1
  induction f1 with
  | zero => intro f2 c receiving rr h; omega
  | succ f1 ih =>
    intro f2 c receiving rr h1 h2
    cases f2 with
    | zero => omega
    | succ f2 =>
      unfold recvWait
      cases hrecv : recv (c.heap rr) with
      | some v => rfl
      | none =>
        dsimp only
        cases receiving with
        | false => rfl
        | true =>
          simp only [if_true] at h1 h2 ⊢
          cases hstep : runReciever_step env c with
          | next c1 =>
            have := runReciever_step_next_length env c c1 hstep
            dsimp only
            apply ih
            · simp only [if_true]; omega
            · simp only [if_true]; omega
          | exit c1 err =>
            dsimp only
            apply ih
            · simp only [Bool.false_eq_true, if_false]; omega
            · simp only [Bool.false_eq_true, if_false]; omega
          | crash c1 => rfl

/-! ## `accept` and `acceptError` -/

/-- The loop of `acceptError` when the `count` contexts at the successive positions
are all valid: their data, in wire order. -/
theorem acceptError_contexts_valid (dec : Decoders) :
    ∀ (count : Nat) (eData : Bytes),
      (∀ i, i < count → dec.ErrorContextIsInvalid (dec.ErrorContextNext^[i] eData) = false) →
      acceptError_contexts dec count eData =
        .ok ((List.range count).map
          (fun i => dec.ErrorContextData (dec.ErrorContextNext^[i] eData))) := by
  intro count
  induction count with
  | zero => intro eData _; rfl
  | succ count ih =>
    intro eData h
    have h0 := h 0 (Nat.succ_pos _)
    have hrest : ∀ i, i < count →
        dec.ErrorContextIsInvalid (dec.ErrorContextNext^[i] (dec.ErrorContextNext eData)) =
          false := by
      intro i hi
      have := h (i + 1) (Nat.succ_lt_succ hi)
      rwa [Function.iterate_succ_apply] at this
    unfold acceptError_contexts
    simp only [Function.iterate_zero, id_eq] at h0
    simp only [h0, Bool.false_eq_true, if_false, ih _ hrest, List.range_succ_eq_map,
      List.map_cons, List.map_map, Function.iterate_zero, id_eq]
    rfl

/-- The loop of `acceptError` when one of the `count` contexts is invalid. -/
theorem acceptError_contexts_invalid (dec : Decoders) :
    ∀ (count : Nat) (eData : Bytes),
      (∃ i, i < count ∧ dec.ErrorContextIsInvalid (dec.ErrorContextNext^[i] eData) = true) →
      acceptError_contexts dec count eData =
        .error (Error.InvalidResponseError "broken error context response format") := by
  intro count
  induction count with
  | zero => intro eData ⟨i, hi, _⟩; omega
  | succ count ih =>
    intro eData ⟨i, hi, hinv⟩
    unfold acceptError_contexts
    by_cases h0 : dec.ErrorContextIsInvalid eData = true
    · simp only [h0, if_true]
    · have h0f : dec.ErrorContextIsInvalid eData = false := by simpa using h0
      simp only [h0f, Bool.false_eq_true, if_false]
      cases i with
      | zero => exact absurd hinv h0
      | succ i =>
        rw [Function.iterate_succ_apply] at hinv
        rw [ih _ ⟨i, Nat.lt_of_succ_lt_succ hi, hinv⟩]

/-- C15: for a packet whose ErrorResponse decodes as valid, `acceptError` returns: when
ErrorContextCount is 0, a ResponseError with the packet's Status as Code and the
response's ErrorData as its one data entry; when ErrorContextCount is `n > 0` and the
`n` consecutive error contexts decode as valid, a ResponseError with the packet's
Status as Code and `n` data entries, the `i`-th being the ErrorContextData of the
`i`-th context in wire order; and when one of the first `n` contexts is invalid, an
InvalidResponseError. -/
theorem acceptError_data (dec : Decoders) (p : Bytes)
    (hvalid : dec.ErrorIsInvalid (dec.Data p) = false) :
    (dec.ErrorContextCount (dec.Data p) = 0 →
      acceptError dec p =
        Error.ResponseError (dec.Status p) [dec.ErrorData (dec.Data p)]) ∧
    (dec.ErrorContextCount (dec.Data p) ≠ 0 →
      (∀ i, i < dec.ErrorContextCount (dec.Data p) →
        dec.ErrorContextIsInvalid (dec.ErrorContextNext^[i] (dec.ErrorData (dec.Data p)))
          = false) →
      acceptError dec p =
        Error.ResponseError (dec.Status p)
          ((List.range (dec.ErrorContextCount (dec.Data p))).map
            (fun i => dec.ErrorContextData
              (dec.ErrorContextNext^[i] (dec.ErrorData (dec.Data p)))))) ∧
    (dec.ErrorContextCount (dec.Data p) ≠ 0 →
      (∃ i, i < dec.ErrorContextCount (dec.Data p) ∧
        dec.ErrorContextIsInvalid (dec.ErrorContextNext^[i] (dec.ErrorData (dec.Data p)))
          = true) →
      acceptError dec p =
        Error.InvalidResponseError "broken error context response format") := by
  refine ⟨fun h0 => ?_, fun hn hall => ?_, fun hn hex => ?_⟩
  · unfold acceptError
    simp only [hvalid, Bool.false_eq_true, if_false, h0, ne_eq, not_true_eq_false]
  · unfold acceptError
    simp only [hvalid, Bool.false_eq_true, if_false, ne_eq, hn, not_false_eq_true, if_true,
      acceptError_contexts_valid dec _ _ hall]
  · unfold acceptError
    simp only [hvalid, Bool.false_eq_true, if_false, ne_eq, hn, not_false_eq_true, if_true,
      acceptError_contexts_invalid dec _ _ hex]

/-- C15 at concrete inputs: an error response without contexts, and one with the two
contexts `[0xA1]` and `[0xB1, 0xB2]`. -/
theorem acceptError_data_witness :
    acceptError wireDecoders
        (wirePacket 0xC0000022 5 1 0 0 7 0 (wireErrorResponse 0 [0xEE])) =
      Error.ResponseError 0xC0000022 [[0xEE]] ∧
    acceptError wireDecoders
        (wirePacket 0xC0000022 5 1 0 0 7 0
          (wireErrorResponse 2 (wireErrorContext 0 [0xA1] ++ wireErrorContext 0 [0xB1, 0xB2]))) =
      Error.ResponseError 0xC0000022 [[0xA1], [0xB1, 0xB2]] := by
  constructor
  · exact (acceptError_data wireDecoders
      (wirePacket 0xC0000022 5 1 0 0 7 0 (wireErrorResponse 0 [0xEE])) (by decide)).1 (by decide)
  · decide

/-- C14 (as amended): `accept(cmd, pkt)` succeeds, returning the packet's data, if and
only if the packet's Command equals `cmd` and its Status is STATUS_SUCCESS; when the
Command differs the error is an InvalidResponseError naming both commands; when the
Command matches and the Status is not STATUS_SUCCESS the error is the one
`acceptError` constructs from the packet's ErrorResponse structure. -/
theorem accept_checks_command_then_status (dec : Decoders) (cmd : Nat) (pkt : Bytes) :
    ((∃ res, accept dec cmd pkt = .ok res) ↔
      (dec.Command pkt = cmd ∧ dec.Status pkt = STATUS_SUCCESS)) ∧
    (dec.Command pkt = cmd → dec.Status pkt = STATUS_SUCCESS →
      accept dec cmd pkt = .ok (dec.Data pkt)) ∧
    (dec.Command pkt ≠ cmd →
      accept dec cmd pkt = .error (Error.InvalidResponseError
        ("expected command: " ++ toString cmd ++ ", got " ++ toString (dec.Command pkt)))) ∧
    (dec.Command pkt = cmd → dec.Status pkt ≠ STATUS_SUCCESS →
      accept dec cmd pkt = .error (acceptError dec pkt)) := by
  have h2 : dec.Command pkt = cmd → dec.Status pkt = STATUS_SUCCESS →
      accept dec cmd pkt = .ok (dec.Data pkt) := by
    intro hc hs
    unfold accept
    simp [hc, hs]
  have h3 : dec.Command pkt ≠ cmd →
      accept dec cmd pkt = .error (Error.InvalidResponseError
        ("expected command: " ++ toString cmd ++ ", got " ++ toString (dec.Command pkt))) := by
    intro hc
    unfold accept
    simp [Ne.symm hc]
  have h4 : dec.Command pkt = cmd → dec.Status pkt ≠ STATUS_SUCCESS →
      accept dec cmd pkt = .error (acceptError dec pkt) := by
    intro hc hs
    unfold accept
    simp [hc, hs]
  refine ⟨⟨fun ⟨res, hres⟩ => ?_, fun ⟨hc, hs⟩ => ⟨_, h2 hc hs⟩⟩, h2, h3, h4⟩
  by_cases hc : dec.Command pkt = cmd
  · by_cases hs : dec.Status pkt = STATUS_SUCCESS
    · exact ⟨hc, hs⟩
    · rw [h4 hc hs] at hres
      cases hres
  · rw [h3 hc] at hres
    cases hres

/-- C14 fails as stated: a successful packet with Command 5 offered to `accept` for
command 0 gives an InvalidResponseError, not a ResponseError. -/
theorem accept_command_mismatch_is_invalid_response :
    PacketCodec.Command (wirePacket 0 5 1 0 0 7 0 [0x01]) = 5 ∧
    PacketCodec.Status (wirePacket 0 5 1 0 0 7 0 [0x01]) = STATUS_SUCCESS ∧
    accept wireDecoders 0 (wirePacket 0 5 1 0 0 7 0 [0x01]) =
      .error (Error.InvalidResponseError "expected command: 0, got 5") := by
  refine ⟨by decide, by decide, rfl⟩

/-! ## `conn.requestCreditCharge` -/

/-- The charge of lines 238-242 for a payload of at least one byte when LARGE_MTU was
negotiated: `(S - 1) / 65536 + 1`, reduced to 16 bits. -/
theorem requestCreditCharge_wanted_pos (capabilities S : Nat)
    (hcap : capabilities &&& SMB2_GLOBAL_CAP_LARGE_MTU ≠ 0) (hS : 1 ≤ S) :
    requestCreditCharge_wanted capabilities (S : Int) = ((S - 1) / 65536 + 1) % 65536 := by
  unfold requestCreditCharge_wanted
  rw [if_neg hcap]
  have h1 : ((S : Int) - 1) = ((S - 1 : Nat) : Int) := by omega
  rw [h1, Int.tdiv_eq_ediv (by omega) (by decide)]
  omega

/-- The ceiling of `S / 65536` for `S ≥ 1`. -/
theorem ceil_div_65536 (S : Nat) (hS : 1 ≤ S) :
    ⌈(S : ℚ) / 65536⌉₊ = (S - 1) / 65536 + 1 := by
  rw [Nat.ceil_eq_iff (by omega)]
  constructor
  · rw [lt_div_iff₀ (by norm_num)]
    have : ((S - 1) / 65536 + 1 - 1) * 65536 < S := by omega
    exact_mod_cast this
  · rw [div_le_iff₀ (by norm_num)]
    have : S ≤ ((S - 1) / 65536 + 1) * 65536 := by omega
    exact_mod_cast this

/-- C16 (as amended): the credit charge that `requestCreditCharge` asks the credit
account for is exactly 1 when LARGE_MTU was not negotiated; when it was negotiated it
is `ceil(S / 65536)` for every payload size `1 ≤ S ≤ 65535 * 65536`, it is 1 for
`S = 0`, and for a larger `S` it is `ceil(S / 65536)` reduced to 16 bits. -/
theorem requestCreditCharge_asks_ceiling {A T : Type} (env : Env A T) (c : conn A T)
    (S : Nat) :
    (requestCreditCharge env c (S : Int)).2.account =
      (env.request c.account (requestCreditCharge_wanted c.capabilities (S : Int))).2 ∧
    (requestCreditCharge env c (S : Int)).1.1 =
      (env.request c.account (requestCreditCharge_wanted c.capabilities (S : Int))).1.1 ∧
    (c.capabilities &&& SMB2_GLOBAL_CAP_LARGE_MTU = 0 →
      requestCreditCharge_wanted c.capabilities (S : Int) = 1) ∧
    (c.capabilities &&& SMB2_GLOBAL_CAP_LARGE_MTU ≠ 0 → 1 ≤ S → S ≤ 65535 * 65536 →
      requestCreditCharge_wanted c.capabilities (S : Int) = ⌈(S : ℚ) / 65536⌉₊) ∧
    (c.capabilities &&& SMB2_GLOBAL_CAP_LARGE_MTU ≠ 0 → S = 0 →
      requestCreditCharge_wanted c.capabilities (S : Int) = 1) ∧
    (c.capabilities &&& SMB2_GLOBAL_CAP_LARGE_MTU ≠ 0 → 1 ≤ S →
      requestCreditCharge_wanted c.capabilities (S : Int) = ⌈(S : ℚ) / 65536⌉₊ % 65536) := by
  refine ⟨?_, ?_, ?_, ?_, ?_, ?_⟩
  · unfold requestCreditCharge
    dsimp only
    split <;> rfl
  · unfold requestCreditCharge
    dsimp only
    split <;> rfl
  · intro h
    unfold requestCreditCharge_wanted
    rw [if_pos h]
  · intro hcap h1 h2
    rw [requestCreditCharge_wanted_pos _ _ hcap h1, ceil_div_65536 S h1]
    apply Nat.mod_eq_of_lt
    omega
  · intro hcap h0
    subst h0
    unfold requestCreditCharge_wanted
    rw [if_neg hcap]
    decide
  · intro hcap h1
    rw [requestCreditCharge_wanted_pos _ _ hcap h1, ceil_div_65536 S h1]

/-- C16 at concrete inputs: with LARGE_MTU, 65537 bytes cost 2 credits; without it, 1. -/
theorem requestCreditCharge_asks_ceiling_witness :
    requestCreditCharge_wanted
      ({ newConn ⟨[], [], false⟩ 1 with capabilities := SMB2_GLOBAL_CAP_LARGE_MTU }).capabilities
      ((65537 : Nat) : Int) = ⌈((65537 : Nat) : ℚ) / 65536⌉₊ ∧
    ⌈((65537 : Nat) : ℚ) / 65536⌉₊ = 2 ∧
    requestCreditCharge_wanted (newConn ⟨[], [], false⟩ 1).capabilities ((65537 : Nat) : Int) = 1 := by
  refine ⟨(requestCreditCharge_asks_ceiling wireEnv
      { newConn ⟨[], [], false⟩ 1 with capabilities := SMB2_GLOBAL_CAP_LARGE_MTU } 65537).2.2.2.1
      (by decide) (by decide) (by decide), ?_,
    (requestCreditCharge_asks_ceiling wireEnv (newConn ⟨[], [], false⟩ 1) 65537).2.2.1
      (by decide)⟩
  rw [ceil_div_65536 65537 (by decide)]

/-- C16 fails as stated: with LARGE_MTU negotiated, a payload of 0 bytes is charged 1
credit although `ceil(0 / 65536)` is 0, and a payload of `65536 * 65536` bytes is
charged 0 credits although the ceiling is 65536. -/
theorem requestCreditCharge_zero_payload_costs_one :
    SMB2_GLOBAL_CAP_LARGE_MTU &&& SMB2_GLOBAL_CAP_LARGE_MTU ≠ 0 ∧
    requestCreditCharge_wanted SMB2_GLOBAL_CAP_LARGE_MTU ((0 : Nat) : Int) = 1 ∧
    ⌈((0 : Nat) : ℚ) / 65536⌉₊ = 0 ∧
    requestCreditCharge_wanted SMB2_GLOBAL_CAP_LARGE_MTU ((65536 * 65536 : Nat) : Int) = 0 ∧
    ⌈((65536 * 65536 : Nat) : ℚ) / 65536⌉₊ = 65536 := by
  refine ⟨by decide, by decide, by simp, ?_, ?_⟩
  · rw [requestCreditCharge_wanted_pos _ _ (by decide) (by decide)]
  · rw [ceil_div_65536 _ (by decide)]

/-! ## `Negotiator.makeRequest` -/

theorem fillBuffer_length (n : Nat) (bytes : Bytes) : (fillBuffer n bytes).length = n := by
  simp [fillBuffer]

/-- Lines 48-53 and 60-65: what a successful attachment of the contexts leaves. -/
theorem makeRequest_contexts_ok {R : Type} (rand : R → Nat → Except String Bytes × R)
    (req req1 : NegotiateRequest) (r : R) (h : (makeRequest_contexts rand req r).1 = .ok req1) :
    req1.Dialects = req.Dialects ∧ req1.ClientGuid = req.ClientGuid ∧
    req1.HashAlgorithms = clientHashAlgorithms ∧ req1.HashSalt.length = 32 ∧
    req1.Ciphers = clientCiphers := by
  unfold makeRequest_contexts at h
  dsimp only at h
  split at h
  · cases h
  · injection h with h
    subst h
    exact ⟨rfl, rfl, rfl, fillBuffer_length _ _, rfl⟩

/-- Lines 48-53 and 60-65: the attachment fails only when the random source does, with
an InternalError. -/
theorem makeRequest_contexts_error {R : Type} (rand : R → Nat → Except String Bytes × R)
    (req : NegotiateRequest) (r : R) (e : Error)
    (h : (makeRequest_contexts rand req r).1 = .error e) :
    ∃ msg, e = Error.InternalError msg ∧ (rand r 32).1 = .error msg := by
  unfold makeRequest_contexts at h
  dsimp only at h
  split at h
  · next msg hmsg =>
    injection h with h
    exact ⟨msg, h.symm, hmsg⟩
  · cases h

/-- Lines 20-37: what a successful first part leaves. -/
theorem makeRequest_guid_ok {R : Type} (rand : R → Nat → Except String Bytes × R)
    (n : Negotiator) (r : R) (req : NegotiateRequest)
    (h : (makeRequest_guid rand n r).1 = .ok req) :
    req.HashAlgorithms = [] ∧ req.HashSalt = [] ∧ req.Ciphers = [] ∧
    (n.ClientGuid ≠ zero → req.ClientGuid = n.ClientGuid) ∧
    (n.ClientGuid = zero → ∃ b, (rand r 16).1 = .ok b ∧ req.ClientGuid = fillBuffer 16 b) := by
  unfold makeRequest_guid at h
  dsimp only at h
  by_cases hz : n.ClientGuid = zero
  · rw [if_pos hz] at h
    split at h
    · cases h
    · next b hb =>
      injection h with h
      subst h
      refine ⟨?_, ?_, ?_, fun hne => absurd hz hne, fun _ => ⟨b, hb, rfl⟩⟩ <;>
        (dsimp only; split <;> rfl)
  · rw [if_neg hz] at h
    injection h with h
    subst h
    refine ⟨?_, ?_, ?_, fun _ => rfl, fun hzz => absurd hzz hz⟩ <;>
      (dsimp only; split <;> rfl)

/-- Lines 20-37 fail only when the random source does, with an InternalError. -/
theorem makeRequest_guid_error {R : Type} (rand : R → Nat → Except String Bytes × R)
    (n : Negotiator) (r : R) (e : Error) (h : (makeRequest_guid rand n r).1 = .error e) :
    ∃ msg, e = Error.InternalError msg ∧ (rand r 16).1 = .error msg := by
  unfold makeRequest_guid at h
  dsimp only at h
  by_cases hz : n.ClientGuid = zero
  · rw [if_pos hz] at h
    split at h
    · next msg hmsg =>
      injection h with h
      exact ⟨msg, h.symm, hmsg⟩
    · cases h
  · rw [if_neg hz] at h
    cases h

/-- The result of `makeRequest` in terms of its two parts. -/
theorem makeRequest_ok_iff {R : Type} (rand : R → Nat → Except String Bytes × R)
    (n : Negotiator) (r : R) (req : NegotiateRequest) :
    (makeRequest rand n r).1 = .ok req ↔
      ∃ req0, (makeRequest_guid rand n r).1 = .ok req0 ∧
        (makeRequest_dialects rand n req0 (makeRequest_guid rand n r).2).1 = .ok req := by
  unfold makeRequest
  dsimp only
  cases hg : (makeRequest_guid rand n r).1 with
  | error e => simp
  | ok req0 => simp

theorem makeRequest_error_iff {R : Type} (rand : R → Nat → Except String Bytes × R)
    (n : Negotiator) (r : R) (e : Error) :
    (makeRequest rand n r).1 = .error e ↔
      (makeRequest_guid rand n r).1 = .error e ∨
      ∃ req0, (makeRequest_guid rand n r).1 = .ok req0 ∧
        (makeRequest_dialects rand n req0 (makeRequest_guid rand n r).2).1 = .error e := by
  unfold makeRequest
  dsimp only
  cases hg : (makeRequest_guid rand n r).1 with
  | error e1 => simp
  | ok req0 => simp

/-- Lines 39-68: what a successful second part leaves of a request without contexts. -/
theorem makeRequest_dialects_ok {R : Type} (rand : R → Nat → Except String Bytes × R)
    (n : Negotiator) (req0 req : NegotiateRequest) (r : R)
    (h0 : req0.HashAlgorithms = [] ∧ req0.HashSalt = [] ∧ req0.Ciphers = [])
    (h : (makeRequest_dialects rand n req0 r).1 = .ok req) :
    req.ClientGuid = req0.ClientGuid ∧
    (n.SpecifiedDialect ≠ UnknownSMB → req.Dialects = [n.SpecifiedDialect]) ∧
    (n.SpecifiedDialect = UnknownSMB → req.Dialects = clientDialects) ∧
    ((n.SpecifiedDialect = UnknownSMB ∨ n.SpecifiedDialect = SMB311) →
      SMB311 ∈ req.Dialects ∧ req.HashAlgorithms = clientHashAlgorithms ∧
      req.HashSalt.length = 32 ∧ req.Ciphers = clientCiphers) ∧
    ((n.SpecifiedDialect = SMB202 ∨ n.SpecifiedDialect = SMB210 ∨
        n.SpecifiedDialect = SMB300 ∨ n.SpecifiedDialect = SMB302) →
      SMB311 ∉ req.Dialects ∧ req.HashAlgorithms = [] ∧ req.HashSalt = [] ∧
      req.Ciphers = []) := by
  have plain : ∀ d, n.SpecifiedDialect = d → d ≠ UnknownSMB → d ≠ SMB311 →
      req = { req0 with Dialects := [n.SpecifiedDialect] } →
      (req.ClientGuid = req0.ClientGuid ∧
      (n.SpecifiedDialect ≠ UnknownSMB → req.Dialects = [n.SpecifiedDialect]) ∧
      (n.SpecifiedDialect = UnknownSMB → req.Dialects = clientDialects) ∧
      ((n.SpecifiedDialect = UnknownSMB ∨ n.SpecifiedDialect = SMB311) →
        SMB311 ∈ req.Dialects ∧ req.HashAlgorithms = clientHashAlgorithms ∧
        req.HashSalt.length = 32 ∧ req.Ciphers = clientCiphers) ∧
      ((n.SpecifiedDialect = SMB202 ∨ n.SpecifiedDialect = SMB210 ∨
          n.SpecifiedDialect = SMB300 ∨ n.SpecifiedDialect = SMB302) →
        SMB311 ∉ req.Dialects ∧ req.HashAlgorithms = [] ∧ req.HashSalt = [] ∧
        req.Ciphers = [])) := by
    intro d hd hdu hd3 hreq
    subst hreq
    refine ⟨rfl, fun _ => rfl, fun hu => absurd (hd.symm.trans hu) hdu, fun h3 => ?_, fun _ => ?_⟩
    · rcases h3 with h3 | h3
      · exact absurd (hd.symm.trans h3) hdu
      · exact absurd (hd.symm.trans h3) hd3
    · refine ⟨?_, h0.1, h0.2.1, h0.2.2⟩
      simp only [List.mem_singleton]
      intro h3
      exact hd3 (hd.symm.trans h3.symm)
  unfold makeRequest_dialects at h
  by_cases hu : n.SpecifiedDialect = UnknownSMB
  · rw [if_neg (fun hne => hne hu)] at h
    obtain ⟨hd, hg, ha, hs, hc⟩ := makeRequest_contexts_ok rand _ _ _ h
    refine ⟨hg, fun hne => absurd hu hne, fun _ => hd, fun _ => ⟨?_, ha, hs, hc⟩, fun h4 => ?_⟩
    · rw [hd]; exact (by decide : SMB311 ∈ clientDialects)
    · exfalso
      rw [hu] at h4
      revert h4
      decide
  · rw [if_pos hu] at h
    dsimp only at h
    by_cases h202 : n.SpecifiedDialect = SMB202
    · rw [if_pos h202] at h
      injection h with h
      exact plain SMB202 h202 (by decide) (by decide) h.symm
    rw [if_neg h202] at h
    by_cases h210 : n.SpecifiedDialect = SMB210
    · rw [if_pos h210] at h
      injection h with h
      exact plain SMB210 h210 (by decide) (by decide) h.symm
    rw [if_neg h210] at h
    by_cases h300 : n.SpecifiedDialect = SMB300
    · rw [if_pos h300] at h
      injection h with h
      exact plain SMB300 h300 (by decide) (by decide) h.symm
    rw [if_neg h300] at h
    by_cases h302 : n.SpecifiedDialect = SMB302
    · rw [if_pos h302] at h
      injection h with h
      exact plain SMB302 h302 (by decide) (by decide) h.symm
    rw [if_neg h302] at h
    by_cases h311 : n.SpecifiedDialect = SMB311
    · rw [if_pos h311] at h
      obtain ⟨hd, hg, ha, hs, hc⟩ := makeRequest_contexts_ok rand _ _ _ h
      refine ⟨hg, fun _ => hd, fun hu1 => absurd hu1 hu, fun _ => ⟨?_, ha, hs, hc⟩, fun h4 => ?_⟩
      · rw [hd, h311]; simp
      · exfalso
        rcases h4 with h4 | h4 | h4 | h4
        · exact h202 h4
        · exact h210 h4
        · exact h300 h4
        · exact h302 h4
    · rw [if_neg h311] at h
      cases h

/-- Lines 39-68 fail with the InternalError of line 55 exactly for an unsupported
non-zero SpecifiedDialect, and otherwise only when the random source fails. -/
theorem makeRequest_dialects_error {R : Type} (rand : R → Nat → Except String Bytes × R)
    (n : Negotiator) (req0 : NegotiateRequest) (r : R) :
    ((n.SpecifiedDialect ≠ UnknownSMB ∧ ¬ supportedDialect n.SpecifiedDialect) →
      (makeRequest_dialects rand n req0 r).1 =
        .error (Error.InternalError "unsupported dialect specified")) ∧
    (∀ e, (makeRequest_dialects rand n req0 r).1 = .error e →
      (∃ msg, e = Error.InternalError msg) ∧
      ((n.SpecifiedDialect ≠ UnknownSMB ∧ ¬ supportedDialect n.SpecifiedDialect) ∨
        ∃ msg, (rand r 32).1 = .error msg)) := by
  unfold makeRequest_dialects supportedDialect
  constructor
  · intro ⟨hu, hns⟩
    push_neg at hns
    simp only [hu, ne_eq, not_false_eq_true, if_true, hns.1, hns.2.1, hns.2.2.1, hns.2.2.2.1,
      hns.2.2.2.2, if_false]
  · intro e h
    by_cases hu : n.SpecifiedDialect = UnknownSMB
    · rw [if_neg (fun hne => hne hu)] at h
      obtain ⟨msg, hmsg, hr⟩ := makeRequest_contexts_error rand _ _ _ h
      exact ⟨⟨msg, hmsg⟩, Or.inr ⟨msg, hr⟩⟩
    · rw [if_pos hu] at h
      dsimp only at h
      by_cases h202 : n.SpecifiedDialect = SMB202
      · rw [if_pos h202] at h; cases h
      rw [if_neg h202] at h
      by_cases h210 : n.SpecifiedDialect = SMB210
      · rw [if_pos h210] at h; cases h
      rw [if_neg h210] at h
      by_cases h300 : n.SpecifiedDialect = SMB300
      · rw [if_pos h300] at h; cases h
      rw [if_neg h300] at h
      by_cases h302 : n.SpecifiedDialect = SMB302
      · rw [if_pos h302] at h; cases h
      rw [if_neg h302] at h
      by_cases h311 : n.SpecifiedDialect = SMB311
      · rw [if_pos h311] at h
        obtain ⟨msg, hmsg, hr⟩ := makeRequest_contexts_error rand _ _ _ h
        exact ⟨⟨msg, hmsg⟩, Or.inr ⟨msg, hr⟩⟩
      · rw [if_neg h311] at h
        injection h with h
        refine ⟨⟨_, h.symm⟩, Or.inl ⟨hu, ?_⟩⟩
        rintro (h1 | h1 | h1 | h1 | h1)
        · exact h202 h1
        · exact h210 h1
        · exact h300 h1
        · exact h302 h1
        · exact h311 h1

/-- C18: `makeRequest` sets Dialects to `[SpecifiedDialect]` when SpecifiedDialect is
non-zero and to the full client dialect list otherwise; the request carries the client
hash algorithms, a 32-byte salt and the client ciphers when SpecifiedDialect is 0 or
3.1.1, and none of them when it is 2.0.2, 2.1.0, 3.0.0 or 3.0.2; every error it
returns is an InternalError; and when the random source does not fail it returns an
error if and only if SpecifiedDialect is non-zero and not one of the five supported
dialects. -/
theorem makeRequest_dialects_and_contexts {R : Type}
    (rand : R → Nat → Except String Bytes × R) (n : Negotiator) (r : R) :
    (∀ req, (makeRequest rand n r).1 = .ok req →
      (n.SpecifiedDialect ≠ UnknownSMB → req.Dialects = [n.SpecifiedDialect]) ∧
      (n.SpecifiedDialect = UnknownSMB → req.Dialects = clientDialects) ∧
      ((n.SpecifiedDialect = UnknownSMB ∨ n.SpecifiedDialect = SMB311) →
        SMB311 ∈ req.Dialects ∧ req.HashAlgorithms = clientHashAlgorithms ∧
        req.HashSalt.length = 32 ∧ req.Ciphers = clientCiphers) ∧
      ((n.SpecifiedDialect = SMB202 ∨ n.SpecifiedDialect = SMB210 ∨
          n.SpecifiedDialect = SMB300 ∨ n.SpecifiedDialect = SMB302) →
        SMB311 ∉ req.Dialects ∧ req.HashAlgorithms = [] ∧ req.HashSalt = [] ∧
        req.Ciphers = [])) ∧
    (∀ e, (makeRequest rand n r).1 = .error e → ∃ msg, e = Error.InternalError msg) ∧
    ((∀ (r1 : R) (k : Nat), ∃ b, (rand r1 k).1 = .ok b) →
      ((∃ e, (makeRequest rand n r).1 = .error e) ↔
        (n.SpecifiedDialect ≠ UnknownSMB ∧ ¬ supportedDialect n.SpecifiedDialect))) := by
  refine ⟨fun req hreq => ?_, fun e he => ?_, fun hrand => ⟨fun ⟨e, he⟩ => ?_, fun hbad => ?_⟩⟩
  · obtain ⟨req0, hg, hd⟩ := (makeRequest_ok_iff rand n r req).mp hreq
    obtain ⟨h1, h2, h3, _, _⟩ := makeRequest_guid_ok rand n r req0 hg
    exact (makeRequest_dialects_ok rand n req0 req _ ⟨h1, h2, h3⟩ hd).2
  · rcases (makeRequest_error_iff rand n r e).mp he with hg | ⟨req0, _, hd⟩
    · obtain ⟨msg, hmsg, _⟩ := makeRequest_guid_error rand n r e hg
      exact ⟨msg, hmsg⟩
    · exact ((makeRequest_dialects_error rand n req0 _).2 e hd).1
  · rcases (makeRequest_error_iff rand n r e).mp he with hg | ⟨req0, _, hd⟩
    · obtain ⟨msg, _, hr⟩ := makeRequest_guid_error rand n r e hg
      obtain ⟨b, hb⟩ := hrand r 16
      rw [hb] at hr
      cases hr
    · rcases ((makeRequest_dialects_error rand n req0 _).2 e hd).2 with hbad | ⟨msg, hr⟩
      · exact hbad
      · obtain ⟨b, hb⟩ := hrand (makeRequest_guid rand n r).2 32
        rw [hb] at hr
        cases hr
  · cases hg : (makeRequest_guid rand n r).1 with
    | error e =>
      obtain ⟨msg, _, hr⟩ := makeRequest_guid_error rand n r e hg
      obtain ⟨b, hb⟩ := hrand r 16
      rw [hb] at hr
      cases hr
    | ok req0 =>
      exact ⟨_, (makeRequest_error_iff rand n r _).mpr
        (Or.inr ⟨req0, hg, (makeRequest_dialects_error rand n req0 _).1 hbad⟩)⟩

/-- C18 at concrete inputs: SpecifiedDialect 0, 3.0.2 and an unsupported 0x0123. -/
theorem makeRequest_dialects_and_contexts_witness :
    (∃ req, (makeRequest countingRand ⟨false, zero, 0⟩ 0).1 = .ok req ∧
      req.Dialects = clientDialects ∧ req.HashAlgorithms = [SHA512] ∧
      req.HashSalt.length = 32 ∧ req.Ciphers = [AES128GCM, AES128CCM]) ∧
    (∃ req, (makeRequest countingRand ⟨false, zero, SMB302⟩ 0).1 = .ok req ∧
      req.Dialects = [SMB302] ∧ req.HashAlgorithms = [] ∧ req.HashSalt = [] ∧
      req.Ciphers = []) ∧
    ∃ e, (makeRequest countingRand ⟨false, zero, 0x0123⟩ 0).1 = .error e := by
  refine ⟨?_, ?_, ?_⟩
  · obtain ⟨req, h⟩ : ∃ req, (makeRequest countingRand ⟨false, zero, 0⟩ 0).1 = .ok req :=
      ⟨_, rfl⟩
    have := (makeRequest_dialects_and_contexts countingRand ⟨false, zero, 0⟩ 0).1 req h
    exact ⟨req, h, this.2.1 rfl, (this.2.2.1 (Or.inl rfl)).2.1,
      (this.2.2.1 (Or.inl rfl)).2.2.1, (this.2.2.1 (Or.inl rfl)).2.2.2⟩
  · obtain ⟨req, h⟩ : ∃ req, (makeRequest countingRand ⟨false, zero, SMB302⟩ 0).1 = .ok req :=
      ⟨_, rfl⟩
    have := (makeRequest_dialects_and_contexts countingRand ⟨false, zero, SMB302⟩ 0).1 req h
    exact ⟨req, h, this.1 (by decide),
      (this.2.2.2 (Or.inr (Or.inr (Or.inr rfl)))).2.1,
      (this.2.2.2 (Or.inr (Or.inr (Or.inr rfl)))).2.2.1,
      (this.2.2.2 (Or.inr (Or.inr (Or.inr rfl)))).2.2.2⟩
  · exact ((makeRequest_dialects_and_contexts countingRand ⟨false, zero, 0x0123⟩ 0).2.2
      (fun r1 k => ⟨_, rfl⟩)).mpr ⟨by decide, by unfold supportedDialect; decide⟩

/-! ## Notifications -/

/-- C19 (as amended): a header-valid frame whose MessageId is 0xFFFFFFFFFFFFFFFF
bypasses the signing checks only (it is passed on to the routing whatever its flags
and the signing requirement); it is then routed like any other frame, so when no
pending slot is registered under that id the pass delivers nothing, the receiver loop
breaks with the InvalidResponseError "unknown message id returned" and exits. -/
theorem runReciever_notification_unrouted {A T : Type} (env : Env A T) (c : conn A T)
    (n : Nat) (pkt : Bytes) (hsize : (env.ReadSize c.t).1 = .ok n)
    (hread : (env.Read (env.ReadSize c.t).2 n).1 = .ok pkt)
    (hvalid : env.IsInvalid pkt = false) (hid : env.MessageId pkt = broadcastMessageId) :
    runReciever_verify env c pkt = .ok pkt ∧
    (mapGet c.Requests broadcastMessageId = none →
      ∃ c1, runReciever_step env c =
          .exit c1 (Error.InvalidResponseError "unknown message id returned") ∧
        c1.heap = c.heap ∧ c1.Requests = c.Requests ∧
        ∀ fuel, runReciever env (fuel + 1) c =
          .exited (runReciever_drain (Error.InvalidResponseError "unknown message id returned")
            c1) (Error.InvalidResponseError "unknown message id returned")) := by
  have hv : runReciever_verify env c pkt = .ok pkt := by
    unfold runReciever_verify
    rw [if_neg (by rw [hvalid]; decide), if_neg (fun h => h hid)]
  refine ⟨hv, fun hnone => ?_⟩
  have hstep : runReciever_step env c =
      .exit { c with t := (env.Read (env.ReadSize c.t).2 n).2 }
        (Error.InvalidResponseError "unknown message id returned") := by
    unfold runReciever_step
    simp only [hsize, hread, hv]
    apply runReciever_route_none
    rw [hid]
    exact hnone
  refine ⟨_, hstep, rfl, rfl, fun fuel => ?_⟩
  unfold runReciever
  rw [hstep]

/-- C19 at a concrete input: a notification arrives while MessageIds 1 and 2 are
outstanding. -/
theorem runReciever_notification_unrouted_witness :
    runReciever_verify wireEnv (twoOutstanding [notification]) notification = .ok notification ∧
    ∃ c1, runReciever_step wireEnv (twoOutstanding [notification]) =
        .exit c1 (Error.InvalidResponseError "unknown message id returned") ∧
      c1.heap = (twoOutstanding [notification]).heap ∧
      c1.Requests = (twoOutstanding [notification]).Requests ∧
      ∀ fuel, runReciever wireEnv (fuel + 1) (twoOutstanding [notification]) =
        .exited (runReciever_drain (Error.InvalidResponseError "unknown message id returned")
          c1) (Error.InvalidResponseError "unknown message id returned") :=
  ⟨(runReciever_notification_unrouted wireEnv (twoOutstanding [notification])
      notification.length notification rfl rfl (by decide) (by decide)).1,
    (runReciever_notification_unrouted wireEnv (twoOutstanding [notification])
      notification.length notification rfl rfl (by decide) (by decide)).2 (by decide)⟩

/-- C19 fails as stated: a header-valid notification received while MessageIds 1 and 2
are outstanding and no slot is registered under 0xFFFFFFFFFFFFFFFF makes the receiver
loop exit with "unknown message id returned", and the two pending slots are resolved
with that error. -/
theorem runReciever_notification_ends_loop :
    PacketCodec.IsInvalid notification = false ∧
    PacketCodec.MessageId notification = 0xFFFFFFFFFFFFFFFF ∧
    mapGet (twoOutstanding [notification]).Requests 0xFFFFFFFFFFFFFFFF = none ∧
    (runReciever wireEnv 1 (twoOutstanding [notification])).err =
      some (Error.InvalidResponseError "unknown message id returned") ∧
    ((runReciever wireEnv 1 (twoOutstanding [notification])).conn.heap 0).err =
      some (Error.InvalidResponseError "unknown message id returned") ∧
    ((runReciever wireEnv 1 (twoOutstanding [notification])).conn.heap 1).err =
      some (Error.InvalidResponseError "unknown message id returned") := by
  refine ⟨by decide, by decide, by decide, by decide, by decide, by decide⟩

/-! ## The sequence window -/

/-- The sequence window of the connection of lines 72-82 after one non-CANCEL send of
CreditCharge 1 is 1. -/
theorem sendWith_init_sequenceWindow {A T : Type} (env : Env A T) (t : T) (a : A)
    (req : Packet) (s : Option session) (tc : Option treeConn)
    (hk : req.kind ≠ PacketKind.CancelRequest) (hc : req.hdr.CreditCharge = 1) :
    (sendWith env (conn.init t a) req s tc).conn.sequenceWindow = 1 := by
  rw [sendWith_conn_sequenceWindow, (sendWith_allocate_other env _ req hk).2.1, hc]
  rfl

/-! ## The negotiate contexts -/

/-- The `switch` of lines 132-176 writes to three fields of the connection only. -/
theorem negotiate_context_frame {A T : Type} (dec : Decoders) (c : conn A T) (ctx : Bytes) :
    ∃ h v k, (negotiate_context dec c ctx).2 =
      { c with preauthIntegrityHashId := h, preauthIntegrityHashValue := v, cipherId := k } := by
  unfold negotiate_context
  dsimp only
  split
  · split
    · exact ⟨_, _, _, rfl⟩
    · split
      · exact ⟨_, _, _, rfl⟩
      · split <;> exact ⟨_, _, _, rfl⟩
  · split
    · split
      · exact ⟨_, _, _, rfl⟩
      · split
        · exact ⟨_, _, _, rfl⟩
        · split
          · exact ⟨_, _, _, rfl⟩
          · split <;> exact ⟨_, _, _, rfl⟩
    · exact ⟨_, _, _, rfl⟩

theorem list_eq_singleton_iff (l : List Nat) (a : Nat) :
    l = [a] ↔ l.length = 1 ∧ l.getD 0 0 = a := by
  constructor
  · intro h; subst h; exact ⟨rfl, rfl⟩
  · intro ⟨h1, h2⟩
    match l, h1, h2 with
    | [b], _, h2 => simp only [List.getD_cons_zero] at h2; rw [h2]

/-- The `switch` of lines 132-176 on a context that decodes as valid: it goes on
exactly for an accepted context, every error it gives is an InvalidResponseError, a
hash list of another length than 1 gives "multiple hash algorithms", and an accepted
hash or cipher context leaves SHA-512, or AES-128-CCM or AES-128-GCM, recorded. -/
theorem negotiate_context_spec {A T : Type} (dec : Decoders) (c : conn A T) (ctx : Bytes)
    (hvalid : dec.ContextIsInvalid ctx = false) :
    ((negotiate_context dec c ctx).1 = none ↔ contextAccepted dec ctx) ∧
    (∀ e, (negotiate_context dec c ctx).1 = some e → ∃ msg, e = Error.InvalidResponseError msg) ∧
    (dec.ContextType ctx = SMB2_PREAUTH_INTEGRITY_CAPABILITIES →
      dec.HashIsInvalid (dec.ContextData ctx) = false →
      (dec.HashAlgorithms (dec.ContextData ctx)).length ≠ 1 →
      (negotiate_context dec c ctx).1 =
        some (Error.InvalidResponseError "multiple hash algorithms")) ∧
    ((negotiate_context dec c ctx).1 = none →
      (dec.ContextType ctx = SMB2_PREAUTH_INTEGRITY_CAPABILITIES →
        (negotiate_context dec c ctx).2.preauthIntegrityHashId = SHA512 ∧
        (negotiate_context dec c ctx).2.cipherId = c.cipherId) ∧
      (dec.ContextType ctx = SMB2_ENCRYPTION_CAPABILITIES →
        ((negotiate_context dec c ctx).2.cipherId = AES128CCM ∨
          (negotiate_context dec c ctx).2.cipherId = AES128GCM) ∧
        (negotiate_context dec c ctx).2.preauthIntegrityHashId = c.preauthIntegrityHashId) ∧
      (dec.ContextType ctx ≠ SMB2_PREAUTH_INTEGRITY_CAPABILITIES →
        dec.ContextType ctx ≠ SMB2_ENCRYPTION_CAPABILITIES →
        (negotiate_context dec c ctx).2 = c)) := by
  have hne : SMB2_PREAUTH_INTEGRITY_CAPABILITIES ≠ SMB2_ENCRYPTION_CAPABILITIES := by decide
  unfold contextAccepted negotiate_context
  dsimp only
  split_ifs <;> simp_all [list_eq_singleton_iff]

/-- The loop of lines 125-185 writes to three fields of the connection only. -/
theorem negotiate_contexts_frame {A T : Type} (dec : Decoders) :
    ∀ (count : Nat) (c : conn A T) (list : Bytes),
      ∃ h v k, (negotiate_contexts dec count c list).2 =
        { c with preauthIntegrityHashId := h, preauthIntegrityHashValue := v, cipherId := k } := by
  intro count
  induction count with
  | zero => intro c list; exact ⟨_, _, _, rfl⟩
  | succ count ih =>
    intro c list
    unfold negotiate_contexts
    dsimp only
    split
    · exact ⟨_, _, _, rfl⟩
    · obtain ⟨h, v, k, hf⟩ := negotiate_context_frame dec c list
      split
      · exact ⟨h, v, k, hf⟩
      · obtain ⟨h1, v1, k1, hf1⟩ := ih (negotiate_context dec c list).2 (negotiate_advance dec list)
        rw [hf1, hf]
        exact ⟨_, _, _, rfl⟩

/-- The loop of lines 125-185 ends without error exactly when each of the `count`
contexts it walks is accepted, and every error it gives is an InvalidResponseError. -/
theorem negotiate_contexts_spec {A T : Type} (dec : Decoders) :
    ∀ (count : Nat) (c : conn A T) (list : Bytes),
      ((negotiate_contexts dec count c list).1 = none ↔
        ∀ i, i < count → contextAccepted dec ((negotiate_advance dec)^[i] list)) ∧
      (∀ e, (negotiate_contexts dec count c list).1 = some e →
        ∃ msg, e = Error.InvalidResponseError msg) := by
  intro count
  induction count with
  | zero =>
    intro c list
    exact ⟨⟨fun _ i hi => absurd hi (Nat.not_lt_zero i), fun _ => rfl⟩, fun e h => by cases h⟩
  | succ count ih =>
    intro c list
    unfold negotiate_contexts
    by_cases hinv : dec.ContextIsInvalid list = true
    · simp only [hinv, if_true]
      refine ⟨⟨(fun h => by cases h), fun h => ?_⟩, fun e h => ?_⟩
      · have h0 := (h 0 (Nat.succ_pos _)).1
        simp only [Function.iterate_zero, id_eq] at h0
        rw [hinv] at h0
        cases h0
      · injection h with h
        exact ⟨_, h.symm⟩
    · have hvalid : dec.ContextIsInvalid list = false := by simpa using hinv
      simp only [hvalid, Bool.false_eq_true, if_false]
      obtain ⟨hacc, herr, _, _⟩ := negotiate_context_spec dec c list hvalid
      cases hr : (negotiate_context dec c list).1 with
      | some e =>
        dsimp only
        refine ⟨⟨(fun h => by cases h), fun h => ?_⟩, fun e1 h => ?_⟩
        · have h0 := h 0 (Nat.succ_pos _)
          simp only [Function.iterate_zero, id_eq] at h0
          rw [hacc.mpr h0] at hr
          cases hr
        · injection h with h
          subst h
          exact herr e hr
      | none =>
        dsimp only
        obtain ⟨ih1, ih2⟩ := ih (negotiate_context dec c list).2 (negotiate_advance dec list)
        refine ⟨⟨fun h i hi => ?_, fun h => ?_⟩, ih2⟩
        · cases i with
          | zero => exact hacc.mp hr
          | succ i =>
            rw [Function.iterate_succ_apply]
            exact ih1.mp h i (Nat.lt_of_succ_lt_succ hi)
        · apply ih1.mpr
          intro i hi
          have := h (i + 1) (Nat.succ_lt_succ hi)
          rwa [Function.iterate_succ_apply] at this

/-- A hash context with another number of algorithms than one, reached after accepted
contexts, ends the loop with "multiple hash algorithms". -/
theorem negotiate_contexts_multiple_hash {A T : Type} (dec : Decoders) :
    ∀ (count : Nat) (c : conn A T) (list : Bytes) (k : Nat), k < count →
      (∀ j, j < k → contextAccepted dec ((negotiate_advance dec)^[j] list)) →
      dec.ContextIsInvalid ((negotiate_advance dec)^[k] list) = false →
      dec.ContextType ((negotiate_advance dec)^[k] list) = SMB2_PREAUTH_INTEGRITY_CAPABILITIES →
      dec.HashIsInvalid (dec.ContextData ((negotiate_advance dec)^[k] list)) = false →
      (dec.HashAlgorithms (dec.ContextData ((negotiate_advance dec)^[k] list))).length ≠ 1 →
      (negotiate_contexts dec count c list).1 =
        some (Error.InvalidResponseError "multiple hash algorithms") := by
  intro count
  induction count with
  | zero => intro c list k hk; omega
  | succ count ih =>
    intro c list k hk hbefore hvalid htype hhash hlen
    unfold negotiate_contexts
    cases k with
    | zero =>
      simp only [Function.iterate_zero, id_eq] at hvalid htype hhash hlen
      simp only [hvalid, Bool.false_eq_true, if_false,
        (negotiate_context_spec dec c list hvalid).2.2.1 htype hhash hlen]
    | succ k =>
      have h0 := hbefore 0 (Nat.succ_pos _)
      simp only [Function.iterate_zero, id_eq] at h0
      have hr := (negotiate_context_spec dec c list h0.1).1.mpr h0
      simp only [h0.1, Bool.false_eq_true, if_false, hr]
      apply ih _ _ k (Nat.lt_of_succ_lt_succ hk)
      · intro j hj
        have := hbefore (j + 1) (Nat.succ_lt_succ hj)
        rwa [Function.iterate_succ_apply] at this
      · rwa [Function.iterate_succ_apply] at hvalid
      · rwa [Function.iterate_succ_apply] at htype
      · rwa [Function.iterate_succ_apply] at hhash
      · rwa [Function.iterate_succ_apply] at hlen

/-- After a loop without error, a walked hash context leaves SHA-512 recorded and a
walked cipher context leaves AES-128-CCM or AES-128-GCM recorded. -/
theorem negotiate_contexts_recorded {A T : Type} (dec : Decoders) :
    ∀ (count : Nat) (c : conn A T) (list : Bytes),
      (negotiate_contexts dec count c list).1 = none →
      ((c.preauthIntegrityHashId = SHA512 ∨ ∃ i, i < count ∧
          dec.ContextType ((negotiate_advance dec)^[i] list) =
            SMB2_PREAUTH_INTEGRITY_CAPABILITIES) →
        (negotiate_contexts dec count c list).2.preauthIntegrityHashId = SHA512) ∧
      (((c.cipherId = AES128CCM ∨ c.cipherId = AES128GCM) ∨ ∃ i, i < count ∧
          dec.ContextType ((negotiate_advance dec)^[i] list) = SMB2_ENCRYPTION_CAPABILITIES) →
        ((negotiate_contexts dec count c list).2.cipherId = AES128CCM ∨
          (negotiate_contexts dec count c list).2.cipherId = AES128GCM)) := by
  intro count
  induction count with
  | zero =>
    intro c list _
    refine ⟨fun h => ?_, fun h => ?_⟩
    · rcases h with h | ⟨i, hi, _⟩
      · exact h
      · omega
    · rcases h with h | ⟨i, hi, _⟩
      · exact h
      · omega
  | succ count ih =>
    intro c list hnone
    unfold negotiate_contexts at hnone ⊢
    by_cases hinv : dec.ContextIsInvalid list = true
    · simp only [hinv, if_true] at hnone
      cases hnone
    · have hvalid : dec.ContextIsInvalid list = false := by simpa using hinv
      simp only [hvalid, Bool.false_eq_true, if_false] at hnone ⊢
      cases hr : (negotiate_context dec c list).1 with
      | some e =>
        rw [hr] at hnone
        cases hnone
      | none =>
        rw [hr] at hnone
        dsimp only at hnone ⊢
        obtain ⟨hp, he, ho⟩ := (negotiate_context_spec dec c list hvalid).2.2.2 hr
        obtain ⟨ih1, ih2⟩ := ih _ _ hnone
        have hne : SMB2_PREAUTH_INTEGRITY_CAPABILITIES ≠ SMB2_ENCRYPTION_CAPABILITIES := by
          decide
        refine ⟨fun h => ih1 ?_, fun h => ih2 ?_⟩
        · rcases h with h | ⟨i, hi, hti⟩
          · by_cases h1 : dec.ContextType list = SMB2_PREAUTH_INTEGRITY_CAPABILITIES
            · exact Or.inl (hp h1).1
            · by_cases h2 : dec.ContextType list = SMB2_ENCRYPTION_CAPABILITIES
              · exact Or.inl ((he h2).2.trans h)
              · rw [ho h1 h2]; exact Or.inl h
          · cases i with
            | zero =>
              simp only [Function.iterate_zero, id_eq] at hti
              exact Or.inl (hp hti).1
            | succ i =>
              rw [Function.iterate_succ_apply] at hti
              exact Or.inr ⟨i, Nat.lt_of_succ_lt_succ hi, hti⟩
        · rcases h with h | ⟨i, hi, hti⟩
          · by_cases h1 : dec.ContextType list = SMB2_PREAUTH_INTEGRITY_CAPABILITIES
            · rw [(hp h1).2]; exact Or.inl h
            · by_cases h2 : dec.ContextType list = SMB2_ENCRYPTION_CAPABILITIES
              · exact Or.inl (he h2).1
              · rw [ho h1 h2]; exact Or.inl h
          · cases i with
            | zero =>
              simp only [Function.iterate_zero, id_eq] at hti
              exact Or.inl (he hti).1
            | succ i =>
              rw [Function.iterate_succ_apply] at hti
              exact Or.inr ⟨i, Nat.lt_of_succ_lt_succ hi, hti⟩

/-! ## `Negotiator.negotiate` -/

/-- Every error of lines 110-187 is an InvalidResponseError. -/
theorem negotiate_finish_error {A T : Type} (dec : Decoders) (n : Negotiator) (c : conn A T)
    (res : Bytes) (e : Error) (h : (negotiate_finish dec n c res).1 = some e) :
    ∃ msg, e = Error.InvalidResponseError msg := by
  unfold negotiate_finish at h
  split at h
  · injection h with h
    exact ⟨_, h.symm⟩
  · exact (negotiate_contexts_spec dec _ _ _).2 e h

/-- What lines 110-187 leave when they end without error. -/
theorem negotiate_finish_ok {A T : Type} (dec : Decoders) (n : Negotiator) (c : conn A T)
    (res : Bytes) (h : (negotiate_finish dec n c res).1 = none) :
    (n.SpecifiedDialect ≠ UnknownSMB → dec.DialectRevision res = n.SpecifiedDialect) ∧
    (negotiate_finish dec n c res).2.dialect = dec.DialectRevision res ∧
    (negotiate_finish dec n c res).2.clientGuid = n.ClientGuid ∧
    (negotiate_finish dec n c res).2.sequenceWindow = 1 ∧
    (∀ i, i < dec.NegotiateContextCount res →
      contextAccepted dec ((negotiate_advance dec)^[i] (dec.NegotiateContextList res))) ∧
    ((∃ i, i < dec.NegotiateContextCount res ∧
        dec.ContextType ((negotiate_advance dec)^[i] (dec.NegotiateContextList res)) =
          SMB2_PREAUTH_INTEGRITY_CAPABILITIES) →
      (negotiate_finish dec n c res).2.preauthIntegrityHashId = SHA512) ∧
    ((∃ i, i < dec.NegotiateContextCount res ∧
        dec.ContextType ((negotiate_advance dec)^[i] (dec.NegotiateContextList res)) =
          SMB2_ENCRYPTION_CAPABILITIES) →
      ((negotiate_finish dec n c res).2.cipherId = AES128CCM ∨
        (negotiate_finish dec n c res).2.cipherId = AES128GCM)) := by
  unfold negotiate_finish at h ⊢
  by_cases hd : n.SpecifiedDialect ≠ UnknownSMB ∧ n.SpecifiedDialect ≠ dec.DialectRevision res
  · rw [if_pos hd] at h
    cases h
  · rw [if_neg hd] at h ⊢
    obtain ⟨hv, vv, kv, hframe⟩ := negotiate_contexts_frame dec (dec.NegotiateContextCount res)
      (negotiate_record dec n c res) (dec.NegotiateContextList res)
    obtain ⟨hrec1, hrec2⟩ := negotiate_contexts_recorded dec _ _ _ h
    refine ⟨fun hu => ?_, ?_, ?_, ?_, ((negotiate_contexts_spec dec _ _ _).1).mp h,
      fun hex => hrec1 (Or.inr hex), fun hex => hrec2 (Or.inr hex)⟩
    · by_contra hne
      exact hd ⟨hu, fun heq => hne heq.symm⟩
    · rw [hframe]; rfl
    · rw [hframe]; rfl
    · rw [hframe]; rfl

/-- A call of `negotiate` that returns a connection: the last request came from
`makeRequest` for the negotiator as the call leaves it, the response `res` to it was
valid with a dialect other than the placeholder, and lines 110-187 ended without
error on it and left the connection. -/
theorem negotiate_retry_ok {A T R : Type} (env : Env A T) (dec : Decoders)
    (rand : R → Nat → Except String Bytes × R) :
    ∀ (fuel : Nat) (st : NegotiateState A T R) (result : NegotiateResult A T R),
      negotiate_retry env dec rand fuel st = result → result.status = .ok →
      ∃ (r1 : R) (req : NegotiateRequest) (c1 : conn A T) (res : Bytes),
        result.state.n.ClientGuid = st.n.ClientGuid ∧
        result.state.n.RequireMessageSigning = st.n.RequireMessageSigning ∧
        (result.state.n.SpecifiedDialect = st.n.SpecifiedDialect ∨
          result.state.n.SpecifiedDialect = SMB210) ∧
        (makeRequest rand result.state.n r1).1 = .ok req ∧
        (∃ hdr, result.state.sent.getLast? = some { req with hdr := hdr }) ∧
        st.sent.length < result.state.sent.length ∧
        dec.NegotiateIsInvalid res = false ∧ dec.DialectRevision res ≠ SMB2 ∧
        (negotiate_finish dec result.state.n c1 res).1 = none ∧
        result.state.conn = (negotiate_finish dec result.state.n c1 res).2 := by
  intro fuel
  induction fuel with
  | zero =>
    intro st result hres hok
    unfold negotiate_retry at hres
    subst hres
    cases hok
  | succ fuel ih =>
    intro st result hres hok
    unfold negotiate_retry at hres
    dsimp only at hres
    split at hres
    · subst hres; cases hok
    · next req hreq =>
      split at hres
      · subst hres; cases hok
      · subst hres; cases hok
      · subst hres; cases hok
      · next c receiving res _ =>
        split at hres
        · subst hres; cases hok
        · next hvalid =>
          split at hres
          · obtain ⟨r1, req1, c1, res1, h1, h2, h3, h4, h5, h6, h7⟩ := ih _ result hres hok
            refine ⟨r1, req1, c1, res1, h1, h2, Or.inr ?_, h4, h5, ?_, h7⟩
            · rcases h3 with h3 | h3 <;> exact h3
            · simp only [List.length_append, List.length_singleton] at h6
              omega
          · next hdial =>
            split at hres
            · subst hres; cases hok
            · next hfin =>
              subst hres
              refine ⟨st.rand, req, c, res, rfl, rfl, Or.inl rfl, hreq, ?_, ?_,
                by simpa using hvalid, hdial, hfin, rfl⟩
              · exact ⟨_, List.getLast?_concat _⟩
              · simp

/-- A response that `sendRecv` returned without error came with a connection. -/
theorem Received.reply_some {A T : Type} (x : Received A T) (res : Bytes)
    (h : x.reply = some res) : ∃ c receiving, x = .returned c receiving (.ok res) := by
  cases x with
  | returned c receiving r =>
    cases r with
    | error e => cases h
    | ok res1 =>
      injection h with h
      subst h
      exact ⟨c, receiving, rfl⟩
  | blocked c => cases h
  | crashed c => cases h

/-- One pass from `retry:` whose request was built and whose response `res` came back
valid: on the placeholder dialect the call goes on from `retry:` with SpecifiedDialect
2.1.0 and one more request sent; on any other dialect it ends with what lines 110-187
give. -/
theorem negotiate_retry_step {A T R : Type} (env : Env A T) (dec : Decoders)
    (rand : R → Nat → Except String Bytes × R) (fuel : Nat) (st : NegotiateState A T R)
    (req : NegotiateRequest) (res : Bytes)
    (hreq : (makeRequest rand st.n st.rand).1 = .ok req)
    (hrecv : (sendRecv env dec st.conn st.receiving SMB2_NEGOTIATE
      (NegotiateRequest.toPacket dec
        { req with hdr := { req.hdr with CreditCharge := 1 } })).reply = some res)
    (hvalid : dec.NegotiateIsInvalid res = false) :
    ∃ (c : conn A T) (receiving : Bool) (hdr : PacketHeader),
      (dec.DialectRevision res = SMB2 →
        negotiate_retry env dec rand (fuel + 1) st =
          negotiate_retry env dec rand fuel
            { n := { st.n with SpecifiedDialect := SMB210 }
              rand := (makeRequest rand st.n st.rand).2
              conn := c
              receiving := receiving
              sent := st.sent ++ [{ req with hdr := hdr }] }) ∧
      (dec.DialectRevision res ≠ SMB2 →
        negotiate_retry env dec rand (fuel + 1) st =
          { status :=
              match (negotiate_finish dec st.n c res).1 with
              | some e => .error e
              | none => .ok
            state :=
              { n := st.n
                rand := (makeRequest rand st.n st.rand).2
                conn := (negotiate_finish dec st.n c res).2
                receiving := receiving
                sent := st.sent ++ [{ req with hdr := hdr }] } }) := by
  obtain ⟨c, receiving, hret⟩ := Received.reply_some _ res hrecv
  refine ⟨c, receiving, sendWith_header env st.conn (NegotiateRequest.toPacket dec
    { req with hdr := { req.hdr with CreditCharge := 1 } }) none none,
    fun hd => ?_, fun hd => ?_⟩
  · rw [negotiate_retry]
    simp only [hreq, hret, hvalid, hd, Bool.false_eq_true, if_false, if_true]
  · rw [negotiate_retry]
    simp only [hreq, hret, hvalid, hd, Bool.false_eq_true, if_false]
    split <;> rfl

/-! ## The sequence window and the receiver -/

/-- The inner loop of the receiver leaves the sequence window alone. -/
theorem runReciever_deliver_sequenceWindow {A T : Type} (env : Env A T) :
    ∀ (fuel : Nat) (c : conn A T) (rr : Nat) (pkt : Bytes),
      (runReciever_deliver env fuel c rr pkt).conn.sequenceWindow = c.sequenceWindow := by
  intro fuel
  induction fuel with
  | zero => intro c rr pkt; rfl
  | succ fuel ih =>
    intro c rr pkt
    unfold runReciever_deliver
    dsimp only
    split
    · rfl
    · split
      · rfl
      · rw [ih]; rfl

/-- A pass of the receiver's outer loop leaves the sequence window alone. -/
theorem runReciever_step_sequenceWindow {A T : Type} (env : Env A T) (c : conn A T) :
    (runReciever_step env c).conn.sequenceWindow = c.sequenceWindow := by
  unfold runReciever_step
  dsimp only
  split
  · rfl
  · split
    · rfl
    · split
      · rfl
      · unfold runReciever_route
        dsimp only
        split
        · rfl
        · rw [runReciever_deliver_sequenceWindow]

/-- A wait in `recv`, with the receiver beside it, leaves the sequence window alone. -/
theorem recvWait_sequenceWindow {A T : Type} (env : Env A T) :
    ∀ (fuel : Nat) (c : conn A T) (receiving : Bool) (rr : Nat),
      (recvWait env fuel c receiving rr).conn.sequenceWindow = c.sequenceWindow := by
  intro fuel
  induction fuel with
  | zero => intro c receiving rr; rfl
  | succ fuel ih =>
    intro c receiving rr
    unfold recvWait
    split
    · rfl
    · split
      · have hstep := runReciever_step_sequenceWindow env c
        split
        · next c1 h =>
          rw [h] at hstep
          rw [ih]; exact hstep
        · next c1 err h =>
          rw [h] at hstep
          rw [ih]; exact hstep
        · next c1 h =>
          rw [h] at hstep
          exact hstep
      · rfl

/-- The sequence window after `sendRecv` is the one its `sendWith` left. -/
theorem sendRecv_sequenceWindow {A T : Type} (env : Env A T) (dec : Decoders) (c : conn A T)
    (receiving : Bool) (cmd : Nat) (req : Packet) :
    (sendRecv env dec c receiving cmd req).conn.sequenceWindow =
      (sendWith env c req none none).conn.sequenceWindow := by
  unfold sendRecv
  dsimp only
  split
  · rfl
  · next rr _ =>
    have h := recvWait_sequenceWindow env ((sendWith env c req none none).conn.Requests.length + 2)
      (sendWith env c req none none).conn receiving rr
    split <;> next heq => (rw [heq] at h; exact h)

/-- The sequence window after the `sendRecv` of one pass from `retry:` is one more than
before it, while the addition does not wrap. -/
theorem negotiate_send_sequenceWindow {A T : Type} (env : Env A T) (dec : Decoders)
    (c : conn A T) (receiving : Bool) (req : NegotiateRequest)
    (h : c.sequenceWindow + 1 < two64) :
    (sendRecv env dec c receiving SMB2_NEGOTIATE
      (NegotiateRequest.toPacket dec
        { req with hdr := { req.hdr with CreditCharge := 1 } })).conn.sequenceWindow =
      c.sequenceWindow + 1 := by
  rw [sendRecv_sequenceWindow, sendWith_conn_sequenceWindow,
    (sendWith_allocate_other env c _ (fun hk => by cases hk)).2.1]
  exact Nat.mod_eq_of_lt h

/-- One pass from `retry:` whose request was built and whose response `res` came back
valid, with the connection that `sendRecv` left: on the placeholder dialect the next
pass starts on that connection; on any other dialect lines 110-187 work on that
connection and the call ends with what they give. -/
theorem negotiate_retry_pass {A T R : Type} (env : Env A T) (dec : Decoders)
    (rand : R → Nat → Except String Bytes × R) (fuel : Nat) (st : NegotiateState A T R)
    (req : NegotiateRequest) (res : Bytes)
    (hreq : (makeRequest rand st.n st.rand).1 = .ok req)
    (hrecv : (sendRecv env dec st.conn st.receiving SMB2_NEGOTIATE
      (NegotiateRequest.toPacket dec
        { req with hdr := { req.hdr with CreditCharge := 1 } })).reply = some res)
    (hvalid : dec.NegotiateIsInvalid res = false) :
    ∃ hdr : PacketHeader,
      (dec.DialectRevision res = SMB2 →
        negotiate_retry env dec rand (fuel + 1) st =
          negotiate_retry env dec rand fuel
            { n := { st.n with SpecifiedDialect := SMB210 }
              rand := (makeRequest rand st.n st.rand).2
              conn := (sendRecv env dec st.conn st.receiving SMB2_NEGOTIATE
                (NegotiateRequest.toPacket dec
                  { req with hdr := { req.hdr with CreditCharge := 1 } })).conn
              receiving := (sendRecv env dec st.conn st.receiving SMB2_NEGOTIATE
                (NegotiateRequest.toPacket dec
                  { req with hdr := { req.hdr with CreditCharge := 1 } })).receiving
              sent := st.sent ++ [{ req with hdr := hdr }] }) ∧
      (dec.DialectRevision res ≠ SMB2 →
        negotiate_retry env dec rand (fuel + 1) st =
          { status :=
              match (negotiate_finish dec st.n
                (sendRecv env dec st.conn st.receiving SMB2_NEGOTIATE
                  (NegotiateRequest.toPacket dec
                    { req with hdr := { req.hdr with CreditCharge := 1 } })).conn res).1 with
              | some e => .error e
              | none => .ok
            state :=
              { n := st.n
                rand := (makeRequest rand st.n st.rand).2
                conn := (negotiate_finish dec st.n
                  (sendRecv env dec st.conn st.receiving SMB2_NEGOTIATE
                    (NegotiateRequest.toPacket dec
                      { req with hdr := { req.hdr with CreditCharge := 1 } })).conn res).2
                receiving := (sendRecv env dec st.conn st.receiving SMB2_NEGOTIATE
                (NegotiateRequest.toPacket dec
                  { req with hdr := { req.hdr with CreditCharge := 1 } })).receiving
                sent := st.sent ++ [{ req with hdr := hdr }] } }) := by
  obtain ⟨c, receiving, hret⟩ := Received.reply_some _ res hrecv
  refine ⟨sendWith_header env st.conn (NegotiateRequest.toPacket dec
    { req with hdr := { req.hdr with CreditCharge := 1 } }) none none,
    fun hd => ?_, fun hd => ?_⟩
  · rw [negotiate_retry]
    simp only [hreq, hret, hvalid, hd, Bool.false_eq_true, if_false, if_true, Received.conn,
      Received.receiving]
  · rw [negotiate_retry]
    simp only [hreq, hret, hvalid, hd, Bool.false_eq_true, if_false, Received.conn,
      Received.receiving]
    split <;> rfl

/-- The last pass of a call of `negotiate` that returns a connection: `sendRecv` leaves
the sequence window one above the window the pass started with, and lines 110-187,
working on that connection, leave 1. -/
theorem negotiate_pass_sequenceWindow {A T R : Type} (env : Env A T) (dec : Decoders)
    (rand : R → Nat → Except String Bytes × R) (fuel : Nat) (st : NegotiateState A T R)
    (req : NegotiateRequest) (res : Bytes)
    (hreq : (makeRequest rand st.n st.rand).1 = .ok req)
    (hrecv : (sendRecv env dec st.conn st.receiving SMB2_NEGOTIATE
      (NegotiateRequest.toPacket dec
        { req with hdr := { req.hdr with CreditCharge := 1 } })).reply = some res)
    (hvalid : dec.NegotiateIsInvalid res = false) (hdial : dec.DialectRevision res ≠ SMB2)
    (hok : (negotiate_retry env dec rand (fuel + 1) st).status = .ok)
    (hwin : st.conn.sequenceWindow + 1 < two64) :
    (sendRecv env dec st.conn st.receiving SMB2_NEGOTIATE
      (NegotiateRequest.toPacket dec
        { req with hdr := { req.hdr with CreditCharge := 1 } })).conn.sequenceWindow
      = st.conn.sequenceWindow + 1 ∧
    (negotiate_retry env dec rand (fuel + 1) st).state.conn =
      (negotiate_finish dec st.n
        (sendRecv env dec st.conn st.receiving SMB2_NEGOTIATE
          (NegotiateRequest.toPacket dec
            { req with hdr := { req.hdr with CreditCharge := 1 } })).conn res).2 ∧
    (negotiate_retry env dec rand (fuel + 1) st).state.conn.sequenceWindow = 1 := by
  obtain ⟨hdr, _, hstep⟩ :=
    negotiate_retry_pass env dec rand fuel st req res hreq hrecv hvalid
  have hrun := hstep hdial
  rw [hrun] at hok ⊢
  dsimp only at hok ⊢
  refine ⟨negotiate_send_sequenceWindow env dec st.conn st.receiving req hwin, rfl, ?_⟩
  cases hfin : (negotiate_finish dec st.n
      (sendRecv env dec st.conn st.receiving SMB2_NEGOTIATE
        (NegotiateRequest.toPacket dec
          { req with hdr := { req.hdr with CreditCharge := 1 } })).conn res).1 with
  | some e => rw [hfin] at hok; cases hok
  | none => exact (negotiate_finish_ok dec _ _ res hfin).2.2.2.1

/-- A request that `makeRequest` returned for a non-zero SpecifiedDialect names a
supported dialect. -/
theorem makeRequest_ok_supported {R : Type} (rand : R → Nat → Except String Bytes × R)
    (n : Negotiator) (r : R) (req : NegotiateRequest) (h : (makeRequest rand n r).1 = .ok req)
    (hu : n.SpecifiedDialect ≠ UnknownSMB) : supportedDialect n.SpecifiedDialect := by
  by_contra hns
  obtain ⟨req0, _, hd⟩ := (makeRequest_ok_iff rand n r req).mp h
  rw [(makeRequest_dialects_error rand n req0 _).1 ⟨hu, hns⟩] at hd
  cases hd

/-- C11 (as amended): when `negotiate` returns a connection without error, the recorded
dialect is the DialectRevision of the valid response it accepted, which is not the
placeholder 0x02FF; when SpecifiedDialect, as the call leaves it (the configured value,
or 2.1.0 after a retry), is non-zero the recorded dialect equals it and is one of
2.0.2, 2.1.0, 3.0.0, 3.0.2, 3.1.1; preauthIntegrityHashId is SHA-512 when a
PREAUTH_INTEGRITY_CAPABILITIES context is among the walked contexts of the response,
and cipherId is AES-128-CCM or AES-128-GCM when an ENCRYPTION_CAPABILITIES context is
among them. -/
theorem negotiate_records_response_dialect {A T R : Type} (env : Env A T) (dec : Decoders)
    (rand : R → Nat → Except String Bytes × R) (fuel : Nat) (n : Negotiator) (r : R) (t : T)
    (a : A) (hok : (negotiate env dec rand fuel n r t a).status = .ok) :
    ∃ res : Bytes,
      dec.NegotiateIsInvalid res = false ∧
      (negotiate env dec rand fuel n r t a).state.conn.dialect = dec.DialectRevision res ∧
      (negotiate env dec rand fuel n r t a).state.conn.dialect ≠ SMB2 ∧
      ((negotiate env dec rand fuel n r t a).state.n.SpecifiedDialect = n.SpecifiedDialect ∨
        (negotiate env dec rand fuel n r t a).state.n.SpecifiedDialect = SMB210) ∧
      ((negotiate env dec rand fuel n r t a).state.n.SpecifiedDialect ≠ UnknownSMB →
        (negotiate env dec rand fuel n r t a).state.conn.dialect =
          (negotiate env dec rand fuel n r t a).state.n.SpecifiedDialect ∧
        supportedDialect (negotiate env dec rand fuel n r t a).state.conn.dialect) ∧
      ((∃ i, i < dec.NegotiateContextCount res ∧
          dec.ContextType ((negotiate_advance dec)^[i] (dec.NegotiateContextList res)) =
            SMB2_PREAUTH_INTEGRITY_CAPABILITIES) →
        (negotiate env dec rand fuel n r t a).state.conn.preauthIntegrityHashId = SHA512) ∧
      ((∃ i, i < dec.NegotiateContextCount res ∧
          dec.ContextType ((negotiate_advance dec)^[i] (dec.NegotiateContextList res)) =
            SMB2_ENCRYPTION_CAPABILITIES) →
        ((negotiate env dec rand fuel n r t a).state.conn.cipherId = AES128CCM ∨
          (negotiate env dec rand fuel n r t a).state.conn.cipherId = AES128GCM)) := by
  obtain ⟨r1, req, c1, res, _, _, hsd, hmk, _, _, hvalid, hdial, hfin, hconn⟩ :=
    negotiate_retry_ok env dec rand fuel
      { n := n, rand := r, conn := conn.init t a, receiving := true, sent := [] }
      (negotiate env dec rand fuel n r t a) rfl hok
  obtain ⟨hd1, hd2, _, _, _, hhash, hciph⟩ := negotiate_finish_ok dec _ c1 res hfin
  have hdialect : (negotiate env dec rand fuel n r t a).state.conn.dialect =
      dec.DialectRevision res := by rw [hconn]; exact hd2
  refine ⟨res, hvalid, hdialect, by rw [hdialect]; exact hdial, hsd, fun hu => ?_, ?_, ?_⟩
  · have heq := (hdialect.trans (hd1 hu))
    exact ⟨heq, by rw [heq]; exact makeRequest_ok_supported rand _ r1 req hmk hu⟩
  · intro hex; rw [hconn]; exact hhash hex
  · intro hex; rw [hconn]; exact hciph hex

/-- C11 at a concrete input: a 3.1.1 response with a SHA-512 and an AES-128-GCM context. -/
theorem negotiate_records_response_dialect_witness :
    (negotiateWith ⟨false, zero, SMB311⟩ [negotiateReply 0 SMB311 2 contexts311]).status = .ok ∧
    ∃ res : Bytes,
      (negotiateWith ⟨false, zero, SMB311⟩
        [negotiateReply 0 SMB311 2 contexts311]).state.conn.dialect =
          wireDecoders.DialectRevision res ∧
      (negotiateWith ⟨false, zero, SMB311⟩
        [negotiateReply 0 SMB311 2 contexts311]).state.conn.dialect ≠ SMB2 := by
  refine ⟨by decide, ?_⟩
  obtain ⟨res, _, h1, h2, _⟩ := negotiate_records_response_dialect wireEnv wireDecoders
    countingRand 8 ⟨false, zero, SMB311⟩ 0 ⟨[negotiateReply 0 SMB311 2 contexts311], [], false⟩ 0
    (by decide)
  exact ⟨res, h1, h2⟩

/-- C11 fails as stated: with no dialect specified, a response with DialectRevision
0x0400 is accepted and 0x0400 is recorded; and a 3.1.1 response without negotiate
contexts is accepted with neither preauthIntegrityHashId nor cipherId set. -/
theorem negotiate_accepts_unlisted_dialect :
    (negotiateWith ⟨false, zero, 0⟩ [negotiateReply 0 0x0400 0 []]).status = .ok ∧
    (negotiateWith ⟨false, zero, 0⟩ [negotiateReply 0 0x0400 0 []]).state.conn.dialect
      = 0x0400 ∧
    (negotiateWith ⟨false, zero, 0⟩ [negotiateReply 0 SMB311 0 []]).status = .ok ∧
    (negotiateWith ⟨false, zero, 0⟩ [negotiateReply 0 SMB311 0 []]).state.conn.dialect
      = 0x0311 ∧
    (negotiateWith ⟨false, zero, 0⟩
      [negotiateReply 0 SMB311 0 []]).state.conn.preauthIntegrityHashId = 0 ∧
    (negotiateWith ⟨false, zero, 0⟩ [negotiateReply 0 SMB311 0 []]).state.conn.cipherId = 0 ∧
    SHA512 ≠ 0 ∧ AES128CCM ≠ 0 ∧ AES128GCM ≠ 0 := by
  refine ⟨by decide, by decide, by decide, by decide, by decide, by decide, by decide,
    by decide, by decide⟩

/-- C12: `negotiate` returns a connection only if every context it walks in the
accepted response is accepted (a PREAUTH_INTEGRITY_CAPABILITIES context lists exactly
SHA-512, an ENCRYPTION_CAPABILITIES context lists exactly one cipher, AES-128-CCM or
AES-128-GCM); on a valid response that passes the dialect checks the call succeeds
exactly when all walked contexts are accepted and otherwise fails with an
InvalidResponseError, with "multiple hash algorithms" when the first context not
accepted is a well-formed hash context with another number of algorithms than one;
a well-formed context of any other type is accepted. -/
theorem negotiate_checks_contexts {A T R : Type} (env : Env A T) (dec : Decoders)
    (rand : R → Nat → Except String Bytes × R) :
    (∀ (fuel : Nat) (n : Negotiator) (r : R) (t : T) (a : A),
      (negotiate env dec rand fuel n r t a).status = .ok →
      ∃ res : Bytes, dec.NegotiateIsInvalid res = false ∧
        (negotiate env dec rand fuel n r t a).state.conn.dialect = dec.DialectRevision res ∧
        ∀ i, i < dec.NegotiateContextCount res →
          contextAccepted dec ((negotiate_advance dec)^[i] (dec.NegotiateContextList res))) ∧
    (∀ (fuel : Nat) (st : NegotiateState A T R) (req : NegotiateRequest) (res : Bytes),
      (makeRequest rand st.n st.rand).1 = .ok req →
      (sendRecv env dec st.conn st.receiving SMB2_NEGOTIATE
        (NegotiateRequest.toPacket dec
          { req with hdr := { req.hdr with CreditCharge := 1 } })).reply = some res →
      dec.NegotiateIsInvalid res = false →
      dec.DialectRevision res ≠ SMB2 →
      (st.n.SpecifiedDialect = UnknownSMB ∨ st.n.SpecifiedDialect = dec.DialectRevision res) →
      ((negotiate_retry env dec rand (fuel + 1) st).status = .ok ↔
        ∀ i, i < dec.NegotiateContextCount res →
          contextAccepted dec ((negotiate_advance dec)^[i] (dec.NegotiateContextList res))) ∧
      ((negotiate_retry env dec rand (fuel + 1) st).status = .ok ∨
        ∃ msg, (negotiate_retry env dec rand (fuel + 1) st).status =
          .error (Error.InvalidResponseError msg)) ∧
      (∀ k, k < dec.NegotiateContextCount res →
        (∀ j, j < k →
          contextAccepted dec ((negotiate_advance dec)^[j] (dec.NegotiateContextList res))) →
        dec.ContextIsInvalid ((negotiate_advance dec)^[k] (dec.NegotiateContextList res))
          = false →
        dec.ContextType ((negotiate_advance dec)^[k] (dec.NegotiateContextList res)) =
          SMB2_PREAUTH_INTEGRITY_CAPABILITIES →
        dec.HashIsInvalid
          (dec.ContextData ((negotiate_advance dec)^[k] (dec.NegotiateContextList res)))
          = false →
        (dec.HashAlgorithms
          (dec.ContextData
            ((negotiate_advance dec)^[k] (dec.NegotiateContextList res)))).length ≠ 1 →
        (negotiate_retry env dec rand (fuel + 1) st).status =
          .error (Error.InvalidResponseError "multiple hash algorithms"))) ∧
    (∀ ctx : Bytes, dec.ContextIsInvalid ctx = false →
      dec.ContextType ctx ≠ SMB2_PREAUTH_INTEGRITY_CAPABILITIES →
      dec.ContextType ctx ≠ SMB2_ENCRYPTION_CAPABILITIES → contextAccepted dec ctx) := by
  refine ⟨?_, ?_, ?_⟩
  · intro fuel n r t a hok
    obtain ⟨r1, req, c1, res, _, _, _, _, _, _, hvalid, _, hfin, hconn⟩ :=
      negotiate_retry_ok env dec rand fuel
        { n := n, rand := r, conn := conn.init t a, receiving := true, sent := [] }
        (negotiate env dec rand fuel n r t a) rfl hok
    obtain ⟨_, hd2, _, _, hacc, _⟩ := negotiate_finish_ok dec _ c1 res hfin
    exact ⟨res, hvalid, by rw [hconn]; exact hd2, hacc⟩
  · intro fuel st req res hreq hrecv hvalid hdial hspecified
    obtain ⟨c, receiving, hdr, _, hstep⟩ :=
      negotiate_retry_step env dec rand fuel st req res hreq hrecv hvalid
    have hfin : negotiate_finish dec st.n c res =
        negotiate_contexts dec (dec.NegotiateContextCount res) (negotiate_record dec st.n c res)
          (dec.NegotiateContextList res) := by
      unfold negotiate_finish
      rw [if_neg]
      rintro ⟨h1, h2⟩
      rcases hspecified with h | h
      · exact h1 h
      · exact h2 h
    have hspec := negotiate_contexts_spec dec (dec.NegotiateContextCount res)
      (negotiate_record dec st.n c res) (dec.NegotiateContextList res)
    rw [hstep hdial, hfin]
    dsimp only
    refine ⟨?_, ?_, ?_⟩
    · rw [← hspec.1]
      cases (negotiate_contexts dec (dec.NegotiateContextCount res)
        (negotiate_record dec st.n c res) (dec.NegotiateContextList res)).1 <;> simp
    · cases h : (negotiate_contexts dec (dec.NegotiateContextCount res)
        (negotiate_record dec st.n c res) (dec.NegotiateContextList res)).1 with
      | none => exact Or.inl rfl
      | some e =>
        obtain ⟨msg, hmsg⟩ := hspec.2 e h
        exact Or.inr ⟨msg, by rw [hmsg]⟩
    · intro k hk hbefore hv ht hh hlen
      rw [negotiate_contexts_multiple_hash dec _ _ _ k hk hbefore hv ht hh hlen]
  · intro ctx hv h1 h2
    exact ⟨hv, fun h => absurd h h1, fun h => absurd h h2⟩

/-- C12 at concrete inputs: a 3.1.1 response whose hash context lists two algorithms
ends `negotiate` with "multiple hash algorithms"; with SHA-512 alone and AES-128-GCM
the call succeeds. -/
theorem negotiate_checks_contexts_witness :
    (negotiateWith ⟨false, zero, 0⟩ [negotiateReply 0 SMB311 2 contextsTwoHashes]).status =
      .error (Error.InvalidResponseError "multiple hash algorithms") ∧
    (negotiateWith ⟨false, zero, 0⟩ [negotiateReply 0 SMB311 2 contexts311]).status = .ok :=
  ⟨((negotiate_checks_contexts wireEnv wireDecoders countingRand).2.1 7
      (negotiateStart ⟨false, zero, 0⟩ [negotiateReply 0 SMB311 2 contextsTwoHashes])
      firstRequest (PacketCodec.Data (negotiateReply 0 SMB311 2 contextsTwoHashes))
      rfl (by decide) (by decide) (by decide) (Or.inl rfl)).2.2 0 (by decide)
      (fun j hj => absurd hj (Nat.not_lt_zero j)) (by decide) (by decide) (by decide)
      (by decide),
    ((negotiate_checks_contexts wireEnv wireDecoders countingRand).2.1 7
      (negotiateStart ⟨false, zero, 0⟩ [negotiateReply 0 SMB311 2 contexts311])
      firstRequest (PacketCodec.Data (negotiateReply 0 SMB311 2 contexts311))
      rfl (by decide) (by decide) (by decide) (Or.inl rfl)).1.mpr (by
        intro i hi
        have h2 : i < 2 := hi
        unfold contextAccepted
        interval_cases i <;> decide)⟩

/-- C13 (as amended): every valid reply with DialectRevision 0x02FF sets
SpecifiedDialect to 2.1.0 and takes `negotiate` back to `retry:` with one more
NEGOTIATE request sent, whatever the number of requests sent before; with
SpecifiedDialect = 0, a first reply of 0x02FF followed by a reply of 0x0210 makes
`negotiate` succeed after two requests with dialect 0x0210 recorded. -/
theorem negotiate_retries_on_placeholder {A T R : Type} (env : Env A T) (dec : Decoders)
    (rand : R → Nat → Except String Bytes × R) :
    (∀ (fuel : Nat) (st : NegotiateState A T R) (req : NegotiateRequest) (res : Bytes),
      (makeRequest rand st.n st.rand).1 = .ok req →
      (sendRecv env dec st.conn st.receiving SMB2_NEGOTIATE
        (NegotiateRequest.toPacket dec
          { req with hdr := { req.hdr with CreditCharge := 1 } })).reply = some res →
      dec.NegotiateIsInvalid res = false →
      dec.DialectRevision res = SMB2 →
      ∃ st1 : NegotiateState A T R,
        negotiate_retry env dec rand (fuel + 1) st = negotiate_retry env dec rand fuel st1 ∧
        st1.n = { st.n with SpecifiedDialect := SMB210 } ∧
        st1.sent.length = st.sent.length + 1 ∧
        ∃ hdr, st1.sent = st.sent ++ [{ req with hdr := hdr }]) ∧
    (negotiateWith ⟨false, zero, 0⟩
      [negotiateReply 0 SMB2 0 [], negotiateReply 1 SMB210 0 []]).status = .ok ∧
    (negotiateWith ⟨false, zero, 0⟩
      [negotiateReply 0 SMB2 0 [], negotiateReply 1 SMB210 0 []]).state.conn.dialect = 0x0210 ∧
    (negotiateWith ⟨false, zero, 0⟩
      [negotiateReply 0 SMB2 0 [], negotiateReply 1 SMB210 0 []]).state.n.SpecifiedDialect
        = 0x0210 ∧
    (negotiateWith ⟨false, zero, 0⟩
      [negotiateReply 0 SMB2 0 [], negotiateReply 1 SMB210 0 []]).state.sent.length = 2 := by
  refine ⟨?_, by decide, by decide, by decide, by decide⟩
  intro fuel st req res hreq hrecv hvalid hdial
  obtain ⟨c, receiving, hdr, hstep, _⟩ :=
    negotiate_retry_step env dec rand fuel st req res hreq hrecv hvalid
  exact ⟨_, hstep hdial, rfl, by simp, hdr, rfl⟩

/-- C13 at a concrete input: the reply 0x02FF to the first request of the evaluation
scenario takes the call back to `retry:` with SpecifiedDialect 2.1.0 and one request
sent. -/
theorem negotiate_retries_on_placeholder_witness :
    ∃ st1 : NegotiateState Nat Pipe Nat,
      negotiateWith ⟨false, zero, 0⟩ [negotiateReply 0 SMB2 0 [], negotiateReply 1 SMB210 0 []]
        = negotiate_retry wireEnv wireDecoders countingRand 7 st1 ∧
      st1.n = ⟨false, zero, SMB210⟩ ∧ st1.sent.length = 1 := by
  obtain ⟨st1, h1, h2, h3, _⟩ :=
    (negotiate_retries_on_placeholder wireEnv wireDecoders countingRand).1 7
      (negotiateStart ⟨false, zero, 0⟩ [negotiateReply 0 SMB2 0 [], negotiateReply 1 SMB210 0 []])
      firstRequest (PacketCodec.Data (negotiateReply 0 SMB2 0 [])) rfl (by decide) (by decide)
      (by decide)
  exact ⟨st1, h1, h2, h3⟩

/-- C13 fails as stated: when the server answers the first two requests with 0x02FF
and the third with 0x0210, `negotiate` sends three NEGOTIATE requests (MessageIds 0, 1,
2) and succeeds. -/
theorem negotiate_sends_three_requests :
    (negotiateWith ⟨false, zero, 0⟩
      [negotiateReply 0 SMB2 0 [], negotiateReply 1 SMB2 0 [],
        negotiateReply 2 SMB210 0 []]).status = .ok ∧
    (negotiateWith ⟨false, zero, 0⟩
      [negotiateReply 0 SMB2 0 [], negotiateReply 1 SMB2 0 [],
        negotiateReply 2 SMB210 0 []]).state.sent.length = 3 ∧
    (negotiateWith ⟨false, zero, 0⟩
      [negotiateReply 0 SMB2 0 [], negotiateReply 1 SMB2 0 [],
        negotiateReply 2 SMB210 0 []]).state.sent.map (fun req => req.hdr.MessageId)
      = [0, 1, 2] ∧
    (negotiateWith ⟨false, zero, 0⟩
      [negotiateReply 0 SMB2 0 [], negotiateReply 1 SMB2 0 [],
        negotiateReply 2 SMB210 0 []]).state.sent.map (fun req => req.Dialects)
      = [clientDialects, [SMB210], [SMB210]] ∧
    (negotiateWith ⟨false, zero, 0⟩
      [negotiateReply 0 SMB2 0 [], negotiateReply 1 SMB2 0 [],
        negotiateReply 2 SMB210 0 []]).state.conn.dialect = 0x0210 := by
  refine ⟨by decide, by decide, by decide, by decide, by decide⟩

/-- C17 fails in the code: against a server that answers the first NEGOTIATE request
with 0x02FF and the second with 0x0210, `negotiate` sends two requests with MessageIds 0
and 1; when the second `sendRecv` returns, the sequence window of the connection is 2;
the recording step of lines 110-187 then works on that connection and leaves the
window at 1, so the window is smaller than before the step, and the next request sent
on the returned connection carries MessageId 1 again. -/
theorem negotiate_retry_lowers_sequenceWindow :
    (makeRequest countingRand ⟨false, zero, 0⟩ 0).1 = .ok firstRequest ∧
    retryFirst.reply = some (PacketCodec.Data (negotiateReply 0 SMB2 0 [])) ∧
    retryFirst.conn.sequenceWindow = 1 ∧
    (∃ hdr, negotiateWith ⟨false, zero, 0⟩ retryFrames =
      negotiate_retry wireEnv wireDecoders countingRand 7
        { n := ⟨false, zero, SMB210⟩
          rand := 2
          conn := retryFirst.conn
          receiving := retryFirst.receiving
          sent := [{ firstRequest with hdr := hdr }] }) ∧
    (makeRequest countingRand ⟨false, zero, SMB210⟩ 2).1 = .ok secondRequest ∧
    retrySecond.reply = some (PacketCodec.Data (negotiateReply 1 SMB210 0 [])) ∧
    retrySecond.conn.sequenceWindow = 2 ∧
    (negotiateWith ⟨false, zero, 0⟩ retryFrames).status = .ok ∧
    (negotiateWith ⟨false, zero, 0⟩ retryFrames).state.sent.map
      (fun req => req.hdr.MessageId) = [0, 1] ∧
    (negotiateWith ⟨false, zero, 0⟩ retryFrames).state.conn =
      (negotiate_finish wireDecoders ⟨false, zero, SMB210⟩ retrySecond.conn
        (PacketCodec.Data (negotiateReply 1 SMB210 0 []))).2 ∧
    (negotiateWith ⟨false, zero, 0⟩ retryFrames).state.conn.sequenceWindow = 1 ∧
    (sendWith wireEnv (negotiateWith ⟨false, zero, 0⟩ retryFrames).state.conn
      (testRequest PacketKind.SessionSetupRequest 1 0 0 8) none none).req.hdr.MessageId = 1 := by
  obtain ⟨hdr1, hretry, _⟩ := negotiate_retry_pass wireEnv wireDecoders countingRand 7
    (negotiateStart ⟨false, zero, 0⟩ retryFrames) firstRequest
    (PacketCodec.Data (negotiateReply 0 SMB2 0 [])) rfl (by decide) (by decide)
  have hfirst : negotiateWith ⟨false, zero, 0⟩ retryFrames =
      negotiate_retry wireEnv wireDecoders countingRand 7
        { n := ⟨false, zero, SMB210⟩
          rand := 2
          conn := retryFirst.conn
          receiving := retryFirst.receiving
          sent := [{ firstRequest with hdr := hdr1 }] } := hretry (by decide)
  have hsecond : retrySecond.reply = some (PacketCodec.Data (negotiateReply 1 SMB210 0 [])) := by
    decide
  obtain ⟨hdr2, _, hlast⟩ := negotiate_retry_pass wireEnv wireDecoders countingRand 6
    { n := ⟨false, zero, SMB210⟩
      rand := 2
      conn := retryFirst.conn
      receiving := retryFirst.receiving
      sent := [{ firstRequest with hdr := hdr1 }] }
    secondRequest (PacketCodec.Data (negotiateReply 1 SMB210 0 [])) rfl hsecond (by decide)
  have hconn : (negotiateWith ⟨false, zero, 0⟩ retryFrames).state.conn =
      (negotiate_finish wireDecoders ⟨false, zero, SMB210⟩ retrySecond.conn
        (PacketCodec.Data (negotiateReply 1 SMB210 0 []))).2 := by
    rw [hfirst, hlast (by decide)]
    rfl
  exact ⟨rfl, by decide, by decide, ⟨hdr1, hfirst⟩, rfl, hsecond, by decide, by decide,
    by decide, hconn, by decide, by decide⟩

/-- A call of `negotiate` that returns a connection recorded the configured
ClientGuid; the last request it sent carried the configured ClientGuid when that is
not zero and 16 bytes of the random source when it is zero. -/
theorem negotiate_clientGuid {A T R : Type} (env : Env A T) (dec : Decoders)
    (rand : R → Nat → Except String Bytes × R) (fuel : Nat) (n : Negotiator) (r : R) (t : T)
    (a : A) (hok : (negotiate env dec rand fuel n r t a).status = .ok) :
    (negotiate env dec rand fuel n r t a).state.conn.clientGuid = n.ClientGuid ∧
    ∃ (req : NegotiateRequest) (hdr : PacketHeader),
      (negotiate env dec rand fuel n r t a).state.sent.getLast? = some { req with hdr := hdr } ∧
      (n.ClientGuid ≠ zero → req.ClientGuid = n.ClientGuid) ∧
      (n.ClientGuid = zero → ∃ r1 b, (rand r1 16).1 = .ok b ∧ req.ClientGuid = fillBuffer 16 b) := by
  obtain ⟨r1, req, c1, res, hguid, _, _, hmk, ⟨hdr, hlast⟩, _, _, _, hfin, hconn⟩ :=
    negotiate_retry_ok env dec rand fuel
      { n := n, rand := r, conn := conn.init t a, receiving := true, sent := [] }
      (negotiate env dec rand fuel n r t a) rfl hok
  have hguid1 : (negotiate env dec rand fuel n r t a).state.n.ClientGuid = n.ClientGuid := hguid
  obtain ⟨req0, hg, hd⟩ := (makeRequest_ok_iff rand _ r1 req).mp hmk
  obtain ⟨h1, h2, h3, hne, hz⟩ := makeRequest_guid_ok rand _ r1 req0 hg
  have hcg := (makeRequest_dialects_ok rand _ req0 req _ ⟨h1, h2, h3⟩ hd).1
  refine ⟨?_, req, hdr, hlast, fun h => ?_, fun h => ?_⟩
  · rw [hconn, (negotiate_finish_ok dec _ c1 res hfin).2.2.1, hguid1]
  · rw [hcg, hne (by rw [hguid1]; exact h), hguid1]
  · obtain ⟨b, hb, hreq⟩ := hz (by rw [hguid1]; exact h)
    exact ⟨r1, b, hb, by rw [hcg, hreq]⟩

/-- C20 fails in the code: with a zero configured ClientGuid, `negotiate` sends a
request whose ClientGuid is the 16 random bytes 1..16 and, on success, records the
all-zero configured ClientGuid on the connection. -/
theorem negotiate_records_zero_clientGuid :
    (negotiateWith ⟨false, zero, 0⟩ [negotiateReply 0 SMB311 2 contexts311]).status = .ok ∧
    (negotiateWith ⟨false, zero, 0⟩ [negotiateReply 0 SMB311 2 contexts311]).state.sent.map
      (fun req => req.ClientGuid) = [[1, 2, 3, 4, 5, 6, 7, 8, 9, 10, 11, 12, 13, 14, 15, 16]] ∧
    (negotiateWith ⟨false, zero, 0⟩
      [negotiateReply 0 SMB311 2 contexts311]).state.conn.clientGuid =
        [0, 0, 0, 0, 0, 0, 0, 0, 0, 0, 0, 0, 0, 0, 0, 0] := by
  refine ⟨by decide, by decide, by decide⟩

end Smb2
